import Mathlib

/-!
# Balancer policy utilities (`pybuda/csrc/balancer/policies/policy_utils.cpp`)

Shallow embedding of the policy helpers of the balancer and proofs about them.

Conventions of the embedding.
* Types declared in headers outside this file of the repository (`OpModel`, `Node`, `Edge`,
  `DeviceConfig`, `GraphSolver`, `InteractivePlacer`, ...) are records holding exactly the
  attributes that the functions below read; graph accessors are fields of `Graph`.
* Dimensions, sizes and cycle counts stored in those records are counts and are kept in `Nat`;
  function parameters declared `int` in the source are `Int`, and subtraction is done in `Int`.
* A failed `TT_ASSERT` and an out-of-range `operator[]` make a function return `none`; the
  `TT_THROW` of `validate_solution` is an `Except.error`.
* `float` and `double` expressions are idealised as exact rationals (no rounding); the results of
  a division by zero (NaN, infinities) are kept apart, see `FloatVal`.
* Configuration read through `env_as` is passed explicitly (`CompareEnv`, `RibbonEnv`).
-/

namespace PolicyUtils

/-! ## Data model -/

/-- Node kinds of `graphlib::NodeType` (kinds not tested by the policies are `kOther`). -/
inductive NodeType where
  | kInput
  | kOutput
  | kQueue
  | kBudaOp
  | kOther
deriving DecidableEq, Repr

/-- Attributes of a graph node read by the policies (`Node`, `BudaOpNode`, `QueueNode`). -/
structure Node where
  id : Nat
  name : String
  node_type : NodeType
  is_matmul : Bool
  is_sparse_matmul : Bool
  is_dense_matmul : Bool
  is_matmul_not_sparse : Bool
  tags : List String
  shape_rt : Nat
  is_buffering : Bool
deriving DecidableEq, Repr

/-- Data carried by `graphlib::Edge`; `is_data` is `edge_type == EdgeType::kData`. -/
structure Edge where
  producer_node_id : Nat
  consumer_node_id : Nat
  producer_output_port_id : Nat
  consumer_input_port_id : Nat
  is_data : Bool
deriving DecidableEq, Repr

/-- Accessors of `graphlib::Graph` used by the policies. `should_pair_with_sparse dense sparse`
is the result of `dense->should_pair_with_sparse(sparse, graph)`, and `get_edges src dest` lists
the edges of every type from `src` to `dest`. -/
structure Graph where
  get_node_by_name : String → Node
  node_by_id : Nat → Node
  user_data_edges : Node → List Edge
  operand_data_edges : Node → List Edge
  data_users : Node → List Node
  data_operands : Node → List Node
  should_pair_with_sparse : Node → Node → Bool
  get_edges : Node → Node → List Edge := fun _ _ => []

structure GridShape where
  r : Nat
  c : Nat
deriving DecidableEq, Repr

structure UBlockShape where
  rt : Nat
  ct : Nat
deriving DecidableEq, Repr

/-- Observed values of a `BlockShape`: the field `t`, the micro block, and the results of the
accessors `volume_no_t()` and `rt()`. -/
structure BlockShape where
  t : Nat
  ublock : UBlockShape
  volume_no_t : Nat
  rt : Nat
deriving DecidableEq, Repr

/-- A `BufferModel`; `to_bool` is the result of its `operator bool`. -/
structure BufferModel where
  to_bool : Bool
  block_shape : BlockShape
  total_size_bytes : Nat
deriving DecidableEq, Repr

/-- A `TStreamFactor`; `z_major` is the result of `dir.z_major()`. -/
structure TStreamFactor where
  r : Nat
  c : Nat
  z_major : Bool := false
deriving DecidableEq, Repr

/-- An execution plan. `get_execution_cycles` gives the cycle count per architecture name,
`block_shape` the result of the accessor `block_shape()`, `id` the value `id.id` and
`has_sparse_buffer` the result of `has_sparse_buffer()`. -/
structure OpModel where
  id : Nat
  buda_op_node : Node
  grid_shape : GridShape
  t_stream_factor : TStreamFactor
  block_shape : BlockShape
  parameter_buffers : List BufferModel
  input_buffers : List BufferModel
  output_buffers : List BufferModel
  get_execution_cycles : String → Nat
  fracture_factor : Nat := 1
  has_sparse_buffer : Bool := false

/-- Getters of `DeviceConfig` used by the cost model. -/
structure DeviceConfig where
  arch_name : String
  is_wormhole : Bool
  noc_bandwidth_bytes_per_cycle : ℚ
  dram_bandwidth_bytes_per_cycle : ℚ
  dram_num_channels : Nat
  dram_num_subchannels : Nat

/-- Configuration of the comparator and of the cost model: the values of
`PYBUDA_OP_MODEL_COMPARE_VERSION` (default 2) and `PYBUDA_BALANCER_LEGACY_CYCLES_CALC`, and the
defaulted argument `dram_access_core_count` of `get_limiter_cycles`. -/
structure CompareEnv where
  op_model_compare_version : Int
  legacy_cycles_calc : Bool
  dram_access_core_count : Int

/-! ## Float values -/

/-- Value of a `float` expression: NaN, an infinity, or a finite number. -/
inductive FloatVal where
  | nan
  | ninf
  | fin (q : ℚ)
  | pinf
deriving DecidableEq

/-- The comparison `a > b` of two floats; every comparison with NaN is false. -/
def FloatVal.gt : FloatVal → FloatVal → Bool
  | .fin a, .fin b => decide (b < a)
  | .pinf, .fin _ => true
  | .pinf, .ninf => true
  | .fin _, .ninf => true
  | _, _ => false

/-- Rounding of a non-negative rational to the nearest natural number, ties to the even one. -/
def round_half_even (x : ℚ) : Nat :=
  let f := ⌊x⌋₊
  if x - f < 1 / 2 then f
  else if 1 / 2 < x - f then f + 1
  else if f % 2 = 0 then f else f + 1

/-- Rounding to nearest, ties to even, of a rational to the binary floating-point format with
`p` significant bits, least quantum `2 ^ emin` and overflow threshold `2 ^ emax` (IEEE 754).
The sign of a zero is not kept. -/
def round_float (p : Nat) (emin emax : Int) (q : ℚ) : FloatVal :=
  if q = 0 then FloatVal.fin 0
  else
    let e := max (Int.log 2 |q| - ((p : Int) - 1)) emin
    let v := (round_half_even (|q| / (2 : ℚ) ^ e) : ℚ) * (2 : ℚ) ^ e
    if (2 : ℚ) ^ emax ≤ v then (if 0 < q then FloatVal.pinf else FloatVal.ninf)
    else FloatVal.fin (if 0 < q then v else -v)

/-- Conversion to `float`, the 32-bit format (24 significant bits). -/
def to_float32 (q : ℚ) : FloatVal := round_float 24 (-149) 128 q

/-- Conversion to `double`, the 64-bit format (53 significant bits). -/
def to_float64 (q : ℚ) : FloatVal := round_float 53 (-1074) 1024 q

/-- The quotient `a / b` of two floats in the format whose rounding is `round`; a zero divisor
counts as `+0`. -/
def FloatVal.div (round : ℚ → FloatVal) : FloatVal → FloatVal → FloatVal
  | .fin a, .fin b =>
    if b = 0 then
      (if a = 0 then FloatVal.nan else if 0 < a then FloatVal.pinf else FloatVal.ninf)
    else round (a / b)
  | .fin _, .pinf => FloatVal.fin 0
  | .fin _, .ninf => FloatVal.fin 0
  | .pinf, .fin b => if 0 ≤ b then FloatVal.pinf else FloatVal.ninf
  | .ninf, .fin b => if 0 ≤ b then FloatVal.ninf else FloatVal.pinf
  | _, _ => FloatVal.nan

/-- The quotient `(float)a / (float)b` of two integers: both are converted to 32-bit floats
and their quotient is rounded to a 32-bit float. -/
def float_div (a b : Int) : FloatVal :=
  FloatVal.div to_float32 (to_float32 (a : ℚ)) (to_float32 (b : ℚ))

/-- Truncation toward zero: `static_cast<int>` of a finite float. -/
def trunc (q : ℚ) : Int := if 0 ≤ q then ⌊q⌋ else ⌈q⌉

/-- The value `static_cast<int>(bytes / bw)` in exact arithmetic: the rational quotient,
truncated to an integer of any size (the float computation of the source is `float_cycles`);
the cast of the non-finite quotient obtained for `bw = 0` is undefined. -/
def static_cast_int (bytes : Nat) (bw : ℚ) : Option Int :=
  if bw = 0 then none else some (trunc ((bytes : ℚ) / bw))

/-- Conversion of an `int` to `std::uint32_t`. -/
def to_uint32 (z : Int) : Nat := (z % 4294967296).toNat

/-- Conversion of a `std::uint32_t` to `int`. -/
def to_int32 (n : Nat) : Int :=
  if n % 4294967296 < 2147483648 then ((n % 4294967296 : Nat) : Int)
  else ((n % 4294967296 : Nat) : Int) - 4294967296

/-! ## Plan predicates -/

def prologue_ok (op_model : OpModel) : Option Bool :=
  let needs_prologue := op_model.buda_op_node.is_matmul
  if needs_prologue then
    if op_model.buda_op_node.is_sparse_matmul then
      if op_model.parameter_buffers.length = 3 then
        (op_model.parameter_buffers[0]?).bind fun b0 =>
        (op_model.parameter_buffers[2]?).bind fun b2 =>
        some (b0.to_bool && b2.to_bool)
      else none
    else if op_model.buda_op_node.is_dense_matmul then
      if op_model.parameter_buffers.length > 1 then
        (op_model.parameter_buffers[1]?).bind fun b1 => some b1.to_bool
      else none
    else
      if op_model.parameter_buffers.length > 1 then
        (op_model.parameter_buffers[1]?).bind fun b1 => some b1.to_bool
      else some false
  else some true

def ukt_ok (op_model : OpModel) : Option Bool :=
  if op_model.buda_op_node.is_matmul_not_sparse then
    (op_model.input_buffers[0]?).bind fun b => some (decide (b.block_shape.ublock.ct ≥ 4))
  else if op_model.buda_op_node.is_sparse_matmul then
    (op_model.input_buffers[1]?).bind fun b => some (decide (b.block_shape.ublock.rt ≥ 4))
  else some true

def mblock_size_ok (op_model : OpModel) : Bool :=
  if op_model.block_shape.t > 1 then decide (op_model.block_shape.volume_no_t ≥ 8) else true

/-- The test `x > target * 0.8` of an integer against a `double` product. For 32-bit integers
the rounded product lies on the same side of every integer as the exact `4 * target / 5`, so
the test is `4 * target < 5 * x`. -/
def above_80_percent (x target : Int) : Bool := decide (4 * target < 5 * x)

def close_to_target_exec_cycles (kernel_exec_cycles limiter_cycles target : Int) : Bool :=
  decide (limiter_cycles < target) && above_80_percent kernel_exec_cycles target

/-- The parameters are `std::uint32_t`; callers passing `int` values convert them. -/
def close_to_target (test target : Nat) : Bool :=
  decide (test < target) && above_80_percent (test : Int) (target : Int)

/-! ## Cost model

The bandwidths and the memory terms of this section are computed in exact rational
arithmetic, the reading "buffer bytes / bandwidth, truncated" of the cost; the section
"Cost model in float arithmetic" below carries the `float` arithmetic of the source. -/

def noc_bw (device_config : DeviceConfig) : ℚ :=
  device_config.noc_bandwidth_bytes_per_cycle / 2

/-- The divider `std::max(inefficency_divider, std::ceil(count / (channels * subchannels / 1.5)))`
applied to the DRAM bandwidth, as an extended value: with no channel capacity and a positive
count the quotient, and so the divider, is infinite. -/
def dram_bw_divider (device_config : DeviceConfig) (dram_access_core_count : Int) : Option ℚ :=
  let capacity : ℚ :=
    ((device_config.dram_num_channels * device_config.dram_num_subchannels : Nat) : ℚ) / (3 / 2)
  if capacity = 0 then
    (if 0 < dram_access_core_count then none else some 2)
  else some (max 2 ((⌈(dram_access_core_count : ℚ) / capacity⌉ : Int) : ℚ))

/-- The derated DRAM bandwidth; an infinite divider gives bandwidth zero. -/
def dram_bw (device_config : DeviceConfig) (dram_access_core_count : Int) : ℚ :=
  match dram_bw_divider device_config dram_access_core_count with
  | none => 0
  | some d =>
    if device_config.is_wormhole then (102 / 5) / d
    else device_config.dram_bandwidth_bytes_per_cycle / d

/-- Body of the loop over `data_operands`: the read cycles of one operand edge. -/
def read_edge_cycles (op_model : OpModel) (graph : Graph) (noc dram : ℚ) (edge : Edge) :
    Option Int :=
  let producer_is_queue :=
    (graph.node_by_id edge.producer_node_id).node_type == NodeType.kQueue ||
    (graph.node_by_id edge.producer_node_id).node_type == NodeType.kInput
  if producer_is_queue then
    (op_model.parameter_buffers[edge.consumer_input_port_id]?).bind fun p =>
    (op_model.input_buffers[edge.consumer_input_port_id]?).bind fun b =>
    if !p.to_bool then static_cast_int b.total_size_bytes dram
    else static_cast_int b.total_size_bytes noc
  else
    (op_model.input_buffers[edge.consumer_input_port_id]?).bind fun b =>
    static_cast_int b.total_size_bytes noc

/-- The local `consumer_is_queue` of the loop over `data_users`; `current_epoch_nodes` is
`none` for a null pointer. -/
def consumer_is_queue (graph : Graph) (current_epoch_nodes : Option (List Node))
    (edge : Edge) : Bool :=
  let user_node := graph.node_by_id edge.consumer_node_id
  user_node.node_type == NodeType.kQueue ||
  user_node.node_type == NodeType.kOutput ||
  (match current_epoch_nodes with
   | some nodes => !nodes.contains user_node
   | none => false)

/-- Body of the loop over `data_users`: the write cycles of one user edge. -/
def write_edge_cycles (op_model : OpModel) (graph : Graph) (noc dram : ℚ)
    (current_epoch_nodes : Option (List Node)) (edge : Edge) : Option Int :=
  if consumer_is_queue graph current_epoch_nodes edge then
    (op_model.output_buffers[edge.producer_output_port_id]?).bind fun b =>
    static_cast_int b.total_size_bytes dram
  else
    (op_model.output_buffers[edge.producer_output_port_id]?).bind fun b =>
    static_cast_int b.total_size_bytes noc

/-- A loop `acc = std::max(acc, term(edge))` over a list of edges. -/
def max_edge_cycles (term : Edge → Option Int) : List Edge → Int → Option Int
  | [], acc => some acc
  | edge :: rest, acc => (term edge).bind fun t => max_edge_cycles term rest (max acc t)

def get_limiter_cycles (legacy_cycles_calc : Bool) (op_model : OpModel) (graph : Graph)
    (device_config : DeviceConfig) (dram_access_core_count : Int)
    (current_epoch_nodes : Option (List Node)) : Option Int :=
  let kernel_cycles : Int := (op_model.get_execution_cycles device_config.arch_name : Nat)
  if legacy_cycles_calc then some kernel_cycles
  else
    let data_operands := graph.operand_data_edges op_model.buda_op_node
    let data_users := graph.user_data_edges op_model.buda_op_node
    let noc := noc_bw device_config
    let dram := dram_bw device_config dram_access_core_count
    (max_edge_cycles (read_edge_cycles op_model graph noc dram) data_operands 0).bind
      fun memory_read_cycles =>
    (max_edge_cycles (write_edge_cycles op_model graph noc dram current_epoch_nodes)
      data_users 0).bind fun memory_write_cycles =>
    some (max kernel_cycles (max memory_read_cycles memory_write_cycles))

/-! ## Cost model in float arithmetic

The definitions above compute the memory terms with exact rational bandwidths and a truncation
to an unbounded integer. The definitions of this section carry the arithmetic of the source:
`float` (32-bit) variables and divisions, a `double` division for the literal `20.4`, and the
conversion `static_cast<int>`. -/

/-- The conversion `static_cast<int>` of a float: truncation toward zero; undefined (`none`)
for NaN, for an infinity and for a truncated value outside the range of `int`. -/
def float_to_int : FloatVal → Option Int
  | .fin q => if -2147483648 ≤ trunc q ∧ trunc q ≤ 2147483647 then some (trunc q) else none
  | _ => none

/-- The function `std::ceil` on a float. -/
def float_ceil : FloatVal → FloatVal
  | .fin q => FloatVal.fin ((⌈q⌉ : Int) : ℚ)
  | x => x

/-- The call `std::max(a, b)` on two floats: `b` when `a < b` holds, else `a`. -/
def float_max (a b : FloatVal) : FloatVal := if b.gt a then b else a

/-- Conversion of a `double` value to `float`. -/
def FloatVal.narrow : FloatVal → FloatVal
  | .fin q => to_float32 q
  | x => x

/-- The variable `noc_bw`: `static_cast<float>(...) / inefficency_divider`. -/
def float_noc_bw (device_config : DeviceConfig) : FloatVal :=
  FloatVal.div to_float32 (to_float32 device_config.noc_bandwidth_bytes_per_cycle)
    (to_float32 2)

/-- The variable `dram_bw_divider`; the product of the channel counts is an integer, divided
as a float by `subchannel_oversub_coeff = 1.5`. -/
def float_dram_bw_divider (device_config : DeviceConfig) (dram_access_core_count : Int) :
    FloatVal :=
  float_max (to_float32 2)
    (float_ceil (FloatVal.div to_float32 (to_float32 (dram_access_core_count : ℚ))
      (FloatVal.div to_float32
        (to_float32
          ((device_config.dram_num_channels * device_config.dram_num_subchannels : Nat) : ℚ))
        (to_float32 (3 / 2)))))

/-- The variable `dram_bw`. The conditional expression has type `double`: `20.4 / divider` is a
`double` division, and either value is converted to `float` by the initialisation. -/
def float_dram_bw (device_config : DeviceConfig) (dram_access_core_count : Int) : FloatVal :=
  if device_config.is_wormhole then
    (FloatVal.div to_float64 (to_float64 (102 / 5))
      (float_dram_bw_divider device_config dram_access_core_count)).narrow
  else
    FloatVal.div to_float32 (to_float32 device_config.dram_bandwidth_bytes_per_cycle)
      (float_dram_bw_divider device_config dram_access_core_count)

/-- The value `static_cast<int>(bytes / bw)` for a byte count and a `float` bandwidth: the byte
count is converted to `float`, the quotient is a `float`. -/
def float_cycles (bytes : Nat) (bw : FloatVal) : Option Int :=
  float_to_int (FloatVal.div to_float32 (to_float32 (bytes : ℚ)) bw)

/-- Body of the loop over `data_operands` with the float arithmetic. -/
def float_read_edge_cycles (op_model : OpModel) (graph : Graph) (noc dram : FloatVal)
    (edge : Edge) : Option Int :=
  let producer_is_queue :=
    (graph.node_by_id edge.producer_node_id).node_type == NodeType.kQueue ||
    (graph.node_by_id edge.producer_node_id).node_type == NodeType.kInput
  if producer_is_queue then
    (op_model.parameter_buffers[edge.consumer_input_port_id]?).bind fun p =>
    (op_model.input_buffers[edge.consumer_input_port_id]?).bind fun b =>
    if !p.to_bool then float_cycles b.total_size_bytes dram
    else float_cycles b.total_size_bytes noc
  else
    (op_model.input_buffers[edge.consumer_input_port_id]?).bind fun b =>
    float_cycles b.total_size_bytes noc

/-- Body of the loop over `data_users` with the float arithmetic. -/
def float_write_edge_cycles (op_model : OpModel) (graph : Graph) (noc dram : FloatVal)
    (current_epoch_nodes : Option (List Node)) (edge : Edge) : Option Int :=
  if consumer_is_queue graph current_epoch_nodes edge then
    (op_model.output_buffers[edge.producer_output_port_id]?).bind fun b =>
    float_cycles b.total_size_bytes dram
  else
    (op_model.output_buffers[edge.producer_output_port_id]?).bind fun b =>
    float_cycles b.total_size_bytes noc

/-- The function `get_limiter_cycles` with the float arithmetic of the source. -/
def float_get_limiter_cycles (legacy_cycles_calc : Bool) (op_model : OpModel) (graph : Graph)
    (device_config : DeviceConfig) (dram_access_core_count : Int)
    (current_epoch_nodes : Option (List Node)) : Option Int :=
  let kernel_cycles : Int := (op_model.get_execution_cycles device_config.arch_name : Nat)
  if legacy_cycles_calc then some kernel_cycles
  else
    let data_operands := graph.operand_data_edges op_model.buda_op_node
    let data_users := graph.user_data_edges op_model.buda_op_node
    let noc := float_noc_bw device_config
    let dram := float_dram_bw device_config dram_access_core_count
    (max_edge_cycles (float_read_edge_cycles op_model graph noc dram) data_operands 0).bind
      fun memory_read_cycles =>
    (max_edge_cycles (float_write_edge_cycles op_model graph noc dram current_epoch_nodes)
      data_users 0).bind fun memory_write_cycles =>
    some (max kernel_cycles (max memory_read_cycles memory_write_cycles))

/-! ## Candidate comparator -/

/-- The final tie-break of the comparator (the code after the `mblock_size_ok` test). -/
def final_tie_break (op_model_compare_version : Int) (current candidate : OpModel)
    (current_cycles candidate_cycles target_exec_cycles : Int) (arch_name : String) : Bool :=
  let current_exec_cycles : Int := (current.get_execution_cycles arch_name : Nat)
  let candidate_exec_cycles : Int := (candidate.get_execution_cycles arch_name : Nat)
  let current_exec_util := float_div current_exec_cycles current_cycles
  let candidate_exec_util := float_div candidate_exec_cycles candidate_cycles
  if op_model_compare_version = 2 then
    if close_to_target_exec_cycles current_exec_cycles current_cycles target_exec_cycles then
      if close_to_target_exec_cycles candidate_exec_cycles candidate_cycles target_exec_cycles then
        if candidate.block_shape.volume_no_t > current.block_shape.volume_no_t then true
        else if candidate.block_shape.volume_no_t = current.block_shape.volume_no_t then
          candidate_exec_util.gt current_exec_util
        else false
      else false
    else if close_to_target_exec_cycles candidate_exec_cycles candidate_cycles
        target_exec_cycles then true
    else
      if candidate_cycles ≤ target_exec_cycles then
        if current_cycles > target_exec_cycles then true
        else
          if candidate.block_shape.volume_no_t > current.block_shape.volume_no_t then true
          else if candidate.block_shape.volume_no_t = current.block_shape.volume_no_t then
            candidate_exec_util.gt current_exec_util
          else false
      else if candidate_cycles < current_cycles then true
      else false
  else if op_model_compare_version = 1 then
    if close_to_target (to_uint32 current_cycles) (to_uint32 target_exec_cycles) then
      if close_to_target (to_uint32 candidate_cycles) (to_uint32 target_exec_cycles) then
        decide (candidate.block_shape.volume_no_t > current.block_shape.volume_no_t)
      else false
    else if close_to_target (to_uint32 candidate_cycles) (to_uint32 target_exec_cycles) then true
    else decide ((target_exec_cycles - candidate_cycles).natAbs <
                 (target_exec_cycles - current_cycles).natAbs)
  else false

/-- The comparator from the `ukt_ok` test on. -/
def compare_from_ukt (env : CompareEnv) (current candidate : OpModel)
    (current_cycles candidate_cycles target_exec_cycles : Int) (arch_name : String) :
    Option Bool :=
  (ukt_ok candidate).bind fun ukt_ok_candidate =>
  (ukt_ok current).bind fun ukt_ok_current =>
  if ukt_ok_candidate && !ukt_ok_current then some true
  else if !ukt_ok_candidate && ukt_ok_current then some false
  else
    let mblock_size_ok_candidate := mblock_size_ok candidate
    let mblock_size_ok_current := mblock_size_ok current
    if mblock_size_ok_candidate && !mblock_size_ok_current then some true
    else if !mblock_size_ok_candidate && mblock_size_ok_current then some false
    else some (final_tie_break env.op_model_compare_version current candidate
      current_cycles candidate_cycles target_exec_cycles arch_name)

/-- The comparator from the `prologue_ok` test on (both plans have the same row count). -/
def compare_from_prologue (env : CompareEnv) (current candidate : OpModel) (graph : Graph)
    (target_exec_cycles : Int) (device_config : DeviceConfig) : Option Bool :=
  (prologue_ok candidate).bind fun candidate_prologue_ok =>
  (prologue_ok current).bind fun current_prologue_ok =>
  if candidate_prologue_ok && !current_prologue_ok then some true
  else if !candidate_prologue_ok && current_prologue_ok then some false
  else
    (get_limiter_cycles env.legacy_cycles_calc current graph device_config
      env.dram_access_core_count none).bind fun current_cycles =>
    (get_limiter_cycles env.legacy_cycles_calc candidate graph device_config
      env.dram_access_core_count none).bind fun candidate_cycles =>
    if candidate_cycles ≤ target_exec_cycles ∧ current_cycles ≤ target_exec_cycles ∧
        candidate.grid_shape.c < current.grid_shape.c then some true
    else if candidate_cycles ≤ target_exec_cycles ∧ current_cycles ≤ target_exec_cycles ∧
        candidate.grid_shape.c > current.grid_shape.c then some false
    else compare_from_ukt env current candidate current_cycles candidate_cycles
      target_exec_cycles device_config.arch_name

/-- OpModel preference comparison: is `candidate` better than `current`. The distances
`std::abs(ribbon_size - r)` are taken in the integers; they are the values of the 32-bit
computation whenever that computation does not overflow (`row_distance_defined` below). -/
def is_candidate_better_than_current (env : CompareEnv) (current candidate : OpModel)
    (graph : Graph) (ribbon_size target_exec_cycles : Int) (device_config : DeviceConfig) :
    Option Bool :=
  if current.buda_op_node ≠ candidate.buda_op_node then none
  else if (ribbon_size - (candidate.grid_shape.r : Int)).natAbs <
      (ribbon_size - (current.grid_shape.r : Int)).natAbs then some true
  else if (ribbon_size - (candidate.grid_shape.r : Int)).natAbs >
      (ribbon_size - (current.grid_shape.r : Int)).natAbs then some false
  else if candidate.grid_shape.r ≠ current.grid_shape.r then
    some (decide (candidate.grid_shape.r < current.grid_shape.r))
  else compare_from_prologue env current candidate graph target_exec_cycles device_config

/-! ## Ribbon sizing -/

/-- Configuration of `pick_ribbon_size`: the `std::uint32_t` values of
`PYBUDA_RIBBON_MIN_TILE_HEIGHT` (default 1) and `PYBUDA_RIBBON_MAX_TILE_HEIGHT` (default 200),
the flags `PYBUDA_RIBBON_MAXIMIZE` and `PYBUDA_RIBBON_SKIP_STREAMING`, and the value of
`PYBUDA_RIBBON_MAX_HEIGHT` when it is set. -/
structure RibbonEnv where
  min_tile_height : Nat
  max_tile_height : Nat
  ribbon_maximize : Bool
  skip_streaming : Bool
  ribbon_max_height : Option Int

/-- Interface of `placer::InteractivePlacer` used by the policies. -/
structure InteractivePlacer where
  current_epoch_ops : List String
  op_placed : String → Bool
  can_fit_on_single_epoch : Nat → Nat → Bool → Bool

/-- A `legalizer::BufferInfo`: the edge to buffer, the NOP count and the hoist flag. -/
structure BufferInfo where
  edge : Edge
  nop_count : Nat
  hoist_tms : Bool
deriving DecidableEq, Repr

/-- State of `legalizer::GraphSolver` seen by the policies: `op_models` is the result of `at`,
`cut_edges` the result of `get_cut_edges`, and `cut_calls` records the arguments of every call
of `cut` (the edges and the `epoch_cut` flag). `buffer_calls` records the argument of every
call of `buffer`, and `buffer_result_size` gives the size of the vector that `buffer` returns
for a batch of requests. -/
structure GraphSolver where
  op_models : Node → List OpModel
  cut_edges : List Edge
  cut_calls : List (List Edge × Bool)
  buffer_calls : List (List BufferInfo) := []
  buffer_result_size : List BufferInfo → Nat := List.length

/-- Modelled from the spec: `GraphSolver::cut` is defined outside this file; a cut adds the
given edges to the cut-edge set of the tracker. The call is recorded in `cut_calls`. -/
def GraphSolver.cut (graph_solver : GraphSolver) (edges : List Edge) (epoch_cut : Bool) :
    GraphSolver :=
  { graph_solver with
    cut_edges := graph_solver.cut_edges ++ edges
    cut_calls := graph_solver.cut_calls ++ [(edges, epoch_cut)] }

/-- The override `std::min(env_as<int>("PYBUDA_RIBBON_MAX_HEIGHT", device_rows), (int)device_rows)`
stored in a `std::uint32_t`. -/
def max_ribbon_size (env : RibbonEnv) (device_rows : Nat) : Nat :=
  to_uint32 (min (env.ribbon_max_height.getD (to_int32 device_rows)) (to_int32 device_rows))

/-- One iteration of the loop over `graph_solver.at(op)`: the entry `valid_map[i]` after looking
at the plan `grid`. -/
def valid_rows_step (env : RibbonEnv) (valid : List Nat) (grid : OpModel) : Option (List Nat) :=
  if env.skip_streaming && decide (grid.t_stream_factor.r > 1) then some valid
  else
    (prologue_ok grid).bind fun ok =>
    if ok && decide (grid.block_shape.rt ≥ env.min_tile_height) &&
        decide (grid.block_shape.rt ≤ env.max_tile_height) then
      some (grid.grid_shape.r :: valid)
    else some valid

/-- The loop over `graph_solver.at(op)` filling `valid_map[i]`. -/
def op_valid_rows (env : RibbonEnv) : List OpModel → List Nat → Option (List Nat)
  | [], valid => some valid
  | grid :: rest, valid => (valid_rows_step env valid grid).bind (op_valid_rows env rest)

/-- The variables `candidates` and `valid_map` of `pick_ribbon_size`; an absent key of
`valid_map` reads as the empty set. -/
structure RibbonSearch where
  candidates : List Nat
  valid_map : Nat → List Nat

/-- The loop `for (i = start_index; i < end_index; i++)` over the listed indices, leaving the
loop as soon as `candidates` is empty. -/
def ribbon_search (env : RibbonEnv) (graph : Graph) (graph_solver : GraphSolver)
    (scheduled_ops : List String) : List Nat → RibbonSearch → Option RibbonSearch
  | [], st => some st
  | i :: rest, st =>
    (scheduled_ops[i]?).bind fun name =>
    (op_valid_rows env (graph_solver.op_models (graph.get_node_by_name name))
      (st.valid_map i)).bind fun rows =>
    let valid_map := fun j => if j = i then rows else st.valid_map j
    let candidates := st.candidates.filter (fun it => rows.contains it)
    if candidates.isEmpty then some { candidates := candidates, valid_map := valid_map }
    else ribbon_search env graph graph_solver scheduled_ops rest
      { candidates := candidates, valid_map := valid_map }

/-- Result of `*std::min_element` on a non-empty range. -/
def min_element : List Nat → Nat
  | [] => 0
  | x :: xs => xs.foldl min x

/-- Result of `*std::max_element` on a non-empty range. -/
def max_element : List Nat → Nat
  | [] => 0
  | x :: xs => xs.foldl max x

/-- The loop over the fallback candidates (the vector named after the partial matches in the
source), for the window `indices`: the first candidate matched by one op and reachable by all,
or 1. -/
def ribbon_fallback (indices : List Nat) (valid_map : Nat → List Nat) : List Nat → Nat
  | [] => 1
  | candidate :: rest =>
    let one_match := indices.any (fun i => (valid_map i).contains candidate)
    if !one_match then ribbon_fallback indices valid_map rest
    else
      let all_ok := indices.all fun i =>
        (List.range' 1 candidate).any (fun ribbon => (valid_map i).contains ribbon)
      if all_ok then candidate else ribbon_fallback indices valid_map rest

/-- The loop `for (std::uint32_t i = 1; i <= max_ribbon_size; i++)` collecting the values of
`i`: the values 1 to `max_ribbon_size`. For `max_ribbon_size = 2^32 - 1` the test holds for
every `std::uint32_t` and the loop does not end (`none`). -/
def ribbon_range (max_ribbon_size : Nat) : Option (List Nat) :=
  if max_ribbon_size = 4294967295 then none else some (List.range' 1 max_ribbon_size)

/-- The ribbon size picked for the window; `none` when an assertion fails, the window leaves
the schedule, or the loop filling `candidates` does not end. -/
def pick_ribbon_size (env : RibbonEnv) (start_index end_index : Nat) (graph : Graph)
    (graph_solver : GraphSolver) (scheduled_ops : List String) (device_rows : Nat) :
    Option Nat :=
  let minimize_ribbon := !env.ribbon_maximize
  let max_ribbon_size := max_ribbon_size env device_rows
  (ribbon_range max_ribbon_size).bind fun all_sizes =>
  let indices := List.range' start_index (end_index - start_index)
  (ribbon_search env graph graph_solver scheduled_ops indices
    { candidates := all_sizes, valid_map := fun _ => [] }).bind fun st =>
  if !st.candidates.isEmpty then
    some (if minimize_ribbon then min_element st.candidates else max_element st.candidates)
  else
    some (ribbon_fallback indices st.valid_map
      (if minimize_ribbon then all_sizes else all_sizes.reverse))

/-! ## Pairing check -/

def can_bind_sparse_dense_matmul_pair (graph : Graph) (sparse_op : Option Node)
    (sparse_op_model : OpModel) (dense_op : Option Node) (dense_op_model : OpModel)
    (interactive_placer : InteractivePlacer) (allow_transpose : Bool) : Option Bool :=
  match sparse_op with
  | none => some false
  | some sparse =>
    if !sparse.is_sparse_matmul then some false
    else
      match dense_op with
      | none => some false
      | some dense =>
        if !graph.should_pair_with_sparse dense sparse then some false
        else if sparse_op_model.grid_shape.r ≠ dense_op_model.grid_shape.r then some false
        else if !interactive_placer.can_fit_on_single_epoch sparse_op_model.grid_shape.r
            (sparse_op_model.grid_shape.c + dense_op_model.grid_shape.c) allow_transpose then
          some false
        else ((graph.data_users sparse)[0]?).bind fun user => some (decide (dense = user))

/-! ## Graph cuts -/

/-- The vector `edges_to_cut` built by `cut_graph_solver_epoch`. -/
def epoch_edges_to_cut (graph : Graph) (current_epoch_ops : List String)
    (already_cut_edges : List Edge) : List Edge :=
  (current_epoch_ops.map fun op_name =>
    (graph.user_data_edges (graph.get_node_by_name op_name)).filter fun edge =>
      let user := graph.node_by_id edge.consumer_node_id
      if user.node_type != NodeType.kBudaOp then false
      else if already_cut_edges.contains edge then false
      else if current_epoch_ops.contains user.name then false
      else true).flatten

def cut_graph_solver_epoch (graph : Graph) (placer : InteractivePlacer)
    (graph_solver : GraphSolver) : GraphSolver :=
  let edges_to_cut := epoch_edges_to_cut graph placer.current_epoch_ops graph_solver.cut_edges
  if edges_to_cut.length > 0 then graph_solver.cut edges_to_cut true else graph_solver

/-- The vector `edges_to_cut` built by `cut_graph_solver_ribbon`. -/
def ribbon_edges_to_cut (graph : Graph) (op : Node) (placer : InteractivePlacer)
    (pre_cut_edges : List Edge) : List Edge :=
  (graph.operand_data_edges op).filter fun edge =>
    placer.op_placed (graph.node_by_id edge.producer_node_id).name &&
      !pre_cut_edges.contains edge

/-- The call `graph_solver.cut(edges_to_cut)` relies on the defaulted `epoch_cut` argument,
taken as false. -/
def cut_graph_solver_ribbon (graph : Graph) (op : Node) (placer : InteractivePlacer)
    (graph_solver : GraphSolver) : GraphSolver :=
  let edges_to_cut := ribbon_edges_to_cut graph op placer graph_solver.cut_edges
  if edges_to_cut.length > 0 then graph_solver.cut edges_to_cut false else graph_solver

/-- A call of one of the two cut functions with its arguments. -/
inductive CutCall where
  | epoch (graph : Graph) (placer : InteractivePlacer)
  | ribbon (graph : Graph) (op : Node) (placer : InteractivePlacer)

def CutCall.run (graph_solver : GraphSolver) : CutCall → GraphSolver
  | .epoch graph placer => cut_graph_solver_epoch graph placer graph_solver
  | .ribbon graph op placer => cut_graph_solver_ribbon graph op placer graph_solver

/-- A sequence of calls of the cut functions on one graph solver. -/
def run_cut_calls (graph_solver : GraphSolver) (calls : List CutCall) : GraphSolver :=
  calls.foldl CutCall.run graph_solver

/-! ## Validation -/

/-- Data of `placer::OpPlacement` read by the policies. -/
structure OpPlacement where
  epoch_id : Nat
  chip_id : Nat
deriving DecidableEq, Repr

/-- The epoch types of `graphlib::NodeEpochType`. -/
inductive NodeEpochType where
  | Forward
  | Backward
  | Optimizer
deriving DecidableEq, Repr

/-- Data of `placer::PlacerSolution`: the entries of the map `name_to_op_placement` (keys
pairwise distinct), `num_epochs`, and the result of the member `num_temporal_epochs` for each
epoch type. -/
structure PlacerSolution where
  name_to_op_placement : List (String × OpPlacement)
  num_epochs : Nat
  num_temporal_epochs : NodeEpochType → Nat := fun _ => 0

/-- The member `count(name)` of `name_to_op_placement`. -/
def PlacerSolution.count (placer_solution : PlacerSolution) (name : String) : Nat :=
  if placer_solution.name_to_op_placement.any (fun kv => kv.1 == name) then 1 else 0

/-- Validation of a solution: `Except.error` carries the names logged before `TT_THROW`. -/
def validate_solution (scheduled_ops : List String) (placer_solution : PlacerSolution) :
    Except (List String) Unit :=
  if placer_solution.name_to_op_placement.length < scheduled_ops.length then
    Except.error (scheduled_ops.filter fun name => placer_solution.count name == 0)
  else Except.ok ()

/-! ## Vocabulary of the statements about ribbon sizing -/

/-- Candidate plans of the op scheduled at index `i` (none beyond the end of the schedule). -/
def window_plans (graph : Graph) (graph_solver : GraphSolver) (scheduled_ops : List String)
    (i : Nat) : List OpModel :=
  match scheduled_ops[i]? with
  | some name => graph_solver.op_models (graph.get_node_by_name name)
  | none => []

/-- Legality of a row count for an op in the words of the specification: some candidate plan
with that row count is prologue-ready and has a macro-block row-tile count within
`[min_tile_height, max_tile_height]`. -/
def spec_legal_row (env : RibbonEnv) (plans : List OpModel) (row : Nat) : Prop :=
  ∃ p ∈ plans, p.grid_shape.r = row ∧ prologue_ok p = some true ∧
    env.min_tile_height ≤ p.block_shape.rt ∧ p.block_shape.rt ≤ env.max_tile_height

/-- Legality of a row count for an op: as `spec_legal_row`, for a plan that is not left out by
the skip-streaming flag (set flag and row streaming factor above 1). -/
def legal_row (env : RibbonEnv) (plans : List OpModel) (row : Nat) : Prop :=
  ∃ p ∈ plans, p.grid_shape.r = row ∧
    ¬ (env.skip_streaming = true ∧ p.t_stream_factor.r > 1) ∧ prologue_ok p = some true ∧
    env.min_tile_height ≤ p.block_shape.rt ∧ p.block_shape.rt ≤ env.max_tile_height

/-- A row count in `[1, max_ribbon_size]` that is legal for every op of the window. -/
def common_row (env : RibbonEnv) (start_index end_index : Nat) (graph : Graph)
    (graph_solver : GraphSolver) (scheduled_ops : List String) (device_rows : Nat)
    (row : Nat) : Prop :=
  1 ≤ row ∧ row ≤ max_ribbon_size env device_rows ∧
  ∀ i, start_index ≤ i → i < end_index →
    legal_row env (window_plans graph graph_solver scheduled_ops i) row

/-- The same with legality in the words of the specification. -/
def spec_common_row (env : RibbonEnv) (start_index end_index : Nat) (graph : Graph)
    (graph_solver : GraphSolver) (scheduled_ops : List String) (device_rows : Nat)
    (row : Nat) : Prop :=
  1 ≤ row ∧ row ≤ max_ribbon_size env device_rows ∧
  ∀ i, start_index ≤ i → i < end_index →
    spec_legal_row env (window_plans graph graph_solver scheduled_ops i) row

/-- Precondition of `pick_ribbon_size`: the window lies within the schedule and no candidate
plan of the window violates the buffer-count assertions of `prologue_ok`. -/
def window_ok (start_index end_index : Nat) (graph : Graph) (graph_solver : GraphSolver)
    (scheduled_ops : List String) : Prop :=
  end_index ≤ scheduled_ops.length ∧
  ∀ i, start_index ≤ i → i < end_index →
    ∀ p ∈ window_plans graph graph_solver scheduled_ops i, prologue_ok p ≠ none

/-! ## Concrete inputs used by the examples -/

/-- An element-wise (non-matmul) op node with the given name. -/
def fx_op (name : String) : Node :=
  { id := 0, name := name, node_type := NodeType.kBudaOp, is_matmul := false,
    is_sparse_matmul := false, is_dense_matmul := false, is_matmul_not_sparse := false,
    tags := [], shape_rt := 1, is_buffering := false }

/-- A graph without edges whose nodes are the ops `fx_op name`. -/
def fx_graph : Graph :=
  { get_node_by_name := fx_op, node_by_id := fun _ => fx_op "op",
    user_data_edges := fun _ => [], operand_data_edges := fun _ => [],
    data_users := fun _ => [], data_operands := fun _ => [],
    should_pair_with_sparse := fun _ _ => false }

def fx_block : BlockShape :=
  { t := 1, ublock := { rt := 1, ct := 1 }, volume_no_t := 4, rt := 2 }

/-- A plan of `fx_op name` with the given grid, row streaming factor and execution cycles. -/
def fx_plan (name : String) (r c stream_r cycles : Nat) : OpModel :=
  { id := 0, buda_op_node := fx_op name, grid_shape := { r := r, c := c },
    t_stream_factor := { r := stream_r, c := 1 }, block_shape := fx_block,
    parameter_buffers := [], input_buffers := [], output_buffers := [],
    get_execution_cycles := fun _ => cycles }

def fx_device : DeviceConfig :=
  { arch_name := "wormhole_b0", is_wormhole := true, noc_bandwidth_bytes_per_cycle := 32,
    dram_bandwidth_bytes_per_cycle := 24, dram_num_channels := 6, dram_num_subchannels := 2 }

def fx_compare_env : CompareEnv :=
  { op_model_compare_version := 2, legacy_cycles_calc := false, dram_access_core_count := 0 }

/-- A graph solver with the given candidate plans per op name and no cut edge. -/
def fx_solver (plans : String → List OpModel) : GraphSolver :=
  { op_models := fun node => plans node.name, cut_edges := [], cut_calls := [] }

/-- Default ribbon configuration with the given flags. -/
def fx_ribbon_env (maximize skip_streaming : Bool) : RibbonEnv :=
  { min_tile_height := 1, max_tile_height := 200, ribbon_maximize := maximize,
    skip_streaming := skip_streaming, ribbon_max_height := none }

/-- One op with a row-streaming plan on 1 row and a plan without streaming on 2 rows. -/
def fx_streaming_plans (name : String) : List OpModel :=
  [fx_plan name 1 1 2 100, fx_plan name 2 1 1 100]

/-- Plans on 1 row for op `a` and on 2 rows for every other op. -/
def fx_disjoint_plans (name : String) : List OpModel :=
  if name = "a" then [fx_plan name 1 1 1 100] else [fx_plan name 2 1 1 100]

/-- Plans on 1 row and on 2 rows for every op. -/
def fx_full_plans (name : String) : List OpModel :=
  [fx_plan name 1 1 1 100, fx_plan name 2 1 1 100]

/-- Node `A` (id 1), the producer of the two-op examples. -/
def fx_node_a : Node := { fx_op "A" with id := 1 }

/-- Node `B` (id 2), the consumer of the two-op examples. -/
def fx_node_b : Node := { fx_op "B" with id := 2 }

/-- The data edge from `A` to `B`. -/
def fx_edge_ab : Edge :=
  { producer_node_id := 1, consumer_node_id := 2, producer_output_port_id := 0,
    consumer_input_port_id := 0, is_data := true }

/-- Graph with the single data edge `A -> B`. -/
def fx_pair_graph : Graph :=
  { get_node_by_name := fun name => if name = "A" then fx_node_a else fx_node_b,
    node_by_id := fun id => if id = 1 then fx_node_a else fx_node_b,
    user_data_edges := fun node => if node.id = 1 then [fx_edge_ab] else [],
    operand_data_edges := fun node => if node.id = 2 then [fx_edge_ab] else [],
    data_users := fun node => if node.id = 1 then [fx_node_b] else [],
    data_operands := fun node => if node.id = 2 then [fx_node_a] else [],
    should_pair_with_sparse := fun _ _ => false }

/-- A buffer of 1020 bytes. -/
def fx_buffer : BufferModel := { to_bool := true, block_shape := fx_block, total_size_bytes := 1020 }

/-- A plan of `A` with one output buffer of 1020 bytes and 50 execution cycles. -/
def fx_plan_a : OpModel :=
  { id := 0, buda_op_node := fx_node_a, grid_shape := { r := 1, c := 1 },
    t_stream_factor := { r := 1, c := 1 }, block_shape := fx_block,
    parameter_buffers := [], input_buffers := [], output_buffers := [fx_buffer],
    get_execution_cycles := fun _ => 50 }

/-- A sparse matmul `S`. -/
def fx_sparse : Node := { fx_op "S" with id := 1, is_matmul := true, is_sparse_matmul := true }

/-- A dense matmul `D`. -/
def fx_dense : Node :=
  { fx_op "D" with
    id := 2
    is_matmul := true
    is_dense_matmul := true
    is_matmul_not_sparse := true }

/-- Graph in which the sparse matmul `S` feeds the dense matmul `D` and a second op `X`, and
`D` is marked as pairable with `S`. -/
def fx_fork_graph : Graph :=
  { get_node_by_name := fx_op, node_by_id := fun _ => fx_op "op",
    user_data_edges := fun _ => [], operand_data_edges := fun _ => [],
    data_users := fun node => if node.id = 1 then [fx_dense, fx_op "X"] else [],
    data_operands := fun _ => [],
    should_pair_with_sparse := fun dense sparse => dense.id == 2 && sparse.id == 1 }

/-- A placer with an empty epoch in which `A` is placed and any region fits. -/
def fx_placer (current_epoch_ops : List String) : InteractivePlacer :=
  { current_epoch_ops := current_epoch_ops, op_placed := fun name => name == "A",
    can_fit_on_single_epoch := fun _ _ _ => true }

/-! ## Vocabulary of the statement about pairing -/

/-- The pairing condition in the words of the specification; "the dense op is the only direct
data consumer of the sparse op" reads `data_users sparse = [dense]`. -/
def spec_can_bind (graph : Graph) (sparse dense : Node) (sparse_op_model dense_op_model : OpModel)
    (interactive_placer : InteractivePlacer) (allow_transpose : Bool) : Prop :=
  sparse.is_sparse_matmul = true ∧
  graph.should_pair_with_sparse dense sparse = true ∧
  sparse_op_model.grid_shape.r = dense_op_model.grid_shape.r ∧
  graph.data_users sparse = [dense] ∧
  interactive_placer.can_fit_on_single_epoch sparse_op_model.grid_shape.r
    (sparse_op_model.grid_shape.c + dense_op_model.grid_shape.c) allow_transpose = true

/-! ## Next ribbon change -/

/-- The free function `is_matmul` on an op node: a non-sparse matmul that is not tagged as a
reduce; `has_tag` reads the tag names in `tags`. -/
def is_matmul (op : Node) : Bool :=
  if !op.is_matmul_not_sparse then false
  else if op.tags.contains "reduce_r" || op.tags.contains "reduce_c" then false
  else true

/-- The loop `for (int sparse_i = i - 1; sparse_i >= 0; sparse_i--)` with `bound = i`: the
greatest index below `bound` at which the schedule holds `name`. -/
def find_sparse_index (scheduled_ops : List String) (name : String) : Nat → Option Nat
  | 0 => none
  | sparse_i + 1 =>
    if scheduled_ops[sparse_i]? = some name then some sparse_i
    else find_sparse_index scheduled_ops name sparse_i

/-- The step "skip through buffering queue" on one operand; `none` when the assertion
`data_operands.size() == 1` fails. -/
def skip_buffering_queue (graph : Graph) (operand : Node) : Option Node :=
  if operand.node_type == NodeType.kQueue then
    if operand.is_buffering then
      let data_operands := graph.data_operands operand
      if data_operands.length = 1 then data_operands.getLast? else none
    else some operand
  else some operand

/-- The loop over `graph->data_operands(op)` for the matmul at index `i`: `some (some index)`
when the loop returns `index`, `some none` when it ends without returning. -/
def scan_operands (graph : Graph) (scheduled_ops : List String) (i : Nat) :
    List Node → Option (Option Nat)
  | [] => some none
  | operand :: rest =>
    (skip_buffering_queue graph operand).bind fun operand =>
    if operand.node_type != NodeType.kBudaOp then scan_operands graph scheduled_ops i rest
    else if operand.is_sparse_matmul then
      match find_sparse_index scheduled_ops operand.name i with
      | some sparse_i => some (some sparse_i)
      | none => some (some i)
    else some (some i)

/-- The loop `for (i = current_index; i < scheduled_ops.size(); i++)` over the listed indices,
with the running value of `current_matmul_dim_r`. -/
def ribbon_change_scan (graph : Graph) (scheduled_ops : List String) :
    List Nat → Nat → Option (Nat × Nat)
  | [], current_matmul_dim_r => some (scheduled_ops.length, current_matmul_dim_r)
  | i :: rest, current_matmul_dim_r =>
    (scheduled_ops[i]?).bind fun name =>
    let node := graph.get_node_by_name name
    if node.node_type != NodeType.kBudaOp then
      ribbon_change_scan graph scheduled_ops rest current_matmul_dim_r
    else if !is_matmul node then
      ribbon_change_scan graph scheduled_ops rest current_matmul_dim_r
    else
      let dim_r := node.shape_rt
      if current_matmul_dim_r = 0 then ribbon_change_scan graph scheduled_ops rest dim_r
      else if dim_r = current_matmul_dim_r then
        ribbon_change_scan graph scheduled_ops rest current_matmul_dim_r
      else
        (scan_operands graph scheduled_ops i (graph.data_operands node)).bind fun found =>
        match found with
        | some index => some (index, current_matmul_dim_r)
        | none => ribbon_change_scan graph scheduled_ops rest current_matmul_dim_r

def get_next_ribbon_change_op (graph : Graph) (current_index : Nat)
    (scheduled_ops : List String) (current_matmul_dim_r : Nat) : Option (Nat × Nat) :=
  ribbon_change_scan graph scheduled_ops
    (List.range' current_index (scheduled_ops.length - current_index)) current_matmul_dim_r

/-! ## Vocabulary of the statements about the comparator -/

/-- The cost of a plan as the comparator computes it: `get_limiter_cycles` with the defaulted
arguments. -/
def plan_cost (env : CompareEnv) (graph : Graph) (device_config : DeviceConfig)
    (op_model : OpModel) : Option Int :=
  get_limiter_cycles env.legacy_cycles_calc op_model graph device_config
    env.dram_access_core_count none

/-- The first rule of the comparator on row counts: `candidate_r` is closer to the ribbon size
than `current_r`, or as close and smaller. -/
def row_better (ribbon_size : Int) (current_r candidate_r : Nat) : Prop :=
  (ribbon_size - (candidate_r : Int)).natAbs < (ribbon_size - (current_r : Int)).natAbs ∨
  ((ribbon_size - (candidate_r : Int)).natAbs = (ribbon_size - (current_r : Int)).natAbs ∧
    candidate_r < current_r)

instance row_better_decidable (ribbon_size : Int) (current_r candidate_r : Nat) :
    Decidable (row_better ribbon_size current_r candidate_r) := by
  unfold row_better
  infer_instance

/-- All rules before the final tie-break tie for `current` and `candidate`, whose costs are
`current_cycles` and `candidate_cycles`: same op, same row count, same prologue readiness, the
column rule does not decide (a cost above the budget or equal column counts), same ukt check
and same macro-block size check. -/
def earlier_rules_tie (env : CompareEnv) (current candidate : OpModel) (graph : Graph)
    (target_exec_cycles : Int) (device_config : DeviceConfig)
    (current_cycles candidate_cycles : Int) : Prop :=
  current.buda_op_node = candidate.buda_op_node ∧
  candidate.grid_shape.r = current.grid_shape.r ∧
  (∃ ready, prologue_ok candidate = some ready ∧ prologue_ok current = some ready) ∧
  plan_cost env graph device_config current = some current_cycles ∧
  plan_cost env graph device_config candidate = some candidate_cycles ∧
  (¬ (candidate_cycles ≤ target_exec_cycles ∧ current_cycles ≤ target_exec_cycles) ∨
    candidate.grid_shape.c = current.grid_shape.c) ∧
  (∃ ukt, ukt_ok candidate = some ukt ∧ ukt_ok current = some ukt) ∧
  mblock_size_ok candidate = mblock_size_ok current

/-- A plan of the dense matmul `D` on `r` rows: two resident parameter buffers, and input
buffers whose micro block is 4 tiles high and 1 tile wide. -/
def fx_dense_plan (r : Nat) : OpModel :=
  { fx_plan "D" r 1 1 100 with
    buda_op_node := fx_dense
    parameter_buffers := [fx_buffer, fx_buffer]
    input_buffers :=
      [{ fx_buffer with block_shape := { fx_block with ublock := { rt := 4, ct := 1 } } },
       { fx_buffer with block_shape := { fx_block with ublock := { rt := 4, ct := 1 } } }] }

/-- A dense matmul node with the given name. -/
def fx_matmul (name : String) : Node := { fx_dense with name := name }

/-- A graph without edges whose nodes are the dense matmuls `fx_matmul name`. -/
def fx_matmul_graph : Graph := { fx_graph with get_node_by_name := fx_matmul }

/-- A plan of the dense matmul `name` on `r` rows. -/
def fx_matmul_plan (name : String) (r : Nat) : OpModel :=
  { fx_dense_plan r with buda_op_node := fx_matmul name }

/-- Plans of the dense matmul `name` on 1, 2 and 4 rows. -/
def fx_matmul_plans (name : String) : List OpModel :=
  [fx_matmul_plan name 1, fx_matmul_plan name 2, fx_matmul_plan name 4]

/-- An activation input node. -/
def fx_input : Node := { fx_op "act" with id := 7, node_type := NodeType.kInput }

/-- A graph of dense matmuls `fx_matmul name` each fed by two input nodes. -/
def fx_input_fed_graph : Graph :=
  { fx_graph with
    get_node_by_name := fx_matmul
    data_operands := fun _ => [fx_input, fx_input] }

/-! ## Vocabulary of the statements about the next ribbon change -/

/-- A qualifying matmul: an op node that is a non-sparse matmul without `reduce_r` or
`reduce_c` tag. -/
def qualifying_matmul (node : Node) : Prop :=
  node.node_type = NodeType.kBudaOp ∧ node.is_matmul_not_sparse = true ∧
    "reduce_r" ∉ node.tags ∧ "reduce_c" ∉ node.tags

/-! ## Vocabulary of the statement about transitivity -/

/-- The cost of the plan, when it is defined, is within the budget. -/
def cost_within (env : CompareEnv) (graph : Graph) (device_config : DeviceConfig)
    (target_exec_cycles : Int) (op_model : OpModel) : Prop :=
  ∀ cycles, plan_cost env graph device_config op_model = some cycles →
    cycles ≤ target_exec_cycles

/-- The cost of the plan, when it is defined, exceeds the budget. -/
def cost_exceeds (env : CompareEnv) (graph : Graph) (device_config : DeviceConfig)
    (target_exec_cycles : Int) (op_model : OpModel) : Prop :=
  ∀ cycles, plan_cost env graph device_config op_model = some cycles →
    target_exec_cycles < cycles

/-- A plan of `fx_op "a"` on 2 rows and 2 columns, 50 cycles, streaming factor t = 2 with a
macro block of volume 4, which fails `mblock_size_ok`. -/
def fx_small_block_plan : OpModel :=
  { fx_plan "a" 2 2 1 50 with block_shape := { fx_block with t := 2 } }

/-! ## Epoch and chip breaks, scheduling -/

/-- The inner loop of `epoch_or_chip_break_remove_processed_nodes`: the flag `delete_op_names`
for one group of op names. -/
def delete_op_names (graph : Graph) (processed_nodes : List Node) : List String → Bool
  | [] => false
  | op_name :: rest =>
    if processed_nodes.contains (graph.get_node_by_name op_name) then true
    else delete_op_names graph processed_nodes rest

/-- The outer loop of `epoch_or_chip_break_remove_processed_nodes`, erasing the groups to
delete. -/
def remove_processed_groups (graph : Graph) (processed_nodes : List Node) :
    List (List String) → List (List String)
  | [] => []
  | op_names :: rest =>
    if delete_op_names graph processed_nodes op_names then
      remove_processed_groups graph processed_nodes rest
    else op_names :: remove_processed_groups graph processed_nodes rest

/-- The list `op_names_to_epoch_or_chip_break` after the call; `processed_nodes` lists the
elements of the set. -/
def epoch_or_chip_break_remove_processed_nodes (graph : Graph)
    (op_names_to_epoch_or_chip_break : List (List String)) (processed_nodes : List Node) :
    List (List String) :=
  if processed_nodes.isEmpty then op_names_to_epoch_or_chip_break
  else remove_processed_groups graph processed_nodes op_names_to_epoch_or_chip_break

/-- Fields of `scheduler::SchedulerConfig` set by the policies; `ignored_nodes` is `none` for a
null pointer. -/
structure SchedulerConfig where
  ignored_nodes : Option (List Node)
  scheduler_constraints : List (List String)

/-- Fields of `BalancerConfig` read by `policy_run_scheduler`. -/
structure BalancerConfig where
  scheduler_config : SchedulerConfig
  device_config : DeviceConfig
  use_interactive_placer : Bool

/-- The functions defined outside this file that `policy_run_scheduler` calls: `run_scheduler`
and the two tagging functions of `placer::lowering`. -/
structure SchedulerApi where
  run_scheduler : SchedulerConfig → Graph → List String
  tag_ops_for_epoch_break :
    String → List (List String) → List (List String) → List String → Graph → Bool →
      List String
  tag_ops_for_chip_break :
    String → List (List String) → List String → Graph → Bool → List String

/-- Outcome of `policy_run_scheduler`: the configurations with which `run_scheduler` was
invoked, the two break lists after the call, and the returned tuple (scheduled ops, epoch
break ops, chip break ops), `none` when an assertion failed. -/
structure PolicySchedule where
  scheduler_calls : List SchedulerConfig
  op_names_to_epoch_break : List (List String)
  op_names_to_chip_break : List (List String)
  result : Option (List String × List String × List String)

/-- The overload with both break lists; `processed_nodes` lists the elements of the set, each
once. A failed `TT_ASSERT` leaves before `run_scheduler` is invoked. -/
def policy_run_scheduler (api : SchedulerApi) (graph : Graph) (config : BalancerConfig)
    (processed_nodes : List Node) (processed_schedule : List String)
    (op_names_to_epoch_break op_names_to_chip_break : List (List String)) : PolicySchedule :=
  let scheduler_config := config.scheduler_config
  if processed_nodes.length > 0 ∧ processed_nodes.length ≠ processed_schedule.length then
    { scheduler_calls := [], op_names_to_epoch_break := op_names_to_epoch_break,
      op_names_to_chip_break := op_names_to_chip_break, result := none }
  else
    let scheduler_config : SchedulerConfig :=
      if processed_nodes.length > 0 then
        { ignored_nodes := some processed_nodes,
          scheduler_constraints := scheduler_config.scheduler_constraints ++
            [processed_schedule] }
      else scheduler_config
    let scheduled_ops := api.run_scheduler scheduler_config graph
    let epoch_breaks :=
      epoch_or_chip_break_remove_processed_nodes graph op_names_to_epoch_break processed_nodes
    let chip_breaks :=
      epoch_or_chip_break_remove_processed_nodes graph op_names_to_chip_break processed_nodes
    let epoch_break_ops := api.tag_ops_for_epoch_break config.device_config.arch_name
      epoch_breaks chip_breaks scheduled_ops graph config.use_interactive_placer
    let chip_break_ops := api.tag_ops_for_chip_break config.device_config.arch_name
      chip_breaks scheduled_ops graph config.use_interactive_placer
    { scheduler_calls := [scheduler_config], op_names_to_epoch_break := epoch_breaks,
      op_names_to_chip_break := chip_breaks,
      result := some (scheduled_ops, epoch_break_ops, chip_break_ops) }

/-! ## Buffering -/

/-- An insertion instruction by its `instr_type`: a NOP instruction, a queue instruction, or
an instruction of any other type. -/
inductive InsertionInstruction where
  | nop (src dest : String) (nop_count : Nat) (hoist_tms : Bool)
  | queue (dest : String) (input_id : Option Nat)
  | other
deriving DecidableEq, Repr

/-- Modelled from the spec: `GraphSolver::buffer` is defined outside this file; the batch of
requests is applied in one call, recorded in `buffer_calls`. -/
def GraphSolver.buffer (graph_solver : GraphSolver) (buffer_info : List BufferInfo) :
    GraphSolver :=
  { graph_solver with buffer_calls := graph_solver.buffer_calls ++ [buffer_info] }

/-- The loop over the instructions of `buffer_graph` with the vectors `buffer_info` and
`edges_to_cut`; `none` when a `TT_ASSERT`, the access `input_id.value()` or the `TT_THROW`
fails. -/
def collect_instructions (graph : Graph) :
    List InsertionInstruction → List BufferInfo → List Edge →
      Option (List BufferInfo × List Edge)
  | [], buffer_info, edges_to_cut => some (buffer_info, edges_to_cut)
  | InsertionInstruction.nop src dest nop_count hoist_tms :: rest, buffer_info,
      edges_to_cut =>
    let edges := (graph.get_edges (graph.get_node_by_name src)
      (graph.get_node_by_name dest)).filter fun edge => edge.is_data
    collect_instructions graph rest
      (buffer_info ++ edges.map fun edge =>
        { edge := edge, nop_count := nop_count, hoist_tms := hoist_tms })
      edges_to_cut
  | InsertionInstruction.queue dest input_id :: rest, buffer_info, edges_to_cut =>
    match input_id with
    | none => none
    | some id =>
      let operand_edges := (graph.operand_data_edges (graph.get_node_by_name dest)).filter
        fun edge => edge.consumer_input_port_id == id
      if operand_edges.length = 1 then
        (operand_edges[0]?).bind fun edge =>
        collect_instructions graph rest buffer_info (edges_to_cut ++ [edge])
      else none
  | InsertionInstruction.other :: _, _, _ => none

/-- The graph solver after the call and the returned flag, `none` for a fatal failure; `inst`
lists the instructions of the map in its order. The cut relies on the defaulted `epoch_cut`
argument, taken as false. -/
def buffer_graph (graph : Graph) (inst : List InsertionInstruction)
    (graph_solver : GraphSolver) : GraphSolver × Option Bool :=
  match collect_instructions graph inst [] [] with
  | none => (graph_solver, none)
  | some (buffer_info, edges_to_cut) =>
    if buffer_info.length > 0 then
      let buffered := graph_solver.buffer buffer_info
      if graph_solver.buffer_result_size buffer_info > 0 then
        if edges_to_cut.length > 0 then (buffered.cut edges_to_cut false, some true)
        else (buffered, some true)
      else (buffered, none)
    else
      if edges_to_cut.length > 0 then (graph_solver.cut edges_to_cut false, some false)
      else (graph_solver, some false)

/-! ## Sparse matmul validation -/

/-- Arguments of `get_sparse_tiles_and_encodings`; `layout` is the value returned by
`create_layout`, and the visualisation path is always empty. -/
structure SparseEncodingArgs where
  grid_r : Nat
  t_factor_r : Nat
  t_factor_c : Nat
  u_rt : Nat
  u_kt : Nat
  fracture_factor : Nat
  layout : Nat
deriving DecidableEq, Repr

/-- The members of `sparse::SparseBUDA` used by the validation: `create_layout` (layouts
numbered) and, for the sparse operand node and the arguments, whether
`get_sparse_tiles_and_encodings` returns (`true`) or throws (`false`). -/
structure SparseApi where
  create_layout : Bool → Bool → Nat → Nat
  encodes : Node → SparseEncodingArgs → Bool

/-- Outcome of `validate_sparse_matmul_model`: the returned value, the set `validated_cache`
after the call, and the calls of the encoder made. -/
structure SparseValidation where
  result : Bool
  validated_cache : List Nat
  encoder_calls : List (Node × SparseEncodingArgs)
deriving DecidableEq, Repr

/-- The check of a sparse matmul plan; `force_buffer_op_layout` is the value of
`PYBUDA_FORCE_SPARSE_BUFFER_LAYOUT`, and `none` stands for a failed `TT_ASSERT` or an access
beyond the end of a vector. -/
def validate_sparse_matmul_model (api : SparseApi) (force_buffer_op_layout : Bool) (op : Node)
    (op_model : OpModel) (graph : Graph) (validated_cache : List Nat) :
    Option SparseValidation :=
  if validated_cache.count op_model.id > 0 then
    some { result := true, validated_cache := validated_cache, encoder_calls := [] }
  else if !op.is_sparse_matmul then none
  else
    let grid_r := op_model.grid_shape.r
    (op_model.output_buffers[0]?).bind fun out0 =>
    (op_model.input_buffers[1]?).bind fun in1 =>
    let u_rt := out0.block_shape.ublock.rt
    let u_kt := in1.block_shape.ublock.rt
    let has_buffer_op := op_model.has_sparse_buffer
    let buffer_op_layout := has_buffer_op || force_buffer_op_layout
    ((graph.data_operands op)[0]?).bind fun sparse_buda =>
    let layout := api.create_layout buffer_op_layout op_model.t_stream_factor.z_major
      op_model.fracture_factor
    let args : SparseEncodingArgs :=
      { grid_r := grid_r, t_factor_r := op_model.t_stream_factor.r,
        t_factor_c := op_model.t_stream_factor.c, u_rt := u_rt, u_kt := u_kt,
        fracture_factor := op_model.fracture_factor, layout := layout }
    if api.encodes sparse_buda args then
      some { result := true, validated_cache := validated_cache ++ [op_model.id],
             encoder_calls := [(sparse_buda, args)] }
    else
      some { result := false, validated_cache := validated_cache,
             encoder_calls := [(sparse_buda, args)] }

/-! ## Epoch costs -/

/-- An `EpochCost`. -/
structure EpochCost where
  setup_cycles : Nat
  runtime_cycles : Nat
deriving DecidableEq, Repr

/-- The loop of `calculate_epoch_costs` over the entries of `name_to_op_placement`;
`selected_op_models` lists the entries of the `OpModelMap`, and `none` stands for a failed `at`
or an epoch id beyond the end of `epoch_costs`. -/
def epoch_costs_loop (selected_op_models : List (String × OpModel)) (arch_name : String) :
    List (String × OpPlacement) → List EpochCost → Option (List EpochCost)
  | [], epoch_costs => some epoch_costs
  | (node, placement) :: rest, epoch_costs =>
    (selected_op_models.lookup node).bind fun op_model =>
    (epoch_costs[placement.epoch_id]?).bind fun cost =>
    epoch_costs_loop selected_op_models arch_name rest
      (epoch_costs.set placement.epoch_id
        { cost with
          runtime_cycles := max cost.runtime_cycles (op_model.get_execution_cycles arch_name) })

def calculate_epoch_costs (placer_solution : PlacerSolution)
    (selected_op_models : List (String × OpModel)) (arch_name : String) :
    Option (List EpochCost) :=
  epoch_costs_loop selected_op_models arch_name placer_solution.name_to_op_placement
    (List.replicate placer_solution.num_epochs { setup_cycles := 0, runtime_cycles := 0 })

/-- The loop of `dump_balancer_placer_data` accumulating `total_cost`; the `int` sum is taken in
the naturals, signed overflow being undefined. -/
def total_cost (epoch_costs : List EpochCost) : Nat :=
  epoch_costs.foldl (fun total epoch_cost =>
    total + (epoch_cost.setup_cycles + epoch_cost.runtime_cycles)) 0

/-! ## Vocabulary of the statements about buffering, costs and validation -/

/-- The buffers `buffers` with `extra` more bytes in the buffer at `port`. -/
def grow_buffer : List BufferModel → Nat → Nat → List BufferModel
  | [], _, _ => []
  | b :: rest, 0, extra => { b with total_size_bytes := b.total_size_bytes + extra } :: rest
  | b :: rest, port + 1, extra => b :: grow_buffer rest port extra

/-- The buffering requests that the NOP instructions of `inst` give rise to: one for each data
edge between the source and the destination of the instruction. -/
def nop_requests (graph : Graph) (inst : List InsertionInstruction) : List BufferInfo :=
  (inst.map fun instruction =>
    match instruction with
    | InsertionInstruction.nop src dest nop_count hoist_tms =>
      ((graph.get_edges (graph.get_node_by_name src) (graph.get_node_by_name dest)).filter
        fun edge => edge.is_data).map fun edge =>
          ({ edge := edge, nop_count := nop_count, hoist_tms := hoist_tms } : BufferInfo)
    | _ => []).flatten

/-- The instruction is a queue instruction with an input index that exactly one operand data
edge of its destination arrives at. -/
def queue_instruction_ok (graph : Graph) : InsertionInstruction → Prop
  | InsertionInstruction.queue dest (some id) =>
    ((graph.operand_data_edges (graph.get_node_by_name dest)).filter
      fun edge => edge.consumer_input_port_id == id).length = 1
  | _ => False

/-- The execution cycles of the plan selected for an op (0 without a plan). -/
def selected_cycles (selected_op_models : List (String × OpModel)) (arch_name : String)
    (name : String) : Nat :=
  match selected_op_models.lookup name with
  | some op_model => op_model.get_execution_cycles arch_name
  | none => 0

/-- The largest execution cycle count among the plans selected for the ops placed in `epoch`,
0 for an epoch without ops. -/
def max_cycles_in_epoch (placer_solution : PlacerSolution)
    (selected_op_models : List (String × OpModel)) (arch_name : String) (epoch : Nat) : Nat :=
  ((placer_solution.name_to_op_placement.filter fun kv => kv.2.epoch_id == epoch).map
    fun kv => selected_cycles selected_op_models arch_name kv.1).foldl max 0

/-- The edges that the queue instructions of `inst` ask to cut: the operand data edges of the
destination that arrive at the input index of the instruction. -/
def queue_edges (graph : Graph) (inst : List InsertionInstruction) : List Edge :=
  (inst.map fun instruction =>
    match instruction with
    | InsertionInstruction.queue dest (some id) =>
      (graph.operand_data_edges (graph.get_node_by_name dest)).filter
        fun edge => edge.consumer_input_port_id == id
    | _ => []).flatten

/-- The instruction is a NOP instruction or a queue instruction satisfying
`queue_instruction_ok`. -/
def instruction_ok (graph : Graph) : InsertionInstruction → Prop
  | InsertionInstruction.nop _ _ _ _ => True
  | InsertionInstruction.queue dest id =>
    queue_instruction_ok graph (InsertionInstruction.queue dest id)
  | InsertionInstruction.other => False

/-! ## Concrete inputs of the examples about scheduling, buffering and costs -/

/-- A scheduler returning the schedule `A, B`, with tagging functions returning no op. -/
def fx_scheduler_api : SchedulerApi :=
  { run_scheduler := fun _ _ => ["A", "B"],
    tag_ops_for_epoch_break := fun _ _ _ _ _ _ => [],
    tag_ops_for_chip_break := fun _ _ _ _ _ => [] }

def fx_balancer_config : BalancerConfig :=
  { scheduler_config := { ignored_nodes := none, scheduler_constraints := [] },
    device_config := fx_device, use_interactive_placer := true }

/-- The graph `fx_pair_graph` with its edge reported by `get_edges`. -/
def fx_edges_graph : Graph :=
  { fx_pair_graph with
    get_edges := fun src dest => if src.id = 1 ∧ dest.id = 2 then [fx_edge_ab] else [] }

/-- Graph in which the sparse matmul `S` has the operands `A` and `B`. -/
def fx_sparse_graph : Graph :=
  { fx_graph with data_operands := fun node => if node.id = 1 then [fx_node_a, fx_node_b] else [] }

/-- A plan of `S` with identifier 7, two input buffers and one output buffer. -/
def fx_sparse_plan (r : Nat) : OpModel :=
  { id := 7, buda_op_node := fx_sparse, grid_shape := { r := r, c := 1 },
    t_stream_factor := { r := 1, c := 1 }, block_shape := fx_block,
    parameter_buffers := [], input_buffers := [fx_buffer, fx_buffer],
    output_buffers := [fx_buffer], get_execution_cycles := fun _ => 50 }

/-- An encoder that encodes on grids of at most 4 rows and throws otherwise. -/
def fx_sparse_api : SparseApi :=
  { create_layout := fun buffer_op_layout _ _ => if buffer_op_layout then 1 else 0,
    encodes := fun _ args => decide (args.grid_r ≤ 4) }

/-- Outcome of validating `fx_sparse_plan 2` with `fx_sparse_api` and the cache `[3]`. -/
def fx_sparse_validated : SparseValidation :=
  { result := true
    validated_cache := [3, 7]
    encoder_calls := [(fx_node_a, (⟨2, 1, 1, 1, 1, 1, 0⟩ : SparseEncodingArgs))] }

/-- A solution placing `A` in epoch 0, the only epoch. -/
def fx_solution_a : PlacerSolution :=
  { name_to_op_placement := [("A", { epoch_id := 0, chip_id := 0 })], num_epochs := 1 }

/-- The row count `least` is the smallest legal row count of an op with the candidate plans
`plans`, row counts being at least 1, and it is at most `bound`. -/
def least_legal_row (env : RibbonEnv) (plans : List OpModel) (bound least : Nat) : Prop :=
  1 ≤ least ∧ least ≤ bound ∧ legal_row env plans least ∧
  ∀ row, 1 ≤ row → legal_row env plans row → least ≤ row

/-- The smallest legal row counts of the window `a, b` with the plans `fx_disjoint_plans`. -/
def fx_least (i : Nat) : Nat := if i = 0 then 1 else 2

/-- Ribbon configuration maximizing the ribbon, with the cap `PYBUDA_RIBBON_MAX_HEIGHT = 5`. -/
def fx_capped_env : RibbonEnv := { fx_ribbon_env true false with ribbon_max_height := some 5 }

/-- Graph in which the dense matmul `D` (every name but `S`) is fed by the sparse matmul `S`. -/
def fx_sparse_fed_graph : Graph :=
  { fx_graph with
    get_node_by_name := fun name => if name = "S" then fx_sparse else fx_dense
    data_operands := fun node => if node.id = 2 then [fx_sparse] else [] }

/-! ## Epoch counts per epoch type -/

/-- The loop over `name_to_op_placement` filling `epoch_to_op_names`, whose keys are the
epochs below `num_epochs`; `none` when `at` throws for an epoch id without key. -/
def fill_epoch_to_op_names :
    List (String × OpPlacement) → List (List String) → Option (List (List String))
  | [], epoch_to_op_names => some epoch_to_op_names
  | kvp :: rest, epoch_to_op_names =>
    (epoch_to_op_names[kvp.2.epoch_id]?).bind fun op_names =>
    fill_epoch_to_op_names rest (epoch_to_op_names.set kvp.2.epoch_id (op_names ++ [kvp.1]))

/-- The loop `while (v.back() == 0) v.pop_back()` on the vector given from its back to its
front; `back()` of an empty vector is undefined (`none`). The result is in the same order. -/
def pop_back_zeros : List Nat → Option (List Nat)
  | [] => none
  | back :: front => if back = 0 then pop_back_zeros front else some (back :: front)

/-- The counts per epoch type with the order of the source: forward, backward, optimizer. -/
def get_num_epochs_per_node_epoch_type (placer_solution : PlacerSolution) :
    Option (List Nat) :=
  (fill_epoch_to_op_names placer_solution.name_to_op_placement
    (List.replicate placer_solution.num_epochs [])).bind fun _ =>
  let num_epochs_per_node_type :=
    [placer_solution.num_temporal_epochs NodeEpochType.Forward,
     placer_solution.num_temporal_epochs NodeEpochType.Backward,
     placer_solution.num_temporal_epochs NodeEpochType.Optimizer]
  (pop_back_zeros num_epochs_per_node_type.reverse).map List.reverse

/-- The list without its trailing zero entries. -/
def strip_trailing_zeros (counts : List Nat) : List Nat :=
  (counts.reverse.dropWhile fun count => count == 0).reverse

/-- A solution without op and without epoch; its counts of temporal epochs are 0. -/
def fx_empty_solution : PlacerSolution := { name_to_op_placement := [], num_epochs := 0 }

/-- A device that is not a wormhole, with DRAM bandwidth 24 on 6 channels of 2 subchannels. -/
def fx_plain_device : DeviceConfig :=
  { arch_name := "grayskull", is_wormhole := false, noc_bandwidth_bytes_per_cycle := 32,
    dram_bandwidth_bytes_per_cycle := 24, dram_num_channels := 6, dram_num_subchannels := 2 }

/-- The plan `fx_plan_a` with an output buffer of 480 bytes. -/
def fx_plan_a_480 : OpModel :=
  { fx_plan_a with output_buffers := [{ fx_buffer with total_size_bytes := 480 }] }

/-! ## Vocabulary of the statements about overflow, cuts and the ribbon scan -/

/-- The 32-bit computation `std::abs(ribbon_size - r)` is defined: the row count and the ribbon
size are `int` values and their difference is above `INT_MIN` (it is at most `INT_MAX` since
the row count is not negative), so neither the subtraction nor `std::abs` overflows. -/
def row_distance_defined (ribbon_size : Int) (r : Nat) : Prop :=
  (r : Int) ≤ 2147483647 ∧ -2147483648 ≤ ribbon_size ∧ ribbon_size ≤ 2147483647 ∧
  -2147483648 < ribbon_size - (r : Int)

/-- The edges that a call of one of the two cut functions has to cut, given the cut-edge set
before the call: for the epoch variant the user data edges of the ops of the current epoch
leading to a kBudaOp consumer outside the epoch, for the ribbon variant the operand data edges
of the op whose producer is placed; in both cases the edges not cut before. -/
def CutCall.wanted (graph_solver : GraphSolver) : CutCall → Edge → Prop
  | .epoch graph placer, e =>
    ∃ op_name ∈ placer.current_epoch_ops,
      e ∈ graph.user_data_edges (graph.get_node_by_name op_name) ∧
      (graph.node_by_id e.consumer_node_id).node_type = NodeType.kBudaOp ∧
      (graph.node_by_id e.consumer_node_id).name ∉ placer.current_epoch_ops ∧
      e ∉ graph_solver.cut_edges
  | .ribbon graph op placer, e =>
    e ∈ graph.operand_data_edges op ∧
    placer.op_placed (graph.node_by_id e.producer_node_id).name = true ∧
    e ∉ graph_solver.cut_edges

/-- The `epoch_cut` flag that a call of one of the two cut functions passes. -/
def CutCall.flag : CutCall → Bool
  | .epoch _ _ => true
  | .ribbon _ _ _ => false

/-- The index `idx` is the position of the sparse matmul feeding the node `node` scheduled at
index `i`: some data operand of `node`, after the step through a buffering queue, is a sparse
matmul op whose name stands at `idx`, the greatest index below `i` holding that name. -/
def feeding_sparse_index (graph : Graph) (scheduled_ops : List String) (operands : List Node)
    (i idx : Nat) : Prop :=
  idx < i ∧ ∃ operand ∈ operands, ∃ source : Node,
    skip_buffering_queue graph operand = some source ∧
    source.node_type = NodeType.kBudaOp ∧ source.is_sparse_matmul = true ∧
    scheduled_ops[idx]? = some source.name ∧
    ∀ k, idx < k → k < i → scheduled_ops[k]? ≠ some source.name

/-- The scan returned at the differing matmul scheduled at index `i`: the op at `i` is a
qualifying matmul whose row-tile count is not the tracked value `tracked`, and the returned
index `idx` is `i` or the position of the sparse matmul feeding that op. -/
def change_found_at (graph : Graph) (scheduled_ops : List String) (tracked i idx : Nat) :
    Prop :=
  ∃ name, scheduled_ops[i]? = some name ∧
    qualifying_matmul (graph.get_node_by_name name) ∧ tracked ≠ 0 ∧
    (graph.get_node_by_name name).shape_rt ≠ tracked ∧
    (idx = i ∨ feeding_sparse_index graph scheduled_ops
      (graph.data_operands (graph.get_node_by_name name)) i idx)

theorem FloatVal.gt_asymm (a b : FloatVal) (h : a.gt b = true) : b.gt a = false := by
  cases a <;> cases b <;> simp_all [FloatVal.gt]
  exact le_of_lt h

theorem final_tie_break_asymm (v : Int) (x y : OpModel) (cx cy t : Int) (arch : String)
    (h : final_tie_break v x y cx cy t arch = true) :
    final_tie_break v y x cy cx t arch = false := by
  unfold final_tie_break at h ⊢
  by_cases hv2 : v = 2
  · simp only [hv2, if_true] at h ⊢
    cases hcx : close_to_target_exec_cycles (x.get_execution_cycles arch : Nat) cx t <;>
    cases hcy : close_to_target_exec_cycles (y.get_execution_cycles arch : Nat) cy t <;>
    simp only [hcx, hcy] at h ⊢
    · simp only [Bool.false_eq_true, if_false] at h ⊢
      split_ifs at h ⊢ <;> first
        | rfl
        | omega
        | exact FloatVal.gt_asymm _ _ h
    · simp
    · simp at h
    · simp only [if_true] at h ⊢
      split_ifs at h ⊢ <;> first
        | rfl
        | omega
        | exact FloatVal.gt_asymm _ _ h
  · by_cases hv1 : v = 1
    · subst hv1
      simp only [show ¬ ((1 : Int) = 2) by decide, if_false, if_true] at h ⊢
      cases hcx : close_to_target (to_uint32 cx) (to_uint32 t) <;>
      cases hcy : close_to_target (to_uint32 cy) (to_uint32 t) <;>
      simp_all <;> omega
    · simp [hv2, hv1]

theorem compare_from_ukt_asymm (env : CompareEnv) (x y : OpModel) (cx cy t : Int)
    (arch : String) (h : compare_from_ukt env x y cx cy t arch = some true) :
    compare_from_ukt env y x cy cx t arch = some false := by
  unfold compare_from_ukt at h ⊢
  cases hy : ukt_ok y with
  | none => simp [hy] at h
  | some uy =>
    cases hx : ukt_ok x with
    | none => simp [hy, hx] at h
    | some ux =>
      simp only [hx, hy, Option.some_bind] at h ⊢
      cases ux <;> cases uy <;> simp at h ⊢ <;>
      cases hmx : mblock_size_ok x <;> cases hmy : mblock_size_ok y <;>
      simp [hmx, hmy] at h ⊢ <;>
      exact final_tie_break_asymm _ _ _ _ _ _ _ h

theorem compare_from_prologue_asymm (env : CompareEnv) (x y : OpModel) (graph : Graph)
    (t : Int) (dc : DeviceConfig)
    (h : compare_from_prologue env x y graph t dc = some true) :
    compare_from_prologue env y x graph t dc = some false := by
  unfold compare_from_prologue at h ⊢
  cases hy : prologue_ok y with
  | none => simp [hy] at h
  | some py =>
    cases hx : prologue_ok x with
    | none => simp [hy, hx] at h
    | some px =>
      simp only [hx, hy, Option.some_bind] at h ⊢
      cases px <;> cases py <;> simp at h ⊢ <;>
      (cases hcx : get_limiter_cycles env.legacy_cycles_calc x graph dc
          env.dram_access_core_count none with
       | none => simp [hcx] at h
       | some cx =>
         cases hcy : get_limiter_cycles env.legacy_cycles_calc y graph dc
            env.dram_access_core_count none with
         | none => simp [hcx, hcy] at h
         | some cy =>
           simp only [hcx, hcy, Option.some_bind] at h ⊢
           split_ifs at h ⊢ <;> first
             | rfl
             | omega
             | exact compare_from_ukt_asymm _ _ _ _ _ _ _ h
             | simp_all)

/-- Claim C1. Strict asymmetry of the comparator: for two plans `a` and `b`, a ribbon size, a
cycle budget, a device configuration and a comparator configuration, if the comparison with
current `b` and candidate `a` returns true, then the comparison with current `a` and candidate
`b` returns false. -/
theorem is_candidate_better_than_current_asymm (env : CompareEnv) (a b : OpModel)
    (graph : Graph) (ribbon_size target_exec_cycles : Int) (device_config : DeviceConfig)
    (h : is_candidate_better_than_current env b a graph ribbon_size target_exec_cycles
      device_config = some true) :
    is_candidate_better_than_current env a b graph ribbon_size target_exec_cycles
      device_config = some false := by
  unfold is_candidate_better_than_current at h ⊢
  split_ifs at h ⊢ <;> first
    | rfl
    | omega
    | exact compare_from_prologue_asymm _ _ _ _ _ _ h
    | (simp at h ⊢; omega)
    | simp_all

/-- Witness for C1: with budget 100 a plan of 90 cycles is close to target and beats a plan of
150 cycles on the same grid, and the converse comparison is false. -/
theorem is_candidate_better_than_current_asymm_witness :
    is_candidate_better_than_current fx_compare_env (fx_plan "a" 2 2 1 150)
        (fx_plan "a" 2 2 1 90) fx_graph 2 100 fx_device = some true ∧
      is_candidate_better_than_current fx_compare_env (fx_plan "a" 2 2 1 90)
        (fx_plan "a" 2 2 1 150) fx_graph 2 100 fx_device = some false :=
  have h : is_candidate_better_than_current fx_compare_env (fx_plan "a" 2 2 1 150)
      (fx_plan "a" 2 2 1 90) fx_graph 2 100 fx_device = some true := by
    simp [is_candidate_better_than_current, compare_from_prologue, fx_plan, fx_compare_env,
      prologue_ok, fx_op, get_limiter_cycles, fx_graph, max_edge_cycles, compare_from_ukt,
      ukt_ok, mblock_size_ok, fx_block, final_tie_break, close_to_target_exec_cycles,
      above_80_percent]
  ⟨h, is_candidate_better_than_current_asymm _ _ _ _ _ _ _ h⟩

/-! ## Ribbon sizing -/

theorem foldl_min_spec (xs : List Nat) (x : Nat) :
    xs.foldl min x ∈ x :: xs ∧ ∀ y ∈ x :: xs, xs.foldl min x ≤ y := by
  induction xs generalizing x with
  | nil => simp
  | cons a as ih =>
    obtain ⟨hmem, hle⟩ := ih (min x a)
    simp only [List.foldl_cons]
    refine ⟨?_, ?_⟩
    · rcases List.mem_cons.1 hmem with h | h
      · rw [h]
        rcases Nat.le_total x a with hxa | hxa
        · simp [Nat.min_eq_left hxa]
        · simp [Nat.min_eq_right hxa]
      · simp [h]
    · intro y hy
      have h0 := hle (min x a) (List.mem_cons_self _ _)
      rcases List.mem_cons.1 hy with h | h
      · subst h
        exact le_trans h0 (Nat.min_le_left _ _)
      · rcases List.mem_cons.1 h with h | h
        · subst h
          exact le_trans h0 (Nat.min_le_right _ _)
        · exact hle y (List.mem_cons_of_mem _ h)

theorem foldl_max_spec (xs : List Nat) (x : Nat) :
    xs.foldl max x ∈ x :: xs ∧ ∀ y ∈ x :: xs, y ≤ xs.foldl max x := by
  induction xs generalizing x with
  | nil => simp
  | cons a as ih =>
    obtain ⟨hmem, hle⟩ := ih (max x a)
    simp only [List.foldl_cons]
    refine ⟨?_, ?_⟩
    · rcases List.mem_cons.1 hmem with h | h
      · rw [h]
        rcases Nat.le_total x a with hxa | hxa
        · simp [Nat.max_eq_right hxa]
        · simp [Nat.max_eq_left hxa]
      · simp [h]
    · intro y hy
      have h0 := hle (max x a) (List.mem_cons_self _ _)
      rcases List.mem_cons.1 hy with h | h
      · subst h
        exact le_trans (Nat.le_max_left _ _) h0
      · rcases List.mem_cons.1 h with h | h
        · subst h
          exact le_trans (Nat.le_max_right _ _) h0
        · exact hle y (List.mem_cons_of_mem _ h)

theorem min_element_spec (l : List Nat) (h : l ≠ []) :
    min_element l ∈ l ∧ ∀ y ∈ l, min_element l ≤ y := by
  cases l with
  | nil => exact absurd rfl h
  | cons x xs => exact foldl_min_spec xs x

theorem max_element_spec (l : List Nat) (h : l ≠ []) :
    max_element l ∈ l ∧ ∀ y ∈ l, y ≤ max_element l := by
  cases l with
  | nil => exact absurd rfl h
  | cons x xs => exact foldl_max_spec xs x

theorem legal_row_singleton (env : RibbonEnv) (grid : OpModel) (row : Nat) :
    legal_row env [grid] row ↔ (grid.grid_shape.r = row ∧
      ¬ (env.skip_streaming = true ∧ grid.t_stream_factor.r > 1) ∧
      prologue_ok grid = some true ∧
      env.min_tile_height ≤ grid.block_shape.rt ∧ grid.block_shape.rt ≤ env.max_tile_height) := by
  unfold legal_row
  constructor
  · rintro ⟨p, hp, h⟩
    rw [List.mem_singleton] at hp
    subst hp
    exact h
  · intro h
    exact ⟨grid, List.mem_singleton.2 rfl, h⟩

theorem valid_rows_step_spec (env : RibbonEnv) (valid : List Nat) (grid : OpModel)
    (hpre : prologue_ok grid ≠ none) :
    ∃ rows, valid_rows_step env valid grid = some rows ∧
      ∀ row, row ∈ rows ↔ (row ∈ valid ∨ legal_row env [grid] row) := by
  unfold valid_rows_step
  cases hp : prologue_ok grid with
  | none => exact absurd hp hpre
  | some ok =>
    by_cases hs : (env.skip_streaming && decide (grid.t_stream_factor.r > 1)) = true
    · refine ⟨valid, by simp [hs], ?_⟩
      intro row
      rw [legal_row_singleton]
      simp only [Bool.and_eq_true, decide_eq_true_eq] at hs
      constructor
      · exact Or.inl
      · rintro (h | h)
        · exact h
        · exact absurd hs h.2.1
    · simp only [hs, Bool.false_eq_true, if_false, Option.some_bind]
      simp only [Bool.and_eq_true, decide_eq_true_eq] at hs
      by_cases hc : (ok && decide (grid.block_shape.rt ≥ env.min_tile_height) &&
          decide (grid.block_shape.rt ≤ env.max_tile_height)) = true
      · refine ⟨grid.grid_shape.r :: valid, by simp [hc], ?_⟩
        simp only [Bool.and_eq_true, decide_eq_true_eq] at hc
        intro row
        rw [legal_row_singleton, List.mem_cons]
        constructor
        · rintro (h | h)
          · exact Or.inr ⟨h.symm, hs, by rw [hp, hc.1.1], hc.1.2, hc.2⟩
          · exact Or.inl h
        · rintro (h | h)
          · exact Or.inr h
          · exact Or.inl h.1.symm
      · refine ⟨valid, by simp [hc], ?_⟩
        simp only [Bool.and_eq_true, decide_eq_true_eq] at hc
        intro row
        rw [legal_row_singleton]
        constructor
        · exact Or.inl
        · rintro (h | h)
          · exact h
          · exfalso
            apply hc
            obtain ⟨_, _, h3, h4, h5⟩ := h
            rw [hp] at h3
            simp only [Option.some.injEq] at h3
            exact ⟨⟨h3, h4⟩, h5⟩

theorem legal_row_cons (env : RibbonEnv) (grid : OpModel) (rest : List OpModel) (row : Nat) :
    legal_row env (grid :: rest) row ↔ (legal_row env [grid] row ∨ legal_row env rest row) := by
  unfold legal_row
  constructor
  · rintro ⟨p, hp, h⟩
    rcases List.mem_cons.1 hp with rfl | hp
    · exact Or.inl ⟨p, List.mem_singleton.2 rfl, h⟩
    · exact Or.inr ⟨p, hp, h⟩
  · rintro (⟨p, hp, h⟩ | ⟨p, hp, h⟩)
    · rw [List.mem_singleton] at hp
      subst hp
      exact ⟨p, List.mem_cons_self _ _, h⟩
    · exact ⟨p, List.mem_cons_of_mem _ hp, h⟩

theorem op_valid_rows_spec (env : RibbonEnv) (plans : List OpModel) (valid : List Nat)
    (hpre : ∀ p ∈ plans, prologue_ok p ≠ none) :
    ∃ rows, op_valid_rows env plans valid = some rows ∧
      ∀ row, row ∈ rows ↔ (row ∈ valid ∨ legal_row env plans row) := by
  induction plans generalizing valid with
  | nil =>
    refine ⟨valid, rfl, ?_⟩
    intro row
    simp [legal_row]
  | cons grid rest ih =>
    obtain ⟨rows1, h1, hrows1⟩ :=
      valid_rows_step_spec env valid grid (hpre grid (List.mem_cons_self _ _))
    obtain ⟨rows, h2, hrows⟩ := ih rows1 (fun p hp => hpre p (List.mem_cons_of_mem _ hp))
    refine ⟨rows, ?_, ?_⟩
    · simp only [op_valid_rows, h1, Option.some_bind, h2]
    · intro row
      rw [hrows, hrows1, or_assoc, ← legal_row_cons]

theorem contains_iff_mem {α : Type} [BEq α] [LawfulBEq α] (l : List α) (a : α) :
    l.contains a = true ↔ a ∈ l := List.elem_iff

theorem ribbon_search_spec (env : RibbonEnv) (graph : Graph) (graph_solver : GraphSolver)
    (scheduled_ops : List String) (indices : List Nat) (st : RibbonSearch)
    (hnodup : indices.Nodup)
    (hlen : ∀ i ∈ indices, i < scheduled_ops.length)
    (hpre : ∀ i ∈ indices, ∀ p ∈ window_plans graph graph_solver scheduled_ops i,
      prologue_ok p ≠ none)
    (hfresh : ∀ i ∈ indices, st.valid_map i = [])
    (m : Nat) (hm : m ∈ st.candidates)
    (hlegal : ∀ i ∈ indices,
      legal_row env (window_plans graph graph_solver scheduled_ops i) m) :
    ∃ st', ribbon_search env graph graph_solver scheduled_ops indices st = some st' ∧
      ∀ c, c ∈ st'.candidates ↔ (c ∈ st.candidates ∧ ∀ i ∈ indices,
        legal_row env (window_plans graph graph_solver scheduled_ops i) c) := by
  induction indices generalizing st with
  | nil => exact ⟨st, rfl, by simp⟩
  | cons i rest ih =>
    have hi : i < scheduled_ops.length := hlen i (List.mem_cons_self _ _)
    have hname : scheduled_ops[i]? = some scheduled_ops[i] := List.getElem?_eq_getElem hi
    have hwin : window_plans graph graph_solver scheduled_ops i =
        graph_solver.op_models (graph.get_node_by_name scheduled_ops[i]) := by
      simp [window_plans, hname]
    obtain ⟨rows, hrows, hmem⟩ := op_valid_rows_spec env
      (graph_solver.op_models (graph.get_node_by_name scheduled_ops[i])) (st.valid_map i)
      (by rw [← hwin]; exact hpre i (List.mem_cons_self _ _))
    rw [hfresh i (List.mem_cons_self _ _), ← hwin] at hmem
    have hmem' : ∀ row, row ∈ rows ↔
        legal_row env (window_plans graph graph_solver scheduled_ops i) row := by
      intro row
      rw [hmem]
      simp
    have hm' : m ∈ st.candidates.filter (fun it => rows.contains it) := by
      rw [List.mem_filter]
      refine ⟨hm, ?_⟩
      rw [contains_iff_mem]
      exact (hmem' m).2 (hlegal i (List.mem_cons_self _ _))
    have hne : (st.candidates.filter (fun it => rows.contains it)).isEmpty = false := by
      cases hl : st.candidates.filter (fun it => rows.contains it) with
      | nil => rw [hl] at hm'; exact absurd hm' (List.not_mem_nil _)
      | cons a l => rfl
    have hnd := List.nodup_cons.1 hnodup
    obtain ⟨st', hst', hcand⟩ := ih
      { candidates := st.candidates.filter (fun it => rows.contains it),
        valid_map := fun j => if j = i then rows else st.valid_map j }
      hnd.2
      (fun j hj => hlen j (List.mem_cons_of_mem _ hj))
      (fun j hj => hpre j (List.mem_cons_of_mem _ hj))
      (fun j hj => by
        have hji : j ≠ i := fun h => hnd.1 (h ▸ hj)
        simp only [hji, if_false]
        exact hfresh j (List.mem_cons_of_mem _ hj))
      hm'
      (fun j hj => hlegal j (List.mem_cons_of_mem _ hj))
    refine ⟨st', ?_, ?_⟩
    · rw [hfresh i (List.mem_cons_self _ _)] at hrows
      simp only [ribbon_search, hname, Option.some_bind,
        hfresh i (List.mem_cons_self _ _), hrows, hne, Bool.false_eq_true, if_false]
      exact hst'
    · intro c
      rw [hcand c, List.mem_filter, contains_iff_mem, hmem' c]
      simp only [List.mem_cons, forall_eq_or_imp]
      tauto

theorem mem_window_indices (start_index end_index i : Nat) :
    i ∈ List.range' start_index (end_index - start_index) ↔
      (start_index ≤ i ∧ i < end_index) := by
  rw [List.mem_range'_1]
  omega

theorem ribbon_range_of_ne (bound : Nat) (h : bound ≠ 4294967295) :
    ribbon_range bound = some (List.range' 1 bound) := by
  simp [ribbon_range, h]

/-- The intersection branch of `pick_ribbon_size`: when some row count is legal for every op of
the window, the result is the least (greatest, when maximizing) such row count. -/
theorem pick_ribbon_size_of_common (env : RibbonEnv) (start_index end_index : Nat)
    (graph : Graph) (graph_solver : GraphSolver) (scheduled_ops : List String)
    (device_rows : Nat)
    (hok : window_ok start_index end_index graph graph_solver scheduled_ops)
    (hbound : max_ribbon_size env device_rows ≠ 4294967295)
    (m : Nat)
    (hm : common_row env start_index end_index graph graph_solver scheduled_ops device_rows m) :
    ∃ r, pick_ribbon_size env start_index end_index graph graph_solver scheduled_ops
        device_rows = some r ∧
      common_row env start_index end_index graph graph_solver scheduled_ops device_rows r ∧
      (env.ribbon_maximize = false → ∀ c, common_row env start_index end_index graph
        graph_solver scheduled_ops device_rows c → r ≤ c) ∧
      (env.ribbon_maximize = true → ∀ c, common_row env start_index end_index graph
        graph_solver scheduled_ops device_rows c → c ≤ r) := by
  obtain ⟨hend, hpre⟩ := hok
  obtain ⟨st', hst', hcand⟩ := ribbon_search_spec env graph graph_solver scheduled_ops
    (List.range' start_index (end_index - start_index))
    { candidates := List.range' 1 (max_ribbon_size env device_rows), valid_map := fun _ => [] }
    (List.nodup_range' _ _)
    (fun i hi => lt_of_lt_of_le ((mem_window_indices _ _ _).1 hi).2 hend)
    (fun i hi => hpre i ((mem_window_indices _ _ _).1 hi).1 ((mem_window_indices _ _ _).1 hi).2)
    (fun _ _ => rfl)
    m
    (by
      rw [List.mem_range'_1]
      have h1 := hm.1
      have h2 := hm.2.1
      omega)
    (fun i hi => hm.2.2 i ((mem_window_indices _ _ _).1 hi).1 ((mem_window_indices _ _ _).1 hi).2)
  have hiff : ∀ c, c ∈ st'.candidates ↔
      common_row env start_index end_index graph graph_solver scheduled_ops device_rows c := by
    intro c
    rw [hcand c]
    unfold common_row
    constructor
    · rintro ⟨h12, h3⟩
      have h := List.mem_range'_1.1 h12
      exact ⟨h.1, by omega, fun i hs he => h3 i ((mem_window_indices _ _ _).2 ⟨hs, he⟩)⟩
    · rintro ⟨h1, h2, h3⟩
      exact ⟨List.mem_range'_1.2 ⟨h1, by omega⟩,
        fun i hi => h3 i ((mem_window_indices _ _ _).1 hi).1 ((mem_window_indices _ _ _).1 hi).2⟩
  have hne : st'.candidates ≠ [] := by
    intro h
    have := (hiff m).2 hm
    rw [h] at this
    exact absurd this (List.not_mem_nil _)
  have hemp : st'.candidates.isEmpty = false := by
    cases hl : st'.candidates with
    | nil => exact absurd hl hne
    | cons a l => rfl
  obtain ⟨hminmem, hminle⟩ := min_element_spec st'.candidates hne
  obtain ⟨hmaxmem, hmaxle⟩ := max_element_spec st'.candidates hne
  cases hmx : env.ribbon_maximize with
  | false =>
    refine ⟨min_element st'.candidates, ?_, (hiff _).1 hminmem, ?_, ?_⟩
    · simp [pick_ribbon_size, ribbon_range_of_ne _ hbound, hst', hemp, hmx, hne]
    · intro _ c hc
      exact hminle c ((hiff c).2 hc)
    · intro h
      exact absurd h (by simp)
  | true =>
    refine ⟨max_element st'.candidates, ?_, (hiff _).1 hmaxmem, ?_, ?_⟩
    · simp [pick_ribbon_size, ribbon_range_of_ne _ hbound, hst', hemp, hmx, hne]
    · intro h
      exact absurd h (by simp)
    · intro _ c hc
      exact hmaxle c ((hiff c).2 hc)

/-- Claim C2, counterexample. With the skip-streaming flag set, an op whose plans are a
row-streaming plan on 1 row and a plain plan on 2 rows has the spec-legal row counts 1 and 2,
so the minimum of the claimed set is 1, but `pick_ribbon_size` returns 2. -/
theorem pick_ribbon_size_spec_legal_counterexample :
    ¬ (∀ m, (spec_common_row (fx_ribbon_env false true) 0 1 fx_graph
          (fx_solver fx_streaming_plans) ["a"] 2 m ∧
        ∀ c, spec_common_row (fx_ribbon_env false true) 0 1 fx_graph
          (fx_solver fx_streaming_plans) ["a"] 2 c → m ≤ c) →
      pick_ribbon_size (fx_ribbon_env false true) 0 1 fx_graph
        (fx_solver fx_streaming_plans) ["a"] 2 = some m) := by
  intro h
  have h1 := h 1 ⟨⟨le_refl 1, by decide, fun i _ hi => by
    have hi0 : i = 0 := by omega
    subst hi0
    exact ⟨fx_plan "a" 1 1 2 100, List.mem_cons_self _ _, rfl, by decide, by decide, by decide⟩⟩,
    fun c hc => hc.1⟩
  revert h1
  decide

/-- Claim C2, amended. For a window within the schedule whose plans satisfy the assertions of
`prologue_ok`, and an upper bound `max_ribbon_size` other than `2^32 - 1` (at which the loop
filling the candidates does not end): if some row count in `[1, max_ribbon_size]` is legal
for every op of the window, legality taking the skip-streaming flag into account, then `pick_ribbon_size` returns a row
count legal for every op of the window, the least such when minimizing and the greatest when
the maximize flag is set. -/
theorem pick_ribbon_size_common_row (env : RibbonEnv) (start_index end_index : Nat)
    (graph : Graph) (graph_solver : GraphSolver) (scheduled_ops : List String)
    (device_rows : Nat)
    (hok : window_ok start_index end_index graph graph_solver scheduled_ops)
    (hbound : max_ribbon_size env device_rows ≠ 4294967295)
    (hne : ∃ m, common_row env start_index end_index graph graph_solver scheduled_ops
      device_rows m) :
    ∃ r, pick_ribbon_size env start_index end_index graph graph_solver scheduled_ops
        device_rows = some r ∧
      common_row env start_index end_index graph graph_solver scheduled_ops device_rows r ∧
      (env.ribbon_maximize = false → ∀ c, common_row env start_index end_index graph
        graph_solver scheduled_ops device_rows c → r ≤ c) ∧
      (env.ribbon_maximize = true → ∀ c, common_row env start_index end_index graph
        graph_solver scheduled_ops device_rows c → c ≤ r) := by
  obtain ⟨m, hm⟩ := hne
  exact pick_ribbon_size_of_common env start_index end_index graph graph_solver scheduled_ops
    device_rows hok hbound m hm

/-- Witness for C2 (amended): the window of the counterexample, where only 2 rows are legal
once the streaming plan is skipped. -/
theorem pick_ribbon_size_common_row_witness :
    window_ok 0 1 fx_graph (fx_solver fx_streaming_plans) ["a"] ∧
    (∃ m, common_row (fx_ribbon_env false true) 0 1 fx_graph (fx_solver fx_streaming_plans)
      ["a"] 2 m) ∧
    ∃ r, pick_ribbon_size (fx_ribbon_env false true) 0 1 fx_graph
        (fx_solver fx_streaming_plans) ["a"] 2 = some r ∧
      common_row (fx_ribbon_env false true) 0 1 fx_graph (fx_solver fx_streaming_plans)
        ["a"] 2 r ∧
      ((fx_ribbon_env false true).ribbon_maximize = false →
        ∀ c, common_row (fx_ribbon_env false true) 0 1 fx_graph
          (fx_solver fx_streaming_plans) ["a"] 2 c → r ≤ c) ∧
      ((fx_ribbon_env false true).ribbon_maximize = true →
        ∀ c, common_row (fx_ribbon_env false true) 0 1 fx_graph
          (fx_solver fx_streaming_plans) ["a"] 2 c → c ≤ r) :=
  have hok : window_ok 0 1 fx_graph (fx_solver fx_streaming_plans) ["a"] :=
    ⟨by decide, fun i _ hi => by
      have hi0 : i = 0 := by omega
      subst hi0
      decide⟩
  have hne : ∃ m, common_row (fx_ribbon_env false true) 0 1 fx_graph
      (fx_solver fx_streaming_plans) ["a"] 2 m :=
    ⟨2, by decide, by decide, fun i _ hi => by
      have hi0 : i = 0 := by omega
      subst hi0
      exact ⟨fx_plan "a" 2 1 1 100, List.mem_cons_of_mem _ (List.mem_cons_self _ _), rfl,
        by decide, by decide, by decide, by decide⟩⟩
  ⟨hok, hne, pick_ribbon_size_common_row _ _ _ _ _ _ _ hok (by decide) hne⟩

/-- Claim C3. For a window within the schedule whose plans satisfy the assertions of
`prologue_ok`, with upper bound `N = max_ribbon_size` at least 1 and other than `2^32 - 1` (at
which the loop filling the candidates does not end): if every op of the window is
legal at every row count in `[1, N]`, then `pick_ribbon_size` returns 1 when minimizing and `N`
when maximizing. -/
theorem pick_ribbon_size_all_legal (env : RibbonEnv) (start_index end_index : Nat)
    (graph : Graph) (graph_solver : GraphSolver) (scheduled_ops : List String)
    (device_rows : Nat)
    (hok : window_ok start_index end_index graph graph_solver scheduled_ops)
    (hbound : max_ribbon_size env device_rows ≠ 4294967295)
    (hN : 1 ≤ max_ribbon_size env device_rows)
    (hall : ∀ i, start_index ≤ i → i < end_index →
      ∀ row, 1 ≤ row → row ≤ max_ribbon_size env device_rows →
        legal_row env (window_plans graph graph_solver scheduled_ops i) row) :
    pick_ribbon_size env start_index end_index graph graph_solver scheduled_ops device_rows =
      some (if env.ribbon_maximize then max_ribbon_size env device_rows else 1) := by
  have hc : ∀ row, 1 ≤ row → row ≤ max_ribbon_size env device_rows →
      common_row env start_index end_index graph graph_solver scheduled_ops device_rows row :=
    fun row h1 h2 => ⟨h1, h2, fun i hs he => hall i hs he row h1 h2⟩
  obtain ⟨r, hr, hcr, hmin, hmax⟩ := pick_ribbon_size_of_common env start_index end_index
    graph graph_solver scheduled_ops device_rows hok hbound 1 (hc 1 (le_refl 1) hN)
  rw [hr]
  cases hmx : env.ribbon_maximize with
  | false =>
    have h1 := hmin hmx 1 (hc 1 (le_refl 1) hN)
    have h2 := hcr.1
    simp only [Bool.false_eq_true, if_false, Option.some.injEq]
    omega
  | true =>
    have h1 := hmax hmx _ (hc _ hN (le_refl _))
    have h2 := hcr.2.1
    simp only [if_true, Option.some.injEq]
    omega

/-- Witness for C3: two ops that are legal on 1 and on 2 rows, on a device of 2 rows, when
maximizing. -/
theorem pick_ribbon_size_all_legal_witness :
    window_ok 0 2 fx_graph (fx_solver fx_full_plans) ["a", "b"] ∧
    1 ≤ max_ribbon_size (fx_ribbon_env true false) 2 ∧
    (∀ i, 0 ≤ i → i < 2 → ∀ row, 1 ≤ row → row ≤ max_ribbon_size (fx_ribbon_env true false) 2 →
      legal_row (fx_ribbon_env true false)
        (window_plans fx_graph (fx_solver fx_full_plans) ["a", "b"] i) row) ∧
    pick_ribbon_size (fx_ribbon_env true false) 0 2 fx_graph (fx_solver fx_full_plans)
      ["a", "b"] 2 = some 2 :=
  have hok : window_ok 0 2 fx_graph (fx_solver fx_full_plans) ["a", "b"] :=
    ⟨by decide, fun i _ hi => by
      interval_cases i <;> decide⟩
  have hN : 1 ≤ max_ribbon_size (fx_ribbon_env true false) 2 := by decide
  have hall : ∀ i, 0 ≤ i → i < 2 → ∀ row, 1 ≤ row →
      row ≤ max_ribbon_size (fx_ribbon_env true false) 2 →
      legal_row (fx_ribbon_env true false)
        (window_plans fx_graph (fx_solver fx_full_plans) ["a", "b"] i) row := by
    intro i _ hi row h1 h2
    have hN2 : max_ribbon_size (fx_ribbon_env true false) 2 = 2 := by decide
    rw [hN2] at h2
    interval_cases i <;> interval_cases row
    · exact ⟨fx_plan "a" 1 1 1 100, List.mem_cons_self _ _, rfl, by decide, by decide,
        by decide, by decide⟩
    · exact ⟨fx_plan "a" 2 1 1 100, List.mem_cons_of_mem _ (List.mem_cons_self _ _), rfl,
        by decide, by decide, by decide, by decide⟩
    · exact ⟨fx_plan "b" 1 1 1 100, List.mem_cons_self _ _, rfl, by decide, by decide,
        by decide, by decide⟩
    · exact ⟨fx_plan "b" 2 1 1 100, List.mem_cons_of_mem _ (List.mem_cons_self _ _), rfl,
        by decide, by decide, by decide, by decide⟩
  ⟨hok, hN, hall, pick_ribbon_size_all_legal _ _ _ _ _ _ _ hok (by decide) hN hall⟩

/-- Claim C4, evaluation at the failing input. Window `a, b, c` with legal row counts `{1}`,
`{2}`, `{2}` on a device of 2 rows: no row count is common, every op has a legal row count at
or below 2, yet the result is 1, minimizing or maximizing, and op `b` has no legal row count
at or below 1.
The search left the loop at `b`, so the fallback reads an empty `valid_map` entry for `c`. -/
theorem pick_ribbon_size_fallback_after_break :
    pick_ribbon_size (fx_ribbon_env false false) 0 3 fx_graph (fx_solver fx_disjoint_plans)
      ["a", "b", "c"] 2 = some 1 ∧
    pick_ribbon_size (fx_ribbon_env true false) 0 3 fx_graph (fx_solver fx_disjoint_plans)
      ["a", "b", "c"] 2 = some 1 ∧
    (¬ ∃ m, common_row (fx_ribbon_env false false) 0 3 fx_graph
      (fx_solver fx_disjoint_plans) ["a", "b", "c"] 2 m) ∧
    (∀ i, i < 3 → ∃ row, 1 ≤ row ∧ row ≤ 2 ∧ legal_row (fx_ribbon_env false false)
      (window_plans fx_graph (fx_solver fx_disjoint_plans) ["a", "b", "c"] i) row) ∧
    (¬ ∃ row, row ≤ 1 ∧ legal_row (fx_ribbon_env false false)
      (window_plans fx_graph (fx_solver fx_disjoint_plans) ["a", "b", "c"] 1) row) := by
  have ha : window_plans fx_graph (fx_solver fx_disjoint_plans) ["a", "b", "c"] 0 =
      [fx_plan "a" 1 1 1 100] := rfl
  have hb : window_plans fx_graph (fx_solver fx_disjoint_plans) ["a", "b", "c"] 1 =
      [fx_plan "b" 2 1 1 100] := rfl
  have hc : window_plans fx_graph (fx_solver fx_disjoint_plans) ["a", "b", "c"] 2 =
      [fx_plan "c" 2 1 1 100] := rfl
  refine ⟨by decide, by decide, ?_, ?_, ?_⟩
  · rintro ⟨m, _, _, h⟩
    have h0 := h 0 (le_refl 0) (by decide)
    have h1 := h 1 (by decide) (by decide)
    rw [ha, legal_row_singleton] at h0
    rw [hb, legal_row_singleton] at h1
    have e0 : (1 : Nat) = m := h0.1
    have e1 : (2 : Nat) = m := h1.1
    omega
  · intro i hi
    interval_cases i
    · exact ⟨1, by decide, by decide, by
        rw [ha, legal_row_singleton]
        exact ⟨rfl, by decide, by decide, by decide, by decide⟩⟩
    · exact ⟨2, by decide, by decide, by
        rw [hb, legal_row_singleton]
        exact ⟨rfl, by decide, by decide, by decide, by decide⟩⟩
    · exact ⟨2, by decide, by decide, by
        rw [hc, legal_row_singleton]
        exact ⟨rfl, by decide, by decide, by decide, by decide⟩⟩
  · rintro ⟨row, hle, h⟩
    rw [hb, legal_row_singleton] at h
    have e : (2 : Nat) = row := h.1
    omega

/-! ## Validation -/

/-- Claim C5, evaluation at the failing input. Schedule `a` against a solution that places
only `b`: the name `a` is absent from the mapping, yet `validate_solution` returns normally
because the mapping is not smaller than the schedule. -/
theorem validate_solution_misses_absent_name :
    validate_solution ["a"]
      { name_to_op_placement := [("b", { epoch_id := 0, chip_id := 0 })], num_epochs := 1 } =
      Except.ok () ∧
    PlacerSolution.count
      { name_to_op_placement := [("b", { epoch_id := 0, chip_id := 0 })], num_epochs := 1 }
      "a" = 0 := by
  constructor
  · rfl
  · decide

/-! ## Cost model -/

/-- Claim C6. For a plan whose op has no operand data edge and no user data edge,
`get_limiter_cycles` returns the execution cycle count of the plan, for every device
configuration, DRAM-access core count, epoch-node set and setting of the legacy flag. -/
theorem get_limiter_cycles_no_edges (legacy_cycles_calc : Bool) (op_model : OpModel)
    (graph : Graph) (device_config : DeviceConfig) (dram_access_core_count : Int)
    (current_epoch_nodes : Option (List Node))
    (hin : graph.operand_data_edges op_model.buda_op_node = [])
    (hout : graph.user_data_edges op_model.buda_op_node = []) :
    get_limiter_cycles legacy_cycles_calc op_model graph device_config dram_access_core_count
      current_epoch_nodes =
      some ((op_model.get_execution_cycles device_config.arch_name : Nat) : Int) := by
  unfold get_limiter_cycles
  cases legacy_cycles_calc with
  | true => simp
  | false =>
    simp only [Bool.false_eq_true, if_false, hin, hout, max_edge_cycles, Option.some_bind]
    simp

/-- Witness for C6: a plan of 70 cycles in the graph without edges. -/
theorem get_limiter_cycles_no_edges_witness :
    fx_graph.operand_data_edges (fx_plan "a" 1 1 1 70).buda_op_node = [] ∧
    fx_graph.user_data_edges (fx_plan "a" 1 1 1 70).buda_op_node = [] ∧
    get_limiter_cycles false (fx_plan "a" 1 1 1 70) fx_graph fx_device 3 (some []) =
      some 70 :=
  ⟨rfl, rfl, get_limiter_cycles_no_edges false (fx_plan "a" 1 1 1 70) fx_graph fx_device 3
    (some []) rfl rfl⟩

theorem consumer_is_queue_iff (graph : Graph) (current_epoch_nodes : Option (List Node))
    (edge : Edge) :
    consumer_is_queue graph current_epoch_nodes edge = true ↔
      ((graph.node_by_id edge.consumer_node_id).node_type = NodeType.kQueue ∨
        (graph.node_by_id edge.consumer_node_id).node_type = NodeType.kOutput ∨
        (∃ nodes, current_epoch_nodes = some nodes ∧
          graph.node_by_id edge.consumer_node_id ∉ nodes)) := by
  unfold consumer_is_queue
  cases current_epoch_nodes with
  | none => simp
  | some nodes =>
    simp only [Bool.or_eq_true, beq_iff_eq, Bool.not_eq_true', Option.some.injEq,
      exists_eq_left', or_assoc]
    rw [Bool.eq_false_iff, Ne, contains_iff_mem]

theorem fx_dram_bw : dram_bw fx_device 0 = 51 / 5 := by
  simp only [dram_bw, dram_bw_divider, fx_device]
  norm_num

/-! ## Float rounding -/

theorem round_half_even_eq (x : ℚ) (f : Nat) (h1 : (f : ℚ) ≤ x) (h2 : x < (f : ℚ) + 1) :
    round_half_even x =
      if x - f < 1 / 2 then f
      else if 1 / 2 < x - f then f + 1
      else if f % 2 = 0 then f else f + 1 := by
  have hf : ⌊x⌋₊ = f := by
    rw [Nat.floor_eq_iff (le_trans (Nat.cast_nonneg f) h1)]
    exact ⟨h1, h2⟩
  unfold round_half_even
  simp only [hf]

theorem int_log_two_eq (x : ℚ) (k : Int) (h1 : (2 : ℚ) ^ k ≤ x) (h2 : x < (2 : ℚ) ^ (k + 1)) :
    Int.log 2 x = k := by
  have hx : 0 < x := lt_of_lt_of_le (by positivity) h1
  have ha := (Int.zpow_le_iff_le_log (b := 2) (by norm_num) hx).1 (by exact_mod_cast h1)
  have hb := (Int.lt_zpow_iff_log_lt (b := 2) (by norm_num) hx).1 (by exact_mod_cast h2)
  omega

/-- Evaluation of `round_float` at a positive value `q` with `2 ^ k <= q < 2 ^ (k + 1)` above
the subnormal range: the significand `q / 2 ^ (k - (p - 1))` is rounded to `m`. -/
theorem round_float_pos (p : Nat) (emin emax : Int) (q : ℚ) (k : Int) (m : Nat)
    (h1 : (2 : ℚ) ^ k ≤ q) (h2 : q < (2 : ℚ) ^ (k + 1))
    (he : emin ≤ k - ((p : Int) - 1))
    (hm : round_half_even (q / (2 : ℚ) ^ (k - ((p : Int) - 1))) = m)
    (hfin : (m : ℚ) * (2 : ℚ) ^ (k - ((p : Int) - 1)) < (2 : ℚ) ^ emax) :
    round_float p emin emax q = FloatVal.fin ((m : ℚ) * (2 : ℚ) ^ (k - ((p : Int) - 1))) := by
  have hq : 0 < q := lt_of_lt_of_le (by positivity) h1
  unfold round_float
  simp only
  rw [if_neg (ne_of_gt hq), abs_of_pos hq, int_log_two_eq q k h1 h2, max_eq_left he, hm,
    if_neg (not_le.2 hfin), if_pos hq]

/-- Evaluation of `to_float32` from the binary exponent `k` of `q`, the floor `f` of the
significand and the rounded significand `m`. -/
theorem to_float32_eval (q : ℚ) (k : Int) (f m : Nat) (v : ℚ)
    (h1 : (2 : ℚ) ^ k ≤ q) (h2 : q < (2 : ℚ) ^ (k + 1)) (he : -126 ≤ k)
    (hf1 : (f : ℚ) ≤ q / (2 : ℚ) ^ (k - 23)) (hf2 : q / (2 : ℚ) ^ (k - 23) < (f : ℚ) + 1)
    (hm : (if q / (2 : ℚ) ^ (k - 23) - f < 1 / 2 then f
      else if 1 / 2 < q / (2 : ℚ) ^ (k - 23) - f then f + 1
      else if f % 2 = 0 then f else f + 1) = m)
    (hv : (m : ℚ) * (2 : ℚ) ^ (k - 23) = v) (hfin : v < (2 : ℚ) ^ (128 : Int)) :
    to_float32 q = FloatVal.fin v := by
  have hp : k - (((24 : Nat) : Int) - 1) = k - 23 := by norm_num
  unfold to_float32
  rw [round_float_pos 24 (-149) 128 q k m h1 h2 (by rw [hp]; omega)
    (by rw [hp, round_half_even_eq _ f hf1 hf2, hm]) (by rw [hp, hv]; exact hfin), hp, hv]

theorem to_float32_40 : to_float32 40 = FloatVal.fin 40 :=
  to_float32_eval 40 5 10485760 10485760 40 (by norm_num) (by norm_num) (by norm_num)
    (by norm_num) (by norm_num) (by norm_num) (by norm_num) (by norm_num)

/-- Claim C7. In the loop of `get_limiter_cycles` over the user data edges, with the float
arithmetic of the source, the write-cycle term of an edge whose output buffer is `b` is
`static_cast<int>(bytes / dram_bw)` when the consumer is a queue node, an output node, or an
epoch-node set is supplied and the consumer is not in it, and `static_cast<int>(bytes / noc_bw)`
otherwise, whatever the two bandwidths are. In particular, for an op whose only user edge leads
to a node outside the supplied epoch set, the output term of the cost is the conversion to
`int` of the float quotient of the buffer bytes by the derated DRAM bandwidth (at least 0),
whatever the read cycles are, and the cost is undefined when that conversion is. -/
theorem write_edge_cycles_bandwidth (op_model : OpModel) (graph : Graph)
    (device_config : DeviceConfig) (dram_access_core_count : Int)
    (current_epoch_nodes : Option (List Node)) (edge : Edge) (b : BufferModel)
    (hb : op_model.output_buffers[edge.producer_output_port_id]? = some b) :
    (∀ noc dram : FloatVal,
      ((graph.node_by_id edge.consumer_node_id).node_type = NodeType.kQueue ∨
        (graph.node_by_id edge.consumer_node_id).node_type = NodeType.kOutput ∨
        (∃ nodes, current_epoch_nodes = some nodes ∧
          graph.node_by_id edge.consumer_node_id ∉ nodes)) →
      float_write_edge_cycles op_model graph noc dram current_epoch_nodes edge =
        float_cycles b.total_size_bytes dram) ∧
    (∀ noc dram : FloatVal,
      ¬ ((graph.node_by_id edge.consumer_node_id).node_type = NodeType.kQueue ∨
        (graph.node_by_id edge.consumer_node_id).node_type = NodeType.kOutput ∨
        (∃ nodes, current_epoch_nodes = some nodes ∧
          graph.node_by_id edge.consumer_node_id ∉ nodes)) →
      float_write_edge_cycles op_model graph noc dram current_epoch_nodes edge =
        float_cycles b.total_size_bytes noc) ∧
    (∀ nodes memory_read_cycles, current_epoch_nodes = some nodes →
      graph.node_by_id edge.consumer_node_id ∉ nodes →
      graph.user_data_edges op_model.buda_op_node = [edge] →
      max_edge_cycles (float_read_edge_cycles op_model graph (float_noc_bw device_config)
        (float_dram_bw device_config dram_access_core_count))
        (graph.operand_data_edges op_model.buda_op_node) 0 = some memory_read_cycles →
      float_get_limiter_cycles false op_model graph device_config dram_access_core_count
        current_epoch_nodes =
        (float_cycles b.total_size_bytes
          (float_dram_bw device_config dram_access_core_count)).map fun term =>
            max ((op_model.get_execution_cycles device_config.arch_name : Nat) : Int)
              (max memory_read_cycles (max 0 term))) := by
  refine ⟨?_, ?_, ?_⟩
  · intro noc dram h
    unfold float_write_edge_cycles
    rw [if_pos ((consumer_is_queue_iff _ _ _).2 h), hb, Option.some_bind]
  · intro noc dram h
    unfold float_write_edge_cycles
    rw [if_neg (fun hc => h ((consumer_is_queue_iff _ _ _).1 hc)), hb, Option.some_bind]
  · intro nodes memory_read_cycles hn hmem hout hread
    have hq : consumer_is_queue graph current_epoch_nodes edge = true :=
      (consumer_is_queue_iff _ _ _).2 (Or.inr (Or.inr ⟨nodes, hn, hmem⟩))
    simp only [float_get_limiter_cycles, Bool.false_eq_true, if_false, hread, hout,
      max_edge_cycles, Option.some_bind, float_write_edge_cycles, hq, if_true, hb]
    cases float_cycles b.total_size_bytes
      (float_dram_bw device_config dram_access_core_count) <;> rfl

theorem to_float32_two : to_float32 2 = FloatVal.fin 2 :=
  to_float32_eval 2 1 8388608 8388608 2 (by norm_num) (by norm_num) (by norm_num)
    (by norm_num) (by norm_num) (by norm_num) (by norm_num) (by norm_num)

theorem to_float32_5 : to_float32 5 = FloatVal.fin 5 :=
  to_float32_eval 5 2 10485760 10485760 5 (by norm_num) (by norm_num) (by norm_num)
    (by norm_num) (by norm_num) (by norm_num) (by norm_num) (by norm_num)

theorem to_float32_8 : to_float32 8 = FloatVal.fin 8 :=
  to_float32_eval 8 3 8388608 8388608 8 (by norm_num) (by norm_num) (by norm_num)
    (by norm_num) (by norm_num) (by norm_num) (by norm_num) (by norm_num)

theorem to_float32_12 : to_float32 12 = FloatVal.fin 12 :=
  to_float32_eval 12 3 12582912 12582912 12 (by norm_num) (by norm_num) (by norm_num)
    (by norm_num) (by norm_num) (by norm_num) (by norm_num) (by norm_num)

theorem to_float32_24 : to_float32 24 = FloatVal.fin 24 :=
  to_float32_eval 24 4 12582912 12582912 24 (by norm_num) (by norm_num) (by norm_num)
    (by norm_num) (by norm_num) (by norm_num) (by norm_num) (by norm_num)

theorem to_float32_480 : to_float32 480 = FloatVal.fin 480 :=
  to_float32_eval 480 8 15728640 15728640 480 (by norm_num) (by norm_num) (by norm_num)
    (by norm_num) (by norm_num) (by norm_num) (by norm_num) (by norm_num)

theorem to_float32_three_halves : to_float32 (3 / 2) = FloatVal.fin (3 / 2) :=
  to_float32_eval (3 / 2) 0 12582912 12582912 (3 / 2) (by norm_num) (by norm_num)
    (by norm_num) (by norm_num) (by norm_num) (by norm_num) (by norm_num) (by norm_num)

/-- The `float` nearest to 24 / 5 is 4.80000019073486328125. -/
theorem to_float32_24_5 : to_float32 (24 / 5) = FloatVal.fin (5033165 / 1048576) :=
  to_float32_eval (24 / 5) 2 10066329 10066330 _ (by norm_num) (by norm_num)
    (by norm_num) (by norm_num) (by norm_num) (by norm_num) (by norm_num) (by norm_num)

/-- With 40 cores accessing DRAM the divider is `ceil(40 / (12 / 1.5)) = 5`. -/
theorem fx_plain_divider : float_dram_bw_divider fx_plain_device 40 = FloatVal.fin 5 := by
  have h12 : (((fx_plain_device.dram_num_channels * fx_plain_device.dram_num_subchannels :
      Nat) : ℚ)) = 12 := by norm_num [fx_plain_device]
  have h40 : ((40 : Int) : ℚ) = 40 := by norm_num
  have h8 : (12 : ℚ) / (3 / 2) = 8 := by norm_num
  have h5 : (40 : ℚ) / 8 = 5 := by norm_num
  have hc : ((⌈(5 : ℚ)⌉ : Int) : ℚ) = 5 := by norm_num
  simp only [float_dram_bw_divider, h12, h40, to_float32_12, to_float32_three_halves,
    to_float32_40, to_float32_two, FloatVal.div]
  rw [if_neg (by norm_num), h8, to_float32_8]
  simp only [FloatVal.div]
  rw [if_neg (by norm_num), h5, to_float32_5]
  simp only [float_ceil, hc, float_max, FloatVal.gt]
  norm_num

/-- The float DRAM bandwidth of the device is the float nearest to 24 / 5, above 24 / 5. -/
theorem fx_plain_dram_bw :
    float_dram_bw fx_plain_device 40 = FloatVal.fin (5033165 / 1048576) := by
  have h24 : fx_plain_device.dram_bandwidth_bytes_per_cycle = 24 := rfl
  have hw : fx_plain_device.is_wormhole = false := rfl
  simp only [float_dram_bw, hw, Bool.false_eq_true, if_false, fx_plain_divider, h24,
    to_float32_24, FloatVal.div]
  rw [if_neg (by norm_num), to_float32_24_5]

/-- The float quotient of 480 bytes by this bandwidth is 99.99999237060546875: 99 cycles. -/
theorem fx_plain_cycles :
    float_cycles 480 (FloatVal.fin (5033165 / 1048576)) = some 99 := by
  have h480 : ((480 : Nat) : ℚ) = 480 := by norm_num
  have hq : to_float32 (480 / (5033165 / 1048576)) = FloatVal.fin (13107199 / 131072) :=
    to_float32_eval _ 6 13107199 13107199 _ (by norm_num) (by norm_num) (by norm_num)
      (by norm_num) (by norm_num) (by norm_num) (by norm_num) (by norm_num)
  have ht : trunc (13107199 / 131072) = 99 := by
    unfold trunc
    rw [if_pos (by norm_num), Int.floor_eq_iff]
    norm_num
  simp only [float_cycles, h480, to_float32_480, FloatVal.div]
  rw [if_neg (by norm_num), hq]
  simp only [float_to_int, ht]
  norm_num

/-- Witness for C7: op `A` (50 cycles, output buffer of 480 bytes) whose only consumer `B` is
outside the epoch set, on a device with DRAM bandwidth 24 and divider 5: the edge term uses the
float DRAM bandwidth 4.8000002, and the cost is 99 cycles, where 480 / 4.8 is 100. -/
theorem write_edge_cycles_bandwidth_witness :
    fx_plan_a_480.output_buffers[fx_edge_ab.producer_output_port_id]? =
      some { fx_buffer with total_size_bytes := 480 } ∧
    float_write_edge_cycles fx_plan_a_480 fx_pair_graph (float_noc_bw fx_plain_device)
      (float_dram_bw fx_plain_device 40) (some [fx_node_a]) fx_edge_ab = some 99 ∧
    float_get_limiter_cycles false fx_plan_a_480 fx_pair_graph fx_plain_device 40
      (some [fx_node_a]) = some 99 :=
  have h := write_edge_cycles_bandwidth fx_plan_a_480 fx_pair_graph fx_plain_device 40
    (some [fx_node_a]) fx_edge_ab { fx_buffer with total_size_bytes := 480 } rfl
  have hterm : float_cycles ({ fx_buffer with total_size_bytes := 480 } : BufferModel
      ).total_size_bytes (float_dram_bw fx_plain_device 40) = some 99 := by
    rw [fx_plain_dram_bw]
    exact fx_plain_cycles
  ⟨rfl,
    (h.1 _ _ (Or.inr (Or.inr ⟨[fx_node_a], rfl, by decide⟩))).trans hterm,
    by
      rw [h.2.2 [fx_node_a] 0 rfl (by decide) rfl rfl, hterm]
      rfl⟩

/-! ## Pairing check -/

/-- Claim C8, counterexample. The sparse matmul `S` feeds the dense matmul `D` and a second
consumer `X`; `D` is pairable with `S`, both plans have 3 rows and the region fits. The check
returns true although `D` is not the only data consumer of `S`. -/
theorem can_bind_with_second_consumer :
    can_bind_sparse_dense_matmul_pair fx_fork_graph (some fx_sparse)
      { fx_plan "S" 3 2 1 100 with buda_op_node := fx_sparse } (some fx_dense)
      { fx_plan "D" 3 4 1 100 with buda_op_node := fx_dense } (fx_placer []) false =
      some true ∧
    fx_fork_graph.data_users fx_sparse = [fx_dense, fx_op "X"] ∧
    ¬ spec_can_bind fx_fork_graph fx_sparse fx_dense
      { fx_plan "S" 3 2 1 100 with buda_op_node := fx_sparse }
      { fx_plan "D" 3 4 1 100 with buda_op_node := fx_dense } (fx_placer []) false := by
  refine ⟨by decide, rfl, ?_⟩
  rintro ⟨_, _, _, h, _⟩
  revert h
  decide

/-- Claim C8, amended. `can_bind_sparse_dense_matmul_pair` returns true exactly when both ops
are given, the sparse op is a sparse matmul, the dense op is marked pairable with it, both
plans have the same grid row count, the fit test of the placer accepts a region of that row
count whose column count is the sum of the column counts, and the dense op is the first
entry of the data users of the sparse op. -/
theorem can_bind_sparse_dense_matmul_pair_iff (graph : Graph) (sparse_op : Option Node)
    (sparse_op_model : OpModel) (dense_op : Option Node) (dense_op_model : OpModel)
    (interactive_placer : InteractivePlacer) (allow_transpose : Bool) :
    can_bind_sparse_dense_matmul_pair graph sparse_op sparse_op_model dense_op dense_op_model
      interactive_placer allow_transpose = some true ↔
    ∃ sparse dense, sparse_op = some sparse ∧ dense_op = some dense ∧
      sparse.is_sparse_matmul = true ∧
      graph.should_pair_with_sparse dense sparse = true ∧
      sparse_op_model.grid_shape.r = dense_op_model.grid_shape.r ∧
      interactive_placer.can_fit_on_single_epoch sparse_op_model.grid_shape.r
        (sparse_op_model.grid_shape.c + dense_op_model.grid_shape.c) allow_transpose = true ∧
      (graph.data_users sparse)[0]? = some dense := by
  unfold can_bind_sparse_dense_matmul_pair
  cases sparse_op with
  | none => simp
  | some sparse =>
    cases dense_op with
    | none => simp
    | some dense =>
      simp only [Option.some.injEq, exists_and_left, exists_eq_left']
      generalize interactive_placer.can_fit_on_single_epoch sparse_op_model.grid_shape.r
        (sparse_op_model.grid_shape.c + dense_op_model.grid_shape.c) allow_transpose = fit
      generalize sparse_op_model.grid_shape.r = sparse_r
      generalize dense_op_model.grid_shape.r = dense_r
      cases fit <;> cases sparse.is_sparse_matmul <;>
        cases graph.should_pair_with_sparse dense sparse <;>
        by_cases h3 : sparse_r = dense_r <;>
        cases (graph.data_users sparse)[0]? <;>
        simp [h3]
      exact eq_comm

/-! ## Graph cuts -/

theorem mem_epoch_edges_to_cut (graph : Graph) (current_epoch_ops : List String)
    (already_cut_edges : List Edge) (e : Edge) :
    e ∈ epoch_edges_to_cut graph current_epoch_ops already_cut_edges ↔
      ∃ op_name ∈ current_epoch_ops,
        e ∈ graph.user_data_edges (graph.get_node_by_name op_name) ∧
        (graph.node_by_id e.consumer_node_id).node_type = NodeType.kBudaOp ∧
        (graph.node_by_id e.consumer_node_id).name ∉ current_epoch_ops ∧
        e ∉ already_cut_edges := by
  unfold epoch_edges_to_cut
  simp only [List.mem_flatten, List.mem_map, exists_exists_and_eq_and, List.mem_filter]
  constructor
  · rintro ⟨op_name, hop, he, hf⟩
    refine ⟨op_name, hop, he, ?_⟩
    by_cases h1 : (graph.node_by_id e.consumer_node_id).node_type = NodeType.kBudaOp
    · simp [h1] at hf
      exact ⟨h1, hf.2, hf.1⟩
    · simp [h1] at hf
  · rintro ⟨op_name, hop, he, h1, h3, h2⟩
    refine ⟨op_name, hop, he, ?_⟩
    simp [h1, h2, h3]

theorem mem_ribbon_edges_to_cut (graph : Graph) (op : Node) (placer : InteractivePlacer)
    (pre_cut_edges : List Edge) (e : Edge) :
    e ∈ ribbon_edges_to_cut graph op placer pre_cut_edges ↔
      (e ∈ graph.operand_data_edges op ∧
        placer.op_placed (graph.node_by_id e.producer_node_id).name = true ∧
        e ∉ pre_cut_edges) := by
  unfold ribbon_edges_to_cut
  rw [List.mem_filter, Bool.and_eq_true, Bool.not_eq_true', Bool.eq_false_iff, Ne,
    contains_iff_mem]

theorem length_pos_iff_ne_nil (l : List Edge) : l.length > 0 ↔ l ≠ [] := by
  cases l <;> simp

/-- Claim C9. `cut_graph_solver_epoch` either makes no cut call, and then no user data edge of
an op of the current epoch leads to a kBudaOp consumer outside the current epoch without being
cut already; or it makes exactly one cut call, flagged as an epoch cut, whose edges are exactly
those edges. -/
theorem cut_graph_solver_epoch_cut_call (graph : Graph) (placer : InteractivePlacer)
    (graph_solver : GraphSolver) :
    ((cut_graph_solver_epoch graph placer graph_solver).cut_calls = graph_solver.cut_calls ∧
      ¬ ∃ e, ∃ op_name ∈ placer.current_epoch_ops,
        e ∈ graph.user_data_edges (graph.get_node_by_name op_name) ∧
        (graph.node_by_id e.consumer_node_id).node_type = NodeType.kBudaOp ∧
        (graph.node_by_id e.consumer_node_id).name ∉ placer.current_epoch_ops ∧
        e ∉ graph_solver.cut_edges) ∨
    (∃ edges, edges ≠ [] ∧
      (cut_graph_solver_epoch graph placer graph_solver).cut_calls =
        graph_solver.cut_calls ++ [(edges, true)] ∧
      ∀ e, e ∈ edges ↔ ∃ op_name ∈ placer.current_epoch_ops,
        e ∈ graph.user_data_edges (graph.get_node_by_name op_name) ∧
        (graph.node_by_id e.consumer_node_id).node_type = NodeType.kBudaOp ∧
        (graph.node_by_id e.consumer_node_id).name ∉ placer.current_epoch_ops ∧
        e ∉ graph_solver.cut_edges) := by
  unfold cut_graph_solver_epoch
  by_cases h : epoch_edges_to_cut graph placer.current_epoch_ops graph_solver.cut_edges = []
  · left
    refine ⟨by simp [h], ?_⟩
    rintro ⟨e, he⟩
    have := (mem_epoch_edges_to_cut _ _ _ e).2 he
    rw [h] at this
    exact absurd this (List.not_mem_nil _)
  · right
    refine ⟨_, h, ?_, fun e => mem_epoch_edges_to_cut _ _ _ e⟩
    simp only [(length_pos_iff_ne_nil _).2 h, if_true, GraphSolver.cut]

theorem cut_call_run_cut_edges (graph_solver : GraphSolver) (call : CutCall) :
    ∃ edges, (call.run graph_solver).cut_edges = graph_solver.cut_edges ++ edges := by
  cases call with
  | epoch graph placer =>
    simp only [CutCall.run, cut_graph_solver_epoch]
    split_ifs
    · exact ⟨_, rfl⟩
    · exact ⟨[], by simp⟩
  | ribbon graph op placer =>
    simp only [CutCall.run, cut_graph_solver_ribbon]
    split_ifs
    · exact ⟨_, rfl⟩
    · exact ⟨[], by simp⟩

theorem run_cut_calls_cut_edges (graph_solver : GraphSolver) (calls : List CutCall) :
    ∃ edges, (run_cut_calls graph_solver calls).cut_edges =
      graph_solver.cut_edges ++ edges := by
  induction calls generalizing graph_solver with
  | nil => exact ⟨[], by simp [run_cut_calls]⟩
  | cons call rest ih =>
    obtain ⟨e1, h1⟩ := cut_call_run_cut_edges graph_solver call
    obtain ⟨e2, h2⟩ := ih (call.run graph_solver)
    refine ⟨e1 ++ e2, ?_⟩
    simp only [run_cut_calls, List.foldl_cons] at h2 ⊢
    rw [h2, h1, List.append_assoc]

theorem cut_call_run_spec (graph_solver : GraphSolver) (call : CutCall) :
    ∃ edges, (∀ e, e ∈ edges ↔ call.wanted graph_solver e) ∧
      (call.run graph_solver).cut_edges = graph_solver.cut_edges ++ edges ∧
      ((edges = [] ∧ (call.run graph_solver).cut_calls = graph_solver.cut_calls) ∨
        (edges ≠ [] ∧ (call.run graph_solver).cut_calls =
          graph_solver.cut_calls ++ [(edges, call.flag)])) := by
  cases call with
  | epoch graph placer =>
    refine ⟨epoch_edges_to_cut graph placer.current_epoch_ops graph_solver.cut_edges,
      fun e => mem_epoch_edges_to_cut _ _ _ e, ?_, ?_⟩
    · simp only [CutCall.run, cut_graph_solver_epoch]
      split_ifs with h
      · rfl
      · have := (not_iff_not.2 (length_pos_iff_ne_nil _)).1 h
        simp only [ne_eq, not_not] at this
        simp [this]
    · by_cases h : epoch_edges_to_cut graph placer.current_epoch_ops graph_solver.cut_edges = []
      · left
        exact ⟨h, by simp [CutCall.run, cut_graph_solver_epoch, h]⟩
      · right
        refine ⟨h, ?_⟩
        simp only [CutCall.run, cut_graph_solver_epoch, (length_pos_iff_ne_nil _).2 h, if_true,
          GraphSolver.cut, CutCall.flag]
  | ribbon graph op placer =>
    refine ⟨ribbon_edges_to_cut graph op placer graph_solver.cut_edges,
      fun e => mem_ribbon_edges_to_cut _ _ _ _ e, ?_, ?_⟩
    · simp only [CutCall.run, cut_graph_solver_ribbon]
      split_ifs with h
      · rfl
      · have := (not_iff_not.2 (length_pos_iff_ne_nil _)).1 h
        simp only [ne_eq, not_not] at this
        simp [this]
    · by_cases h : ribbon_edges_to_cut graph op placer graph_solver.cut_edges = []
      · left
        exact ⟨h, by simp [CutCall.run, cut_graph_solver_ribbon, h]⟩
      · right
        refine ⟨h, ?_⟩
        simp only [CutCall.run, cut_graph_solver_ribbon, (length_pos_iff_ne_nil _).2 h,
          if_true, GraphSolver.cut, CutCall.flag]

/-- Claim C10. With a cut adding its edges to the cut-edge set: along every sequence of calls
of `cut_graph_solver_epoch` and `cut_graph_solver_ribbon` the cut-edge set only grows. Every
call adds to the cut-edge set exactly the edges it has to cut, none of which was cut before;
it makes no cut call when there is no such edge and otherwise one cut call with exactly these
edges. For `cut_graph_solver_ribbon` these are exactly the operand data edges of the op whose
producer is placed and which were not cut before: it makes no cut call exactly when there is
no such edge, and otherwise one cut call, not flagged as an epoch cut, with exactly them. -/
theorem cut_edges_monotone :
    (∀ (graph_solver : GraphSolver) (before after : List CutCall),
      ∀ e ∈ (run_cut_calls graph_solver before).cut_edges,
        e ∈ (run_cut_calls graph_solver (before ++ after)).cut_edges) ∧
    (∀ (graph_solver : GraphSolver) (call : CutCall),
      ∃ edges, (∀ e, e ∈ edges ↔ call.wanted graph_solver e) ∧
        (∀ e ∈ edges, e ∉ graph_solver.cut_edges) ∧
        (call.run graph_solver).cut_edges = graph_solver.cut_edges ++ edges ∧
        ((edges = [] ∧ (call.run graph_solver).cut_calls = graph_solver.cut_calls) ∨
          (edges ≠ [] ∧ (call.run graph_solver).cut_calls =
            graph_solver.cut_calls ++ [(edges, call.flag)]))) ∧
    (∀ (graph : Graph) (op : Node) (placer : InteractivePlacer) (graph_solver : GraphSolver),
      ∃ edges,
        (∀ e, e ∈ edges ↔ (e ∈ graph.operand_data_edges op ∧
          placer.op_placed (graph.node_by_id e.producer_node_id).name = true ∧
          e ∉ graph_solver.cut_edges)) ∧
        (cut_graph_solver_ribbon graph op placer graph_solver).cut_edges =
          graph_solver.cut_edges ++ edges ∧
        ((edges = [] ∧ (cut_graph_solver_ribbon graph op placer graph_solver).cut_calls =
            graph_solver.cut_calls) ∨
          (edges ≠ [] ∧ (cut_graph_solver_ribbon graph op placer graph_solver).cut_calls =
            graph_solver.cut_calls ++ [(edges, false)]))) := by
  refine ⟨?_, ?_, ?_⟩
  · intro graph_solver before after e he
    obtain ⟨edges, h⟩ := run_cut_calls_cut_edges (run_cut_calls graph_solver before) after
    have hfold : run_cut_calls graph_solver (before ++ after) =
        run_cut_calls (run_cut_calls graph_solver before) after := by
      simp [run_cut_calls, List.foldl_append]
    rw [hfold, h]
    exact List.mem_append_left _ he
  · intro graph_solver call
    obtain ⟨edges, hmem, hcut, hcalls⟩ := cut_call_run_spec graph_solver call
    refine ⟨edges, hmem, fun e he => ?_, hcut, hcalls⟩
    have hw := (hmem e).1 he
    cases call with
    | epoch graph placer =>
      obtain ⟨_, _, _, _, _, hnot⟩ := hw
      exact hnot
    | ribbon graph op placer => exact hw.2.2
  · intro graph op placer graph_solver
    exact cut_call_run_spec graph_solver (CutCall.ribbon graph op placer)

/-! ## Rules of the comparator -/

theorem is_candidate_better_rows_differ (env : CompareEnv) (current candidate : OpModel)
    (graph : Graph) (ribbon_size target_exec_cycles : Int) (device_config : DeviceConfig)
    (hnode : current.buda_op_node = candidate.buda_op_node)
    (hrows : candidate.grid_shape.r ≠ current.grid_shape.r) :
    is_candidate_better_than_current env current candidate graph ribbon_size
      target_exec_cycles device_config =
      some (decide (row_better ribbon_size current.grid_shape.r candidate.grid_shape.r)) := by
  unfold is_candidate_better_than_current row_better
  simp only [hnode, ne_eq, not_true_eq_false, if_false, hrows, not_false_eq_true, if_true]
  split_ifs with h1 h2
  · simp [h1]
  · simp only [Option.some.injEq, Bool.false_eq, decide_eq_false_iff_not]
    omega
  · simp only [Option.some.injEq, decide_eq_decide]
    omega

theorem is_candidate_better_rows_equal (env : CompareEnv) (current candidate : OpModel)
    (graph : Graph) (ribbon_size target_exec_cycles : Int) (device_config : DeviceConfig)
    (hnode : current.buda_op_node = candidate.buda_op_node)
    (hrows : candidate.grid_shape.r = current.grid_shape.r) :
    is_candidate_better_than_current env current candidate graph ribbon_size
      target_exec_cycles device_config =
      compare_from_prologue env current candidate graph target_exec_cycles device_config := by
  unfold is_candidate_better_than_current
  simp [hnode, hrows]

/-- Claim C12. When the row counts of the two plans (of the same op) differ, and the ribbon size
and the row counts are `int` values for which the 32-bit computations
`std::abs(ribbon_size - r)` do not overflow, so that they give the distances
`|ribbon_size - r|` (both at most `INT_MAX`), the comparator is decided by the row counts
alone: it returns true exactly when the candidate's row count is closer to the ribbon size, or
as close and smaller; no other attribute of the plans, and neither the graph, the budget nor
the configuration, enters the result. -/
theorem is_candidate_better_decided_by_rows (env : CompareEnv) (current candidate : OpModel)
    (graph : Graph) (ribbon_size target_exec_cycles : Int) (device_config : DeviceConfig)
    (hnode : current.buda_op_node = candidate.buda_op_node)
    (hrows : candidate.grid_shape.r ≠ current.grid_shape.r)
    (hcurrent : row_distance_defined ribbon_size current.grid_shape.r)
    (hcandidate : row_distance_defined ribbon_size candidate.grid_shape.r) :
    is_candidate_better_than_current env current candidate graph ribbon_size
      target_exec_cycles device_config =
      some (decide
        ((ribbon_size - (candidate.grid_shape.r : Int)).natAbs <
            (ribbon_size - (current.grid_shape.r : Int)).natAbs ∨
          ((ribbon_size - (candidate.grid_shape.r : Int)).natAbs =
              (ribbon_size - (current.grid_shape.r : Int)).natAbs ∧
            candidate.grid_shape.r < current.grid_shape.r))) ∧
    (ribbon_size - (candidate.grid_shape.r : Int)).natAbs ≤ 2147483647 ∧
    (ribbon_size - (current.grid_shape.r : Int)).natAbs ≤ 2147483647 := by
  unfold row_distance_defined at hcurrent hcandidate
  refine ⟨?_, by omega, by omega⟩
  rw [is_candidate_better_rows_differ env current candidate graph ribbon_size
    target_exec_cycles device_config hnode hrows]
  simp only [row_better, decide_eq_decide]

/-- Witness for C12: with ribbon size 2, a candidate on 2 rows beats a current plan on 4 rows
that has fewer columns and fewer cycles. -/
theorem is_candidate_better_decided_by_rows_witness :
    (fx_plan "a" 4 1 1 10).buda_op_node = (fx_plan "a" 2 8 1 500).buda_op_node ∧
    (fx_plan "a" 2 8 1 500).grid_shape.r ≠ (fx_plan "a" 4 1 1 10).grid_shape.r ∧
    row_distance_defined 2 (fx_plan "a" 4 1 1 10).grid_shape.r ∧
    row_distance_defined 2 (fx_plan "a" 2 8 1 500).grid_shape.r ∧
    is_candidate_better_than_current fx_compare_env (fx_plan "a" 4 1 1 10)
      (fx_plan "a" 2 8 1 500) fx_graph 2 100 fx_device = some true :=
  have hcurrent : row_distance_defined 2 (fx_plan "a" 4 1 1 10).grid_shape.r := by
    unfold row_distance_defined
    decide
  have hcandidate : row_distance_defined 2 (fx_plan "a" 2 8 1 500).grid_shape.r := by
    unfold row_distance_defined
    decide
  ⟨rfl, by decide, hcurrent, hcandidate,
    (is_candidate_better_decided_by_rows fx_compare_env (fx_plan "a" 4 1 1 10)
      (fx_plan "a" 2 8 1 500) fx_graph 2 100 fx_device rfl (by decide) hcurrent
      hcandidate).1.trans (by decide)⟩

theorem compare_from_prologue_of_ready (env : CompareEnv) (current candidate : OpModel)
    (graph : Graph) (target_exec_cycles : Int) (device_config : DeviceConfig) (ready : Bool)
    (current_cycles candidate_cycles : Int)
    (hpc : prologue_ok candidate = some ready) (hpu : prologue_ok current = some ready)
    (hcu : plan_cost env graph device_config current = some current_cycles)
    (hca : plan_cost env graph device_config candidate = some candidate_cycles) :
    compare_from_prologue env current candidate graph target_exec_cycles device_config =
      if candidate_cycles ≤ target_exec_cycles ∧ current_cycles ≤ target_exec_cycles ∧
          candidate.grid_shape.c < current.grid_shape.c then some true
      else if candidate_cycles ≤ target_exec_cycles ∧ current_cycles ≤ target_exec_cycles ∧
          candidate.grid_shape.c > current.grid_shape.c then some false
      else compare_from_ukt env current candidate current_cycles candidate_cycles
        target_exec_cycles device_config.arch_name := by
  unfold plan_cost at hcu hca
  unfold compare_from_prologue
  simp only [hpc, hpu, Option.some_bind, hcu, hca]
  cases ready <;> simp

theorem fx_plan_cost (name : String) (r c stream_r cycles : Nat) :
    plan_cost fx_compare_env fx_graph fx_device (fx_plan name r c stream_r cycles) =
      some (cycles : Int) := by
  simp [plan_cost, get_limiter_cycles, fx_compare_env, fx_graph, fx_plan, max_edge_cycles]

theorem is_candidate_better_of_ties (env : CompareEnv) (current candidate : OpModel)
    (graph : Graph) (ribbon_size target_exec_cycles : Int) (device_config : DeviceConfig)
    (current_cycles candidate_cycles : Int)
    (h : earlier_rules_tie env current candidate graph target_exec_cycles device_config
      current_cycles candidate_cycles) :
    is_candidate_better_than_current env current candidate graph ribbon_size
      target_exec_cycles device_config =
      some (final_tie_break env.op_model_compare_version current candidate current_cycles
        candidate_cycles target_exec_cycles device_config.arch_name) := by
  obtain ⟨hnode, hrows, ⟨ready, hpc, hpu⟩, hcu, hca, hcol, ⟨ukt, huc, huu⟩, hmb⟩ := h
  rw [is_candidate_better_rows_equal env current candidate graph ribbon_size
      target_exec_cycles device_config hnode hrows,
    compare_from_prologue_of_ready env current candidate graph target_exec_cycles
      device_config ready current_cycles candidate_cycles hpc hpu hcu hca]
  have h1 : ¬ (candidate_cycles ≤ target_exec_cycles ∧ current_cycles ≤ target_exec_cycles ∧
      candidate.grid_shape.c < current.grid_shape.c) := by
    rintro ⟨a, b, c⟩
    rcases hcol with hcol | hcol
    · exact hcol ⟨a, b⟩
    · omega
  have h2 : ¬ (candidate_cycles ≤ target_exec_cycles ∧ current_cycles ≤ target_exec_cycles ∧
      candidate.grid_shape.c > current.grid_shape.c) := by
    rintro ⟨a, b, c⟩
    rcases hcol with hcol | hcol
    · exact hcol ⟨a, b⟩
    · omega
  rw [if_neg h1, if_neg h2]
  unfold compare_from_ukt
  simp only [huc, huu, Option.some_bind, hmb]
  cases ukt <;> cases mblock_size_ok current <;> simp

theorem fx_noc_bw : noc_bw fx_device = 16 := by
  simp only [noc_bw, fx_device]
  norm_num

theorem fx_plan_a_cost :
    plan_cost fx_compare_env fx_pair_graph fx_device fx_plan_a = some 63 := by
  simp only [plan_cost, get_limiter_cycles, fx_compare_env, Bool.false_eq_true, if_false]
  have h1 : fx_pair_graph.operand_data_edges fx_plan_a.buda_op_node = [] := rfl
  have h2 : fx_pair_graph.user_data_edges fx_plan_a.buda_op_node = [fx_edge_ab] := rfl
  have h3 : consumer_is_queue fx_pair_graph none fx_edge_ab = false := by decide
  have h4 : fx_plan_a.output_buffers[fx_edge_ab.producer_output_port_id]? = some fx_buffer :=
    rfl
  simp only [h1, h2, max_edge_cycles, Option.some_bind, write_edge_cycles, h3, h4,
    Bool.false_eq_true, if_false, static_cast_int, fx_noc_bw]
  simp only [fx_plan_a, fx_buffer, trunc]
  norm_num

/-- Claim C16. `prologue_ok` is true for a plan of a non-matmul op; for a sparse matmul with
exactly 3 parameter buffers it is the conjunction of the flags of the 1st and 3rd buffer, and
with another number of buffers it fails; for a dense (non-sparse) matmul with more than 1
parameter buffer it is the flag of the 2nd buffer, and with fewer than 2 buffers it fails. -/
theorem prologue_ok_characterisation (op_model : OpModel) :
    (op_model.buda_op_node.is_matmul = false → prologue_ok op_model = some true) ∧
    (op_model.buda_op_node.is_matmul = true →
      op_model.buda_op_node.is_sparse_matmul = true →
      (op_model.parameter_buffers.length = 3 →
        ∃ b0 b2, op_model.parameter_buffers[0]? = some b0 ∧
          op_model.parameter_buffers[2]? = some b2 ∧
          prologue_ok op_model = some (b0.to_bool && b2.to_bool)) ∧
      (op_model.parameter_buffers.length ≠ 3 → prologue_ok op_model = none)) ∧
    (op_model.buda_op_node.is_matmul = true →
      op_model.buda_op_node.is_sparse_matmul = false →
      op_model.buda_op_node.is_dense_matmul = true →
      (op_model.parameter_buffers.length > 1 →
        ∃ b1, op_model.parameter_buffers[1]? = some b1 ∧
          prologue_ok op_model = some b1.to_bool) ∧
      (op_model.parameter_buffers.length < 2 → prologue_ok op_model = none)) := by
  refine ⟨?_, ?_, ?_⟩
  · intro h
    simp [prologue_ok, h]
  · intro h1 h2
    constructor
    · intro h3
      have h0 : 0 < op_model.parameter_buffers.length := by omega
      have h2' : 2 < op_model.parameter_buffers.length := by omega
      refine ⟨op_model.parameter_buffers[0], op_model.parameter_buffers[2],
        List.getElem?_eq_getElem h0, List.getElem?_eq_getElem h2', ?_⟩
      simp [prologue_ok, h1, h2, h3, List.getElem?_eq_getElem h0, List.getElem?_eq_getElem h2']
    · intro h3
      simp [prologue_ok, h1, h2, h3]
  · intro h1 h2 h3
    constructor
    · intro h4
      refine ⟨op_model.parameter_buffers[1], List.getElem?_eq_getElem h4, ?_⟩
      simp [prologue_ok, h1, h2, h3, h4, List.getElem?_eq_getElem h4]
    · intro h4
      have h5 : ¬ op_model.parameter_buffers.length > 1 := by omega
      simp only [prologue_ok, h1, h2, h3, if_true, Bool.false_eq_true, if_false, h5]

/-- Claim C17, counterexample. A plan of the dense matmul `D` whose input buffer 0 has a micro
block 4 tiles high (`rt = 4`) and 1 tile wide (`ct = 1`): the height is at least 4, but
`ukt_ok` is false, because the code reads the width `ct`. -/
theorem ukt_ok_height_counterexample :
    (fx_dense_plan 1).buda_op_node.is_matmul_not_sparse = true ∧
    (∃ b, (fx_dense_plan 1).input_buffers[0]? = some b ∧ b.block_shape.ublock.rt ≥ 4) ∧
    ukt_ok (fx_dense_plan 1) = some false := by
  refine ⟨rfl, ⟨_, rfl, by decide⟩, by decide⟩

/-- Claim C17, amended. For a plan of a non-sparse matmul `ukt_ok` is true exactly when the
micro-block column-tile count `ct` of input buffer 0 is at least 4; for a sparse matmul it is
true exactly when the micro-block row-tile count `rt` of input buffer 1 is at least 4; for
every other op it is true. -/
theorem ukt_ok_characterisation (op_model : OpModel) :
    (op_model.buda_op_node.is_matmul_not_sparse = true →
      ∀ b, op_model.input_buffers[0]? = some b →
        ukt_ok op_model = some (decide (b.block_shape.ublock.ct ≥ 4))) ∧
    (op_model.buda_op_node.is_matmul_not_sparse = false →
      op_model.buda_op_node.is_sparse_matmul = true →
      ∀ b, op_model.input_buffers[1]? = some b →
        ukt_ok op_model = some (decide (b.block_shape.ublock.rt ≥ 4))) ∧
    (op_model.buda_op_node.is_matmul_not_sparse = false →
      op_model.buda_op_node.is_sparse_matmul = false → ukt_ok op_model = some true) := by
  refine ⟨?_, ?_, ?_⟩
  · intro h b hb
    simp [ukt_ok, h, hb]
  · intro h1 h2 b hb
    simp [ukt_ok, h1, h2, hb]
  · intro h1 h2
    simp [ukt_ok, h1, h2]

/-! ## Ribbon sizing on the end-to-end scenario -/

theorem fx_matmul_window (i : Nat) (hi : i < 3) :
    window_plans fx_matmul_graph (fx_solver fx_matmul_plans) ["m0", "m1", "m2"] i =
      fx_matmul_plans (["m0", "m1", "m2"].getD i "") := by
  interval_cases i <;> rfl

theorem fx_matmul_legal (env : RibbonEnv) (name : String) (row : Nat)
    (hmin : env.min_tile_height ≤ 2) (hmax : 2 ≤ env.max_tile_height)
    (hskip : env.skip_streaming = false) :
    legal_row env (fx_matmul_plans name) row ↔ (row = 1 ∨ row = 2 ∨ row = 4) := by
  have hp : ∀ r, prologue_ok (fx_matmul_plan name r) = some true := fun _ => rfl
  have hr : ∀ r, (fx_matmul_plan name r).grid_shape.r = r := fun _ => rfl
  have hb : ∀ r, (fx_matmul_plan name r).block_shape.rt = 2 := fun _ => rfl
  have hone : ∀ r, legal_row env [fx_matmul_plan name r] row ↔ r = row := by
    intro r
    rw [legal_row_singleton, hp, hr, hb]
    simp [hskip, hmin, hmax]
  unfold fx_matmul_plans
  rw [legal_row_cons, hone, legal_row_cons, hone, hone]
  constructor
  · rintro (h | h | h)
    · exact Or.inl h.symm
    · exact Or.inr (Or.inl h.symm)
    · exact Or.inr (Or.inr h.symm)
  · rintro (h | h | h)
    · exact Or.inl h.symm
    · exact Or.inr (Or.inl h.symm)
    · exact Or.inr (Or.inr h.symm)

/-- Claim C18, counterexample. Three dense matmuls, each legal exactly at the row counts 1, 2
and 4, on a device of 8 rows without cap: when minimizing, `pick_ribbon_size` returns 1. -/
theorem pick_ribbon_size_scenario_counterexample :
    (∀ i, i < 3 → ∀ row, legal_row (fx_ribbon_env false false)
      (window_plans fx_matmul_graph (fx_solver fx_matmul_plans) ["m0", "m1", "m2"] i) row ↔
        (row = 1 ∨ row = 2 ∨ row = 4)) ∧
    pick_ribbon_size (fx_ribbon_env false false) 0 3 fx_matmul_graph
      (fx_solver fx_matmul_plans) ["m0", "m1", "m2"] 8 = some 1 := by
  constructor
  · intro i hi row
    rw [fx_matmul_window i hi]
    exact fx_matmul_legal _ _ _ (by decide) (by decide) rfl
  · decide

/-- Claim C18, amended. For a window of three ops within the schedule (plans satisfying the
assertions of `prologue_ok`) whose legal row counts are each exactly 1, 2 and 4, with upper
bound `max_ribbon_size` at least 4 and other than `2^32 - 1`, `pick_ribbon_size` returns 1
when minimizing and 4 when maximizing. -/
theorem pick_ribbon_size_scenario (env : RibbonEnv) (start_index : Nat) (graph : Graph)
    (graph_solver : GraphSolver) (scheduled_ops : List String) (device_rows : Nat)
    (hok : window_ok start_index (start_index + 3) graph graph_solver scheduled_ops)
    (hbound : max_ribbon_size env device_rows ≠ 4294967295)
    (hN : 4 ≤ max_ribbon_size env device_rows)
    (hlegal : ∀ i, start_index ≤ i → i < start_index + 3 → ∀ row,
      legal_row env (window_plans graph graph_solver scheduled_ops i) row ↔
        (row = 1 ∨ row = 2 ∨ row = 4)) :
    pick_ribbon_size env start_index (start_index + 3) graph graph_solver scheduled_ops
      device_rows = some (if env.ribbon_maximize then 4 else 1) := by
  have hc : ∀ row, (row = 1 ∨ row = 2 ∨ row = 4) →
      common_row env start_index (start_index + 3) graph graph_solver scheduled_ops
        device_rows row := by
    intro row hrow
    refine ⟨by omega, by omega, fun i hs he => (hlegal i hs he row).2 hrow⟩
  obtain ⟨r, hr, hcr, hmin, hmax⟩ := pick_ribbon_size_of_common env start_index
    (start_index + 3) graph graph_solver scheduled_ops device_rows hok hbound 1
    (hc 1 (Or.inl rfl))
  have hr3 := (hlegal start_index (le_refl _) (by omega) r).1
    (hcr.2.2 start_index (le_refl _) (by omega))
  rw [hr]
  cases hmx : env.ribbon_maximize with
  | false =>
    have h1 := hmin hmx 1 (hc 1 (Or.inl rfl))
    have h2 := hcr.1
    simp only [Bool.false_eq_true, if_false, Option.some.injEq]
    omega
  | true =>
    have h1 := hmax hmx 4 (hc 4 (Or.inr (Or.inr rfl)))
    simp only [if_true, Option.some.injEq]
    omega

/-- Witness for C18 (amended): the three dense matmuls of the counterexample on a device of 8
rows, maximizing. -/
theorem pick_ribbon_size_scenario_witness :
    window_ok 0 (0 + 3) fx_matmul_graph (fx_solver fx_matmul_plans) ["m0", "m1", "m2"] ∧
    4 ≤ max_ribbon_size (fx_ribbon_env true false) 8 ∧
    (∀ i, 0 ≤ i → i < 0 + 3 → ∀ row, legal_row (fx_ribbon_env true false)
      (window_plans fx_matmul_graph (fx_solver fx_matmul_plans) ["m0", "m1", "m2"] i) row ↔
        (row = 1 ∨ row = 2 ∨ row = 4)) ∧
    pick_ribbon_size (fx_ribbon_env true false) 0 (0 + 3) fx_matmul_graph
      (fx_solver fx_matmul_plans) ["m0", "m1", "m2"] 8 = some 4 :=
  have hok : window_ok 0 (0 + 3) fx_matmul_graph (fx_solver fx_matmul_plans)
      ["m0", "m1", "m2"] :=
    ⟨by decide, fun i _ hi => by
      have hi3 : i < 3 := by omega
      interval_cases i <;> decide⟩
  have hN : 4 ≤ max_ribbon_size (fx_ribbon_env true false) 8 := by decide
  have hlegal : ∀ i, 0 ≤ i → i < 0 + 3 → ∀ row, legal_row (fx_ribbon_env true false)
      (window_plans fx_matmul_graph (fx_solver fx_matmul_plans) ["m0", "m1", "m2"] i) row ↔
        (row = 1 ∨ row = 2 ∨ row = 4) := by
    intro i _ hi row
    rw [fx_matmul_window i (by omega)]
    exact fx_matmul_legal _ _ _ (by decide) (by decide) rfl
  ⟨hok, hN, hlegal, pick_ribbon_size_scenario _ _ _ _ _ _ hok (by decide) hN hlegal⟩

/-! ## Next ribbon change -/

theorem qualifying_matmul_iff (node : Node) :
    qualifying_matmul node ↔
      ((node.node_type != NodeType.kBudaOp) = false ∧ is_matmul node = true) := by
  unfold qualifying_matmul is_matmul
  cases h1 : node.is_matmul_not_sparse <;>
    by_cases h2 : "reduce_r" ∈ node.tags <;>
    by_cases h3 : "reduce_c" ∈ node.tags <;>
    simp [h2, h3]

theorem ribbon_change_scan_no_change (graph : Graph) (scheduled_ops : List String)
    (common : Nat) (indices : List Nat) (d : Nat)
    (hlen : ∀ i ∈ indices, i < scheduled_ops.length)
    (hd : d ≠ 0 → d = common)
    (hall : ∀ i ∈ indices, ∀ name, scheduled_ops[i]? = some name →
      qualifying_matmul (graph.get_node_by_name name) →
      (graph.get_node_by_name name).shape_rt = common) :
    ∃ d', ribbon_change_scan graph scheduled_ops indices d =
        some (scheduled_ops.length, d') ∧
      ((∃ i ∈ indices, ∃ name, scheduled_ops[i]? = some name ∧
        qualifying_matmul (graph.get_node_by_name name)) → d' = common) ∧
      ((¬ ∃ i ∈ indices, ∃ name, scheduled_ops[i]? = some name ∧
        qualifying_matmul (graph.get_node_by_name name)) → d' = d) := by
  induction indices generalizing d with
  | nil => exact ⟨d, rfl, by simp, fun _ => rfl⟩
  | cons i rest ih =>
    have hi : i < scheduled_ops.length := hlen i (List.mem_cons_self _ _)
    have hname : scheduled_ops[i]? = some scheduled_ops[i] := List.getElem?_eq_getElem hi
    have hlen' : ∀ j ∈ rest, j < scheduled_ops.length :=
      fun j hj => hlen j (List.mem_cons_of_mem _ hj)
    have hall' : ∀ j ∈ rest, ∀ name, scheduled_ops[j]? = some name →
        qualifying_matmul (graph.get_node_by_name name) →
        (graph.get_node_by_name name).shape_rt = common :=
      fun j hj => hall j (List.mem_cons_of_mem _ hj)
    by_cases hq : qualifying_matmul (graph.get_node_by_name scheduled_ops[i])
    · have hrt := hall i (List.mem_cons_self _ _) _ hname hq
      have hex : ∃ j ∈ i :: rest, ∃ name, scheduled_ops[j]? = some name ∧
          qualifying_matmul (graph.get_node_by_name name) :=
        ⟨i, List.mem_cons_self _ _, _, hname, hq⟩
      obtain ⟨hq1, hq2⟩ := (qualifying_matmul_iff _).1 hq
      by_cases hd0 : d = 0
      · obtain ⟨d', hscan, h1, h2⟩ := ih common hlen' (fun _ => rfl) hall'
        refine ⟨d', ?_, fun _ => ?_, fun h => absurd hex h⟩
        · simp only [ribbon_change_scan, hname, Option.some_bind, hq1, hq2, hd0, hrt,
            Bool.false_eq_true, if_false, Bool.not_true, if_true]
          exact hscan
        · by_cases hr : ∃ j ∈ rest, ∃ name, scheduled_ops[j]? = some name ∧
              qualifying_matmul (graph.get_node_by_name name)
          · exact h1 hr
          · exact h2 hr
      · obtain ⟨d', hscan, h1, h2⟩ := ih d hlen' hd hall'
        refine ⟨d', ?_, fun _ => ?_, fun h => absurd hex h⟩
        · simp only [ribbon_change_scan, hname, Option.some_bind, hq1, hq2,
            Bool.false_eq_true, if_false, Bool.not_true]
          rw [if_neg hd0, if_pos (hrt.trans (hd hd0).symm)]
          exact hscan
        · by_cases hr : ∃ j ∈ rest, ∃ name, scheduled_ops[j]? = some name ∧
              qualifying_matmul (graph.get_node_by_name name)
          · exact h1 hr
          · rw [h2 hr]
            exact hd hd0
    · obtain ⟨d', hscan, h1, h2⟩ := ih d hlen' hd hall'
      have hstep : ribbon_change_scan graph scheduled_ops (i :: rest) d =
          ribbon_change_scan graph scheduled_ops rest d := by
        rw [qualifying_matmul_iff] at hq
        simp only [ribbon_change_scan, hname, Option.some_bind]
        by_cases hq1 : (graph.get_node_by_name scheduled_ops[i]).node_type != NodeType.kBudaOp
        · simp [hq1]
        · have hq1' : ((graph.get_node_by_name scheduled_ops[i]).node_type !=
              NodeType.kBudaOp) = false := by simpa using hq1
          have hq2 : is_matmul (graph.get_node_by_name scheduled_ops[i]) = false := by
            cases hm : is_matmul (graph.get_node_by_name scheduled_ops[i]) with
            | false => rfl
            | true => exact absurd ⟨hq1', hm⟩ hq
          simp [hq1', hq2]
      have hiff : (∃ j ∈ i :: rest, ∃ name, scheduled_ops[j]? = some name ∧
          qualifying_matmul (graph.get_node_by_name name)) ↔
          (∃ j ∈ rest, ∃ name, scheduled_ops[j]? = some name ∧
            qualifying_matmul (graph.get_node_by_name name)) := by
        constructor
        · rintro ⟨j, hj, name, hn, hqn⟩
          rcases List.mem_cons.1 hj with rfl | hj
          · rw [hname] at hn
            cases hn
            exact absurd hqn hq
          · exact ⟨j, hj, name, hn, hqn⟩
        · rintro ⟨j, hj, rest'⟩
          exact ⟨j, List.mem_cons_of_mem _ hj, rest'⟩
      exact ⟨d', hstep.trans hscan, fun h => h1 (hiff.1 h), fun h => h2 (fun h' => h (hiff.2 h'))⟩

/-- Claim C19. If every qualifying matmul scheduled at an index at or after `current_index`
has the row-tile count `common`, and the tracked value is 0 or `common`, then
`get_next_ribbon_change_op` returns the schedule length as index; the returned tracked value is
`common` when there is a qualifying matmul at or after `current_index`, and the given tracked
value (0, or `common` itself) when there is none. -/
theorem get_next_ribbon_change_op_no_change (graph : Graph) (current_index : Nat)
    (scheduled_ops : List String) (current_matmul_dim_r common : Nat)
    (hd : current_matmul_dim_r ≠ 0 → current_matmul_dim_r = common)
    (hall : ∀ i name, current_index ≤ i → scheduled_ops[i]? = some name →
      qualifying_matmul (graph.get_node_by_name name) →
      (graph.get_node_by_name name).shape_rt = common) :
    ∃ d', get_next_ribbon_change_op graph current_index scheduled_ops current_matmul_dim_r =
        some (scheduled_ops.length, d') ∧
      ((∃ i name, current_index ≤ i ∧ scheduled_ops[i]? = some name ∧
        qualifying_matmul (graph.get_node_by_name name)) → d' = common) ∧
      ((¬ ∃ i name, current_index ≤ i ∧ scheduled_ops[i]? = some name ∧
        qualifying_matmul (graph.get_node_by_name name)) → d' = current_matmul_dim_r) := by
  obtain ⟨d', hscan, h1, h2⟩ := ribbon_change_scan_no_change graph scheduled_ops common
    (List.range' current_index (scheduled_ops.length - current_index)) current_matmul_dim_r
    (fun i hi => ((mem_window_indices _ _ _).1 hi).2) hd
    (fun i hi name hn hq => hall i name ((mem_window_indices _ _ _).1 hi).1 hn hq)
  have hiff : (∃ i ∈ List.range' current_index (scheduled_ops.length - current_index),
      ∃ name, scheduled_ops[i]? = some name ∧
        qualifying_matmul (graph.get_node_by_name name)) ↔
      (∃ i name, current_index ≤ i ∧ scheduled_ops[i]? = some name ∧
        qualifying_matmul (graph.get_node_by_name name)) := by
    constructor
    · rintro ⟨i, hi, name, hn, hq⟩
      exact ⟨i, name, ((mem_window_indices _ _ _).1 hi).1, hn, hq⟩
    · rintro ⟨i, name, hi, hn, hq⟩
      have hlt : i < scheduled_ops.length := by
        by_contra hge
        rw [List.getElem?_eq_none (by omega)] at hn
        cases hn
      exact ⟨i, (mem_window_indices _ _ _).2 ⟨hi, hlt⟩, name, hn, hq⟩
  exact ⟨d', hscan, fun h => h1 (hiff.2 h), fun h => h2 (fun h' => h (hiff.1 h'))⟩

/-- Witness for C19: two dense matmuls of row-tile count 1, scanned from index 0 with tracked
value 0: the result is the schedule length 2 with tracked value 1. -/
theorem get_next_ribbon_change_op_no_change_witness :
    ((0 : Nat) ≠ 0 → (0 : Nat) = 1) ∧
    (∀ i name, 0 ≤ i → ["m0", "m1"][i]? = some name →
      qualifying_matmul (fx_matmul_graph.get_node_by_name name) →
      (fx_matmul_graph.get_node_by_name name).shape_rt = 1) ∧
    get_next_ribbon_change_op fx_matmul_graph 0 ["m0", "m1"] 0 = some (2, 1) := by
  have hd : (0 : Nat) ≠ 0 → (0 : Nat) = 1 := fun h => absurd rfl h
  have hall : ∀ i name, 0 ≤ i → ["m0", "m1"][i]? = some name →
      qualifying_matmul (fx_matmul_graph.get_node_by_name name) →
      (fx_matmul_graph.get_node_by_name name).shape_rt = 1 := fun _ _ _ _ _ => rfl
  obtain ⟨d', hs, h1, _⟩ :=
    get_next_ribbon_change_op_no_change fx_matmul_graph 0 ["m0", "m1"] 0 1 hd hall
  have hd' : d' = 1 := h1 ⟨0, "m0", le_refl 0, rfl, by
    refine ⟨rfl, rfl, ?_, ?_⟩ <;> decide⟩
  rw [hd'] at hs
  exact ⟨hd, hall, hs⟩

/-- Claim C20, evaluation at the failing input. Schedule `m0` scanned from index 0 with tracked
value 2: `m0` is a qualifying matmul of row-tile count 1, fed by input nodes only, so index 0
is the first differing matmul and no sparse matmul feeds it; yet the result is the schedule
length 1, as if no change had been found, because the only return for the matmul itself sits
inside the loop over the operands. -/
theorem get_next_ribbon_change_op_skips_input_fed_matmul :
    qualifying_matmul (fx_input_fed_graph.get_node_by_name "m0") ∧
    (fx_input_fed_graph.get_node_by_name "m0").shape_rt ≠ 2 ∧
    (∀ operand ∈ fx_input_fed_graph.data_operands (fx_input_fed_graph.get_node_by_name "m0"),
      operand.node_type = NodeType.kInput) ∧
    get_next_ribbon_change_op fx_input_fed_graph 0 ["m0"] 2 = some (1, 2) := by
  refine ⟨⟨rfl, rfl, by decide, by decide⟩, by decide, by decide, by decide⟩

/-! ## Transitivity of the comparator -/

theorem FloatVal.gt_trans (a b c : FloatVal) (h1 : a.gt b = true) (h2 : b.gt c = true) :
    a.gt c = true := by
  cases a <;> cases b <;> cases c <;> simp_all [FloatVal.gt]
  exact lt_trans h2 h1

theorem final_tie_break_trans (v : Int) (x y z : OpModel) (cx cy cz t : Int) (arch : String)
    (h1 : final_tie_break v x y cx cy t arch = true)
    (h2 : final_tie_break v y z cy cz t arch = true) :
    final_tie_break v x z cx cz t arch = true := by
  unfold final_tie_break at h1 h2 ⊢
  by_cases hv2 : v = 2
  · simp only [hv2, if_true] at h1 h2 ⊢
    cases hcx : close_to_target_exec_cycles (x.get_execution_cycles arch : Nat) cx t <;>
    cases hcy : close_to_target_exec_cycles (y.get_execution_cycles arch : Nat) cy t <;>
    cases hcz : close_to_target_exec_cycles (z.get_execution_cycles arch : Nat) cz t <;>
    simp only [hcx, hcy, hcz, Bool.false_eq_true, if_false, if_true] at h1 h2 ⊢ <;>
    (try split_ifs at h1 h2 ⊢) <;>
    first
    | rfl
    | omega
    | exact FloatVal.gt_trans _ _ _ h2 h1
  · by_cases hv1 : v = 1
    · subst hv1
      simp only [show ¬ ((1 : Int) = 2) by decide, if_false, if_true] at h1 h2 ⊢
      cases hcx : close_to_target (to_uint32 cx) (to_uint32 t) <;>
      cases hcy : close_to_target (to_uint32 cy) (to_uint32 t) <;>
      cases hcz : close_to_target (to_uint32 cz) (to_uint32 t) <;>
      simp_all <;> omega
    · simp [hv2, hv1] at h1

theorem compare_from_ukt_trans (env : CompareEnv) (x y z : OpModel) (cx cy cz t : Int)
    (arch : String) (h1 : compare_from_ukt env x y cx cy t arch = some true)
    (h2 : compare_from_ukt env y z cy cz t arch = some true) :
    compare_from_ukt env x z cx cz t arch = some true := by
  unfold compare_from_ukt at h1 h2 ⊢
  cases hx : ukt_ok x with
  | none => cases hy : ukt_ok y <;> simp [hx, hy] at h1
  | some ux =>
    cases hy : ukt_ok y with
    | none => simp [hy] at h1
    | some uy =>
      cases hz : ukt_ok z with
      | none => simp [hz] at h2
      | some uz =>
        simp only [hx, hy, hz, Option.some_bind] at h1 h2 ⊢
        cases ux <;> cases uy <;> cases uz <;> simp at h1 h2 ⊢ <;>
        cases hmx : mblock_size_ok x <;> cases hmy : mblock_size_ok y <;>
        cases hmz : mblock_size_ok z <;> simp [hmx, hmy, hmz] at h1 h2 ⊢ <;>
        exact final_tie_break_trans _ _ _ _ _ _ _ _ _ h1 h2

theorem compare_from_prologue_trans (env : CompareEnv) (x y z : OpModel) (graph : Graph)
    (t : Int) (dc : DeviceConfig)
    (hbudget : ∀ cx cy cz, plan_cost env graph dc x = some cx →
      plan_cost env graph dc y = some cy → plan_cost env graph dc z = some cz →
      ((cx ≤ t ∧ cy ≤ t ∧ cz ≤ t) ∨ (t < cx ∧ t < cy) ∨ (t < cx ∧ t < cz) ∨
        (t < cy ∧ t < cz)))
    (h1 : compare_from_prologue env x y graph t dc = some true)
    (h2 : compare_from_prologue env y z graph t dc = some true) :
    compare_from_prologue env x z graph t dc = some true := by
  unfold plan_cost at hbudget
  unfold compare_from_prologue at h1 h2 ⊢
  cases hx : prologue_ok x with
  | none => cases hy : prologue_ok y <;> simp [hx, hy] at h1
  | some px =>
    cases hy : prologue_ok y with
    | none => simp [hy] at h1
    | some py =>
      cases hz : prologue_ok z with
      | none => simp [hz] at h2
      | some pz =>
        simp only [hx, hy, hz, Option.some_bind] at h1 h2 ⊢
        cases px <;> cases py <;> cases pz <;> simp at h1 h2 ⊢ <;>
        (cases hcx : get_limiter_cycles env.legacy_cycles_calc x graph dc
            env.dram_access_core_count none with
         | none => simp [hcx] at h1
         | some cx =>
           cases hcy : get_limiter_cycles env.legacy_cycles_calc y graph dc
              env.dram_access_core_count none with
           | none => simp [hcx, hcy] at h1
           | some cy =>
             cases hcz : get_limiter_cycles env.legacy_cycles_calc z graph dc
                env.dram_access_core_count none with
             | none => simp [hcy, hcz] at h2
             | some cz =>
               have hb := hbudget cx cy cz hcx hcy hcz
               simp only [hcx, hcy, hcz, Option.some_bind] at h1 h2 ⊢
               split_ifs at h1 h2 ⊢ <;> first
                 | rfl
                 | omega
                 | exact compare_from_ukt_trans _ _ _ _ _ _ _ _ _ h1 h2
                 | (simp at h1; done)
                 | simp at h2)

theorem same_node_of_better (env : CompareEnv) (current candidate : OpModel) (graph : Graph)
    (ribbon_size target_exec_cycles : Int) (device_config : DeviceConfig)
    (h : is_candidate_better_than_current env current candidate graph ribbon_size
      target_exec_cycles device_config = some true) :
    current.buda_op_node = candidate.buda_op_node := by
  by_contra hne
  simp [is_candidate_better_than_current, hne] at h

/-- Claim C11, counterexample. Budget 100, three plans of one op on 2 rows: `a` with 3 columns
and 90 cycles, `b` with 1 column and 150 cycles, `c` with 2 columns, 50 cycles and a macro
block failing the size check. Then `a` is better than `b` (close to target), `b` is better
than `c` (block size check; the column rule is off because `b` exceeds the budget), but `a` is
not better than `c`: both are within the budget and `c` has fewer columns. -/
theorem is_candidate_better_not_transitive :
    is_candidate_better_than_current fx_compare_env (fx_plan "a" 2 1 1 150)
      (fx_plan "a" 2 3 1 90) fx_graph 2 100 fx_device = some true ∧
    is_candidate_better_than_current fx_compare_env fx_small_block_plan
      (fx_plan "a" 2 1 1 150) fx_graph 2 100 fx_device = some true ∧
    is_candidate_better_than_current fx_compare_env fx_small_block_plan
      (fx_plan "a" 2 3 1 90) fx_graph 2 100 fx_device = some false := by
  have hsmall : plan_cost fx_compare_env fx_graph fx_device fx_small_block_plan = some 50 := by
    simp [plan_cost, get_limiter_cycles, fx_compare_env, fx_graph, fx_small_block_plan,
      fx_plan, max_edge_cycles]
  refine ⟨?_, ?_, ?_⟩
  · have htie : earlier_rules_tie fx_compare_env (fx_plan "a" 2 1 1 150)
        (fx_plan "a" 2 3 1 90) fx_graph 100 fx_device 150 90 :=
      ⟨rfl, rfl, ⟨true, rfl, rfl⟩, fx_plan_cost _ _ _ _ _, fx_plan_cost _ _ _ _ _,
        Or.inl (by decide), ⟨true, rfl, rfl⟩, rfl⟩
    rw [is_candidate_better_of_ties _ _ _ _ 2 _ _ _ _ htie]
    simp [final_tie_break, fx_compare_env, close_to_target_exec_cycles, above_80_percent,
      fx_plan]
  · rw [is_candidate_better_rows_equal fx_compare_env fx_small_block_plan
        (fx_plan "a" 2 1 1 150) fx_graph 2 100 fx_device rfl rfl,
      compare_from_prologue_of_ready fx_compare_env fx_small_block_plan
        (fx_plan "a" 2 1 1 150) fx_graph 100 fx_device true 50 150 rfl rfl hsmall
        (fx_plan_cost _ _ _ _ _)]
    decide
  · rw [is_candidate_better_rows_equal fx_compare_env fx_small_block_plan
        (fx_plan "a" 2 3 1 90) fx_graph 2 100 fx_device rfl rfl,
      compare_from_prologue_of_ready fx_compare_env fx_small_block_plan
        (fx_plan "a" 2 3 1 90) fx_graph 100 fx_device true 50 90 rfl rfl hsmall
        (fx_plan_cost _ _ _ _ _)]
    decide

/-- Claim C11, amended. The comparator is transitive on three plans whose costs are all within
the budget, or of which at least two exceed the budget: if `a` is better than `b` and `b` is
better than `c`, then `a` is better than `c`, for every ribbon size, budget, device
configuration and comparator version. -/
theorem is_candidate_better_trans (env : CompareEnv) (a b c : OpModel) (graph : Graph)
    (ribbon_size target_exec_cycles : Int) (device_config : DeviceConfig)
    (hbudget :
      (cost_within env graph device_config target_exec_cycles a ∧
        cost_within env graph device_config target_exec_cycles b ∧
        cost_within env graph device_config target_exec_cycles c) ∨
      (cost_exceeds env graph device_config target_exec_cycles a ∧
        cost_exceeds env graph device_config target_exec_cycles b) ∨
      (cost_exceeds env graph device_config target_exec_cycles a ∧
        cost_exceeds env graph device_config target_exec_cycles c) ∨
      (cost_exceeds env graph device_config target_exec_cycles b ∧
        cost_exceeds env graph device_config target_exec_cycles c))
    (hab : is_candidate_better_than_current env b a graph ribbon_size target_exec_cycles
      device_config = some true)
    (hbc : is_candidate_better_than_current env c b graph ribbon_size target_exec_cycles
      device_config = some true) :
    is_candidate_better_than_current env c a graph ribbon_size target_exec_cycles
      device_config = some true := by
  have hnab := same_node_of_better _ _ _ _ _ _ _ hab
  have hnbc := same_node_of_better _ _ _ _ _ _ _ hbc
  have hnac : c.buda_op_node = a.buda_op_node := hnbc.trans hnab
  by_cases hrab : a.grid_shape.r = b.grid_shape.r
  · by_cases hrbc : b.grid_shape.r = c.grid_shape.r
    · rw [is_candidate_better_rows_equal _ _ _ _ _ _ _ hnab hrab] at hab
      rw [is_candidate_better_rows_equal _ _ _ _ _ _ _ hnbc hrbc] at hbc
      rw [is_candidate_better_rows_equal _ _ _ _ _ _ _ hnac (hrab.trans hrbc)]
      refine compare_from_prologue_trans env c b a graph target_exec_cycles device_config
        ?_ hbc hab
      intro cx cy cz hx hy hz
      rcases hbudget with ⟨ha, hb, hc⟩ | ⟨ha, hb⟩ | ⟨ha, hc⟩ | ⟨hb, hc⟩
      · exact Or.inl ⟨hc cx hx, hb cy hy, ha cz hz⟩
      · exact Or.inr (Or.inr (Or.inr ⟨hb cy hy, ha cz hz⟩))
      · exact Or.inr (Or.inr (Or.inl ⟨hc cx hx, ha cz hz⟩))
      · exact Or.inr (Or.inl ⟨hc cx hx, hb cy hy⟩)
    · rw [is_candidate_better_rows_differ _ _ _ _ _ _ _ hnbc hrbc] at hbc
      rw [is_candidate_better_rows_differ _ _ _ _ _ _ _ hnac (by rw [hrab]; exact hrbc)]
      rw [hrab]
      exact hbc
  · rw [is_candidate_better_rows_differ _ _ _ _ _ _ _ hnab hrab] at hab
    by_cases hrbc : b.grid_shape.r = c.grid_shape.r
    · rw [is_candidate_better_rows_differ _ _ _ _ _ _ _ hnac (by rw [← hrbc]; exact hrab)]
      rw [← hrbc]
      exact hab
    · rw [is_candidate_better_rows_differ _ _ _ _ _ _ _ hnbc hrbc] at hbc
      simp only [Option.some.injEq, decide_eq_true_eq, row_better] at hab hbc
      have hrac : a.grid_shape.r ≠ c.grid_shape.r := by omega
      rw [is_candidate_better_rows_differ _ _ _ _ _ _ _ hnac hrac]
      simp only [Option.some.injEq, decide_eq_true_eq, row_better]
      omega

/-- Witness for C11 (amended): budget 100, three plans within the budget with 90, 60 and 30
cycles; the first is close to target, and of the other two the one with more columns loses. -/
theorem is_candidate_better_trans_witness :
    cost_within fx_compare_env fx_graph fx_device 100 (fx_plan "a" 2 3 1 90) ∧
    cost_within fx_compare_env fx_graph fx_device 100 (fx_plan "a" 2 3 1 60) ∧
    cost_within fx_compare_env fx_graph fx_device 100 (fx_plan "a" 2 4 1 30) ∧
    is_candidate_better_than_current fx_compare_env (fx_plan "a" 2 3 1 60)
      (fx_plan "a" 2 3 1 90) fx_graph 2 100 fx_device = some true ∧
    is_candidate_better_than_current fx_compare_env (fx_plan "a" 2 4 1 30)
      (fx_plan "a" 2 3 1 60) fx_graph 2 100 fx_device = some true ∧
    is_candidate_better_than_current fx_compare_env (fx_plan "a" 2 4 1 30)
      (fx_plan "a" 2 3 1 90) fx_graph 2 100 fx_device = some true := by
  have hw : ∀ c cycles, cycles ≤ 100 →
      cost_within fx_compare_env fx_graph fx_device 100 (fx_plan "a" 2 c 1 cycles) := by
    intro c cycles hle k hk
    rw [fx_plan_cost] at hk
    cases hk
    exact_mod_cast hle
  have hab : is_candidate_better_than_current fx_compare_env (fx_plan "a" 2 3 1 60)
      (fx_plan "a" 2 3 1 90) fx_graph 2 100 fx_device = some true := by
    have htie : earlier_rules_tie fx_compare_env (fx_plan "a" 2 3 1 60)
        (fx_plan "a" 2 3 1 90) fx_graph 100 fx_device 60 90 :=
      ⟨rfl, rfl, ⟨true, rfl, rfl⟩, fx_plan_cost _ _ _ _ _, fx_plan_cost _ _ _ _ _,
        Or.inr rfl, ⟨true, rfl, rfl⟩, rfl⟩
    rw [is_candidate_better_of_ties _ _ _ _ 2 _ _ _ _ htie]
    simp [final_tie_break, fx_compare_env, close_to_target_exec_cycles, above_80_percent,
      fx_plan]
  have hbc : is_candidate_better_than_current fx_compare_env (fx_plan "a" 2 4 1 30)
      (fx_plan "a" 2 3 1 60) fx_graph 2 100 fx_device = some true := by
    rw [is_candidate_better_rows_equal fx_compare_env (fx_plan "a" 2 4 1 30)
        (fx_plan "a" 2 3 1 60) fx_graph 2 100 fx_device rfl rfl,
      compare_from_prologue_of_ready fx_compare_env (fx_plan "a" 2 4 1 30)
        (fx_plan "a" 2 3 1 60) fx_graph 100 fx_device true 30 60 rfl rfl
        (fx_plan_cost _ _ _ _ _) (fx_plan_cost _ _ _ _ _)]
    decide
  exact ⟨hw 3 90 (by decide), hw 3 60 (by decide), hw 4 30 (by decide), hab, hbc,
    is_candidate_better_trans fx_compare_env _ _ _ fx_graph 2 100 fx_device
      (Or.inl ⟨hw 3 90 (by decide), hw 3 60 (by decide), hw 4 30 (by decide)⟩) hab hbc⟩

/-! ## Break lists and scheduling -/

theorem delete_op_names_iff (graph : Graph) (processed_nodes : List Node)
    (op_names : List String) :
    delete_op_names graph processed_nodes op_names = true ↔
      ∃ n ∈ op_names, graph.get_node_by_name n ∈ processed_nodes := by
  induction op_names with
  | nil => simp [delete_op_names]
  | cons n rest ih =>
    unfold delete_op_names
    by_cases h : graph.get_node_by_name n ∈ processed_nodes
    · simp [contains_iff_mem, h]
    · simp [contains_iff_mem, h, ih]

theorem remove_processed_groups_eq_filter (graph : Graph) (processed_nodes : List Node)
    (breaks : List (List String)) :
    remove_processed_groups graph processed_nodes breaks =
      breaks.filter fun group =>
        decide (∀ n ∈ group, graph.get_node_by_name n ∉ processed_nodes) := by
  induction breaks with
  | nil => rfl
  | cons group rest ih =>
    unfold remove_processed_groups
    by_cases h : delete_op_names graph processed_nodes group = true
    · have h2 : ¬ ∀ n ∈ group, graph.get_node_by_name n ∉ processed_nodes := by
        rw [delete_op_names_iff] at h
        obtain ⟨n, hn, hp⟩ := h
        exact fun hall => hall n hn hp
      rw [if_pos h, ih, List.filter_cons_of_neg (by simpa using h2)]
    · have h2 : ∀ n ∈ group, graph.get_node_by_name n ∉ processed_nodes := by
        intro n hn hp
        exact h ((delete_op_names_iff graph processed_nodes group).2 ⟨n, hn, hp⟩)
      rw [if_neg h, ih, List.filter_cons_of_pos (by simpa using h2)]

/-- Claim C21. After `epoch_or_chip_break_remove_processed_nodes` the break list holds exactly the
groups none of whose op names resolves to a processed node, in their original order and
unmodified (the list filtered by that condition), so a group with a processed node is removed
entirely; with an empty processed set the list is unchanged. -/
theorem epoch_or_chip_break_remove_processed_nodes_spec (graph : Graph)
    (breaks : List (List String)) (processed_nodes : List Node) :
    epoch_or_chip_break_remove_processed_nodes graph breaks processed_nodes =
      (breaks.filter fun group =>
        decide (∀ n ∈ group, graph.get_node_by_name n ∉ processed_nodes)) ∧
    epoch_or_chip_break_remove_processed_nodes graph breaks [] = breaks := by
  constructor
  · unfold epoch_or_chip_break_remove_processed_nodes
    cases processed_nodes with
    | nil => simp
    | cons p ps =>
      rw [if_neg (by simp)]
      exact remove_processed_groups_eq_filter graph (p :: ps) breaks
  · simp [epoch_or_chip_break_remove_processed_nodes]

/-- Claim C22, counterexample. With an empty processed-node set and the processed schedule `a`
(sizes 0 and 1), `policy_run_scheduler` returns a schedule and has invoked the scheduler. -/
theorem policy_run_scheduler_empty_set_counterexample :
    (policy_run_scheduler fx_scheduler_api fx_graph fx_balancer_config [] ["a"] [] []).result =
      some (["A", "B"], [], []) ∧
    (policy_run_scheduler fx_scheduler_api fx_graph fx_balancer_config [] ["a"] [] []
      ).scheduler_calls.length = 1 := by
  constructor <;> rfl

/-- Claim C22, amended. `policy_run_scheduler` fails fatally exactly when the processed-node set is
non-empty and its size differs from the length of the processed schedule; it then has not
invoked the scheduler, and otherwise it has invoked it once. With an empty processed-node set
it invokes the scheduler with the scheduler configuration of the balancer configuration,
whatever the processed schedule. -/
theorem policy_run_scheduler_fatal_iff (api : SchedulerApi) (graph : Graph)
    (config : BalancerConfig) (processed_nodes : List Node) (processed_schedule : List String)
    (epoch_breaks chip_breaks : List (List String)) :
    ((policy_run_scheduler api graph config processed_nodes processed_schedule epoch_breaks
        chip_breaks).result = none ↔
      processed_nodes ≠ [] ∧ processed_nodes.length ≠ processed_schedule.length) ∧
    ((policy_run_scheduler api graph config processed_nodes processed_schedule epoch_breaks
        chip_breaks).result = none →
      (policy_run_scheduler api graph config processed_nodes processed_schedule epoch_breaks
        chip_breaks).scheduler_calls = []) ∧
    ((policy_run_scheduler api graph config processed_nodes processed_schedule epoch_breaks
        chip_breaks).result ≠ none →
      (policy_run_scheduler api graph config processed_nodes processed_schedule epoch_breaks
        chip_breaks).scheduler_calls.length = 1) ∧
    (policy_run_scheduler api graph config [] processed_schedule epoch_breaks
      chip_breaks).scheduler_calls = [config.scheduler_config] := by
  rw [← and_assoc, ← and_assoc]
  refine ⟨?_, by simp [policy_run_scheduler]⟩
  rw [and_assoc]
  unfold policy_run_scheduler
  by_cases h : processed_nodes.length > 0 ∧ processed_nodes.length ≠ processed_schedule.length
  · have hne : processed_nodes ≠ [] := by
      intro h0
      rw [h0] at h
      simp at h
    rw [if_pos h]
    simp [hne, h.2]
  · rw [if_neg h]
    refine ⟨⟨fun hc => by simp at hc, fun hc => ?_⟩, fun hc => by simp at hc, fun _ => rfl⟩
    exact absurd ⟨List.length_pos.2 hc.1, hc.2⟩ h

/-! ## Buffering -/

theorem collect_instructions_other (graph : Graph) (inst : List InsertionInstruction)
    (h : InsertionInstruction.other ∈ inst) (buffer_info : List BufferInfo)
    (edges_to_cut : List Edge) :
    collect_instructions graph inst buffer_info edges_to_cut = none := by
  induction inst generalizing buffer_info edges_to_cut with
  | nil => simp at h
  | cons instruction rest ih =>
    cases instruction with
    | other => simp [collect_instructions]
    | nop src dest nop_count hoist_tms =>
      have hrest : InsertionInstruction.other ∈ rest := by simpa using h
      simp only [collect_instructions]
      exact ih hrest _ _
    | queue dest input_id =>
      have hrest : InsertionInstruction.other ∈ rest := by simpa using h
      cases input_id with
      | none => simp [collect_instructions]
      | some id =>
        simp only [collect_instructions]
        split
        · cases hx : ((graph.operand_data_edges (graph.get_node_by_name dest)).filter
              fun edge => edge.consumer_input_port_id == id)[0]? with
          | none => rfl
          | some edge => exact ih hrest _ _
        · rfl

/-- Claim C23. If the instruction map given to `buffer_graph` holds an instruction that is neither a
NOP instruction nor a queue instruction, at any position, `buffer_graph` fails fatally and
the graph solver is as before the call: no buffer call and no cut call has been made. -/
theorem buffer_graph_unexpected_instruction (graph : Graph)
    (inst : List InsertionInstruction) (graph_solver : GraphSolver)
    (h : InsertionInstruction.other ∈ inst) :
    buffer_graph graph inst graph_solver = (graph_solver, none) := by
  unfold buffer_graph
  rw [collect_instructions_other graph inst h]

/-- Witness for C23: an unexpected instruction between a NOP instruction and a queue
instruction. -/
theorem buffer_graph_unexpected_instruction_witness :
    InsertionInstruction.other ∈
      [InsertionInstruction.nop "A" "B" 1 false, InsertionInstruction.other,
        InsertionInstruction.queue "B" (some 0)] ∧
    buffer_graph fx_edges_graph
      [InsertionInstruction.nop "A" "B" 1 false, InsertionInstruction.other,
        InsertionInstruction.queue "B" (some 0)] (fx_solver fx_full_plans) =
      (fx_solver fx_full_plans, none) :=
  ⟨by simp, buffer_graph_unexpected_instruction _ _ _ (by simp)⟩

theorem singleton_of_length_one (l : List Edge) (edge : Edge) (hlen : l.length = 1)
    (h0 : l[0]? = some edge) : l = [edge] := by
  match l, hlen, h0 with
  | [e], _, h0 =>
    simp at h0
    rw [h0]

theorem collect_instructions_some (graph : Graph) (inst : List InsertionInstruction)
    (buffer_info : List BufferInfo) (edges_to_cut : List Edge)
    (result : List BufferInfo × List Edge)
    (h : collect_instructions graph inst buffer_info edges_to_cut = some result) :
    result = (buffer_info ++ nop_requests graph inst, edges_to_cut ++ queue_edges graph inst) := by
  induction inst generalizing buffer_info edges_to_cut with
  | nil =>
    simp only [collect_instructions, Option.some.injEq] at h
    simp [nop_requests, queue_edges, ← h]
  | cons instruction rest ih =>
    cases instruction with
    | other => simp [collect_instructions] at h
    | nop src dest nop_count hoist_tms =>
      simp only [collect_instructions] at h
      rw [ih _ _ h]
      simp [nop_requests, queue_edges]
    | queue dest input_id =>
      cases input_id with
      | none => simp [collect_instructions] at h
      | some id =>
        simp only [collect_instructions] at h
        split at h
        · rename_i hlen
          cases hx : ((graph.operand_data_edges (graph.get_node_by_name dest)).filter
              fun edge => edge.consumer_input_port_id == id)[0]? with
          | none => rw [hx] at h; simp at h
          | some edge =>
            rw [hx] at h
            have hfilter := singleton_of_length_one _ edge hlen hx
            rw [ih _ _ h]
            simp [nop_requests, queue_edges, hfilter]
        · simp at h

theorem collect_instructions_of_ok (graph : Graph) (inst : List InsertionInstruction)
    (hok : ∀ instruction ∈ inst, instruction_ok graph instruction)
    (buffer_info : List BufferInfo) (edges_to_cut : List Edge) :
    collect_instructions graph inst buffer_info edges_to_cut =
      some (buffer_info ++ nop_requests graph inst, edges_to_cut ++ queue_edges graph inst) := by
  cases hc : collect_instructions graph inst buffer_info edges_to_cut with
  | some result => rw [collect_instructions_some graph inst _ _ result hc]
  | none =>
    exfalso
    induction inst generalizing buffer_info edges_to_cut with
    | nil => simp [collect_instructions] at hc
    | cons instruction rest ih =>
      have hrest : ∀ instruction ∈ rest, instruction_ok graph instruction :=
        fun x hx => hok x (List.mem_cons_of_mem _ hx)
      have hhead := hok instruction (List.mem_cons_self _ _)
      cases instruction with
      | other => exact hhead
      | nop src dest nop_count hoist_tms =>
        simp only [collect_instructions] at hc
        exact ih hrest _ _ hc
      | queue dest input_id =>
        cases input_id with
        | none => exact hhead
        | some id =>
          have hlen : ((graph.operand_data_edges (graph.get_node_by_name dest)).filter
              fun edge => edge.consumer_input_port_id == id).length = 1 := hhead
          simp only [collect_instructions, if_pos hlen] at hc
          cases hx : ((graph.operand_data_edges (graph.get_node_by_name dest)).filter
              fun edge => edge.consumer_input_port_id == id)[0]? with
          | none =>
            rw [List.getElem?_eq_none_iff] at hx
            omega
          | some edge =>
            rw [hx] at hc
            exact ih hrest _ _ hc

theorem buffer_graph_of_collected (graph : Graph) (inst : List InsertionInstruction)
    (graph_solver : GraphSolver)
    (hc : collect_instructions graph inst [] [] =
      some (nop_requests graph inst, queue_edges graph inst)) :
    (nop_requests graph inst = [] →
      buffer_graph graph inst graph_solver =
        (if (queue_edges graph inst).length > 0 then
          graph_solver.cut (queue_edges graph inst) false else graph_solver, some false)) ∧
    (nop_requests graph inst ≠ [] →
      graph_solver.buffer_result_size (nop_requests graph inst) > 0 →
      buffer_graph graph inst graph_solver =
        (if (queue_edges graph inst).length > 0 then
          (graph_solver.buffer (nop_requests graph inst)).cut (queue_edges graph inst) false
          else graph_solver.buffer (nop_requests graph inst), some true)) ∧
    (nop_requests graph inst ≠ [] →
      ¬ graph_solver.buffer_result_size (nop_requests graph inst) > 0 →
      buffer_graph graph inst graph_solver =
        (graph_solver.buffer (nop_requests graph inst), none)) := by
  unfold buffer_graph
  rw [hc]
  refine ⟨fun h => ?_, fun h hsize => ?_, fun h hsize => ?_⟩
  · simp only [h, List.length_nil, gt_iff_lt, lt_self_iff_false, if_false]
    split <;> rfl
  · have hpos : (nop_requests graph inst).length > 0 := List.length_pos.2 h
    simp only [if_pos hpos, if_pos hsize]
    split <;> rfl
  · have hpos : (nop_requests graph inst).length > 0 := List.length_pos.2 h
    simp only [if_pos hpos, if_neg hsize]

theorem nop_requests_of_queues (graph : Graph) (inst : List InsertionInstruction)
    (h : ∀ instruction ∈ inst, queue_instruction_ok graph instruction) :
    nop_requests graph inst = [] := by
  induction inst with
  | nil => rfl
  | cons instruction rest ih =>
    have hhead := h instruction (List.mem_cons_self _ _)
    have hrest := ih fun x hx => h x (List.mem_cons_of_mem _ hx)
    unfold nop_requests at hrest ⊢
    cases instruction with
    | other => exact absurd hhead (by simp [queue_instruction_ok])
    | nop src dest nop_count hoist_tms => exact absurd hhead (by simp [queue_instruction_ok])
    | queue dest input_id => simpa using hrest

theorem instruction_ok_of_queue (graph : Graph) (instruction : InsertionInstruction)
    (h : queue_instruction_ok graph instruction) : instruction_ok graph instruction := by
  cases instruction with
  | other => exact absurd h (by simp [queue_instruction_ok])
  | nop src dest nop_count hoist_tms => exact absurd h (by simp [queue_instruction_ok])
  | queue dest input_id => exact h

/-- Claim C28. When `buffer_graph` returns, it returns true if and only if the NOP instructions gave
rise to at least one buffering request (a NOP instruction matched a data edge), and then the
whole batch was applied in one buffer call, while no buffer call was made when it returns
false. It does return, with that value, when every instruction is a NOP instruction or a
well-formed queue instruction and a non-empty batch buffers something. For an empty map it
returns false and leaves the solver as it was; for a map of well-formed queue instructions
only it returns false, makes no buffer call and has the operand edges cut. -/
theorem buffer_graph_returns_true_iff (graph : Graph) (inst : List InsertionInstruction)
    (graph_solver : GraphSolver) :
    (∀ solver flag, buffer_graph graph inst graph_solver = (solver, some flag) →
      (flag = true ↔ nop_requests graph inst ≠ []) ∧
      solver.buffer_calls = graph_solver.buffer_calls ++
        (if flag then [nop_requests graph inst] else [])) ∧
    ((∀ instruction ∈ inst, instruction_ok graph instruction) →
      (nop_requests graph inst ≠ [] →
        graph_solver.buffer_result_size (nop_requests graph inst) > 0) →
      ∃ solver, buffer_graph graph inst graph_solver =
        (solver, some (decide (nop_requests graph inst ≠ [])))) ∧
    buffer_graph graph [] graph_solver = (graph_solver, some false) ∧
    ((∀ instruction ∈ inst, queue_instruction_ok graph instruction) →
      ∃ solver, buffer_graph graph inst graph_solver = (solver, some false) ∧
        solver.buffer_calls = graph_solver.buffer_calls ∧
        solver.cut_edges = graph_solver.cut_edges ++ queue_edges graph inst) := by
  refine ⟨fun solver flag h => ?_, fun hok hsize => ?_, rfl, fun hq => ?_⟩
  · cases hc : collect_instructions graph inst [] [] with
    | none =>
      unfold buffer_graph at h
      rw [hc] at h
      simp at h
    | some result =>
      have hres := collect_instructions_some graph inst [] [] result hc
      simp only [List.nil_append] at hres
      rw [hres] at hc
      obtain ⟨h1, h2, h3⟩ := buffer_graph_of_collected graph inst graph_solver hc
      by_cases hn : nop_requests graph inst = []
      · rw [h1 hn] at h
        simp only [Prod.mk.injEq, Option.some.injEq] at h
        obtain ⟨hs, hf⟩ := h
        subst hf
        subst hs
        refine ⟨by simp [hn], ?_⟩
        split <;> simp [GraphSolver.cut]
      · by_cases hsize : graph_solver.buffer_result_size (nop_requests graph inst) > 0
        · rw [h2 hn hsize] at h
          simp only [Prod.mk.injEq, Option.some.injEq] at h
          obtain ⟨hs, hf⟩ := h
          subst hf
          subst hs
          refine ⟨by simp [hn], ?_⟩
          split <;> simp [GraphSolver.cut, GraphSolver.buffer]
        · rw [h3 hn hsize] at h
          simp at h
  · have hc := collect_instructions_of_ok graph inst hok [] []
    simp only [List.nil_append] at hc
    obtain ⟨h1, h2, _⟩ := buffer_graph_of_collected graph inst graph_solver hc
    by_cases hn : nop_requests graph inst = []
    · rw [h1 hn]
      exact ⟨_, congrArg (Prod.mk _) (by simp [hn])⟩
    · rw [h2 hn (hsize hn)]
      exact ⟨_, congrArg (Prod.mk _) (by simp [hn])⟩
  · have hc := collect_instructions_of_ok graph inst
      (fun x hx => instruction_ok_of_queue graph x (hq x hx)) [] []
    simp only [List.nil_append] at hc
    obtain ⟨h1, _, _⟩ := buffer_graph_of_collected graph inst graph_solver hc
    have hn := nop_requests_of_queues graph inst hq
    refine ⟨_, h1 hn, ?_, ?_⟩
    · split <;> simp [GraphSolver.cut]
    · split
      · simp [GraphSolver.cut]
      · rename_i hlen
        have : queue_edges graph inst = [] := by
          cases hq2 : queue_edges graph inst with
          | nil => rfl
          | cons e es => rw [hq2] at hlen; simp at hlen
        simp [this]

/-! ## Sparse matmul validation -/

theorem count_pos_iff_mem (l : List Nat) (a : Nat) : l.count a > 0 ↔ a ∈ l := by
  rw [gt_iff_lt, List.count_pos_iff]

/-- Claim C24. If `validate_sparse_matmul_model` returns true for a plan, the identifier of the plan
is in the cache afterwards; the cache after a call contains the cache before it; and every
call with a plan of that identifier and a cache containing it returns true without calling
the sparse encoder and leaves the cache as it is. -/
theorem validate_sparse_matmul_model_cache (api : SparseApi) (force_buffer_op_layout : Bool)
    (op : Node) (op_model : OpModel) (graph : Graph) (validated_cache : List Nat)
    (r : SparseValidation)
    (h : validate_sparse_matmul_model api force_buffer_op_layout op op_model graph
      validated_cache = some r) :
    (r.result = true → op_model.id ∈ r.validated_cache) ∧
    (∀ id ∈ validated_cache, id ∈ r.validated_cache) ∧
    ∀ (later_api : SparseApi) (later_force : Bool) (later_op : Node) (later_model : OpModel)
      (later_graph : Graph) (later_cache : List Nat),
      later_model.id = op_model.id → op_model.id ∈ later_cache →
      validate_sparse_matmul_model later_api later_force later_op later_model later_graph
        later_cache =
        some { result := true, validated_cache := later_cache, encoder_calls := [] } := by
  refine ⟨?_, ?_, ?_⟩
  · unfold validate_sparse_matmul_model at h
    by_cases hc : validated_cache.count op_model.id > 0
    · rw [if_pos hc] at h
      simp only [Option.some.injEq] at h
      subst h
      exact fun _ => (count_pos_iff_mem _ _).1 hc
    · rw [if_neg hc] at h
      split at h
      · simp at h
      · cases ho : op_model.output_buffers[0]? with
        | none => simp [ho] at h
        | some out0 =>
          cases hi : op_model.input_buffers[1]? with
          | none => simp [ho, hi] at h
          | some in1 =>
            cases hd : (graph.data_operands op)[0]? with
            | none => simp [ho, hi, hd] at h
            | some sparse_buda =>
              simp only [ho, hi, hd, Option.some_bind] at h
              split at h
              · simp only [Option.some.injEq] at h
                subst h
                intro _
                simp
              · simp only [Option.some.injEq] at h
                subst h
                intro hr
                simp at hr
  · unfold validate_sparse_matmul_model at h
    by_cases hc : validated_cache.count op_model.id > 0
    · rw [if_pos hc] at h
      simp only [Option.some.injEq] at h
      subst h
      exact fun id hid => hid
    · rw [if_neg hc] at h
      split at h
      · simp at h
      · cases ho : op_model.output_buffers[0]? with
        | none => simp [ho] at h
        | some out0 =>
          cases hi : op_model.input_buffers[1]? with
          | none => simp [ho, hi] at h
          | some in1 =>
            cases hd : (graph.data_operands op)[0]? with
            | none => simp [ho, hi, hd] at h
            | some sparse_buda =>
              simp only [ho, hi, hd, Option.some_bind] at h
              split at h
              · simp only [Option.some.injEq] at h
                subst h
                intro id hid
                simp [hid]
              · simp only [Option.some.injEq] at h
                subst h
                exact fun id hid => hid
  · intro later_api later_force later_op later_model later_graph later_cache hid hmem
    unfold validate_sparse_matmul_model
    rw [if_pos (by rw [hid]; exact (count_pos_iff_mem _ _).2 hmem)]

/-- Witness for C24: a plan with identifier 7 on 2 rows is validated against the cache `[3]`
by an encoder that encodes grids of at most 4 rows. -/
theorem validate_sparse_matmul_model_cache_witness :
    validate_sparse_matmul_model fx_sparse_api false fx_sparse (fx_sparse_plan 2)
      fx_sparse_graph [3] =
      some fx_sparse_validated ∧
    ((fx_sparse_validated.result = true →
        (fx_sparse_plan 2).id ∈ fx_sparse_validated.validated_cache) ∧
    (∀ id ∈ [3], id ∈ fx_sparse_validated.validated_cache) ∧
    ∀ (later_api : SparseApi) (later_force : Bool) (later_op : Node) (later_model : OpModel)
      (later_graph : Graph) (later_cache : List Nat),
      later_model.id = (fx_sparse_plan 2).id → (fx_sparse_plan 2).id ∈ later_cache →
      validate_sparse_matmul_model later_api later_force later_op later_model later_graph
        later_cache =
        some { result := true, validated_cache := later_cache, encoder_calls := [] }) :=
  ⟨by decide, validate_sparse_matmul_model_cache fx_sparse_api false fx_sparse
    (fx_sparse_plan 2) fx_sparse_graph [3] fx_sparse_validated (by decide)⟩

/-- Claim C25. When the identifier of a plan is not in the cache, the preconditions of the check
hold (sparse matmul op, buffers and sparse operand present) and the sparse encoder throws on
the configuration of the plan, `validate_sparse_matmul_model` returns false (it does return:
no failure reaches the caller), after one call of the encoder, and the cache is unchanged. -/
theorem validate_sparse_matmul_model_rejects (api : SparseApi) (force_buffer_op_layout : Bool)
    (op : Node) (op_model : OpModel) (graph : Graph) (validated_cache : List Nat)
    (out0 in1 : BufferModel) (sparse_buda : Node)
    (hcache : op_model.id ∉ validated_cache)
    (hsparse : op.is_sparse_matmul = true)
    (hout : op_model.output_buffers[0]? = some out0)
    (hin : op_model.input_buffers[1]? = some in1)
    (hoperand : (graph.data_operands op)[0]? = some sparse_buda)
    (hraise : api.encodes sparse_buda
      { grid_r := op_model.grid_shape.r, t_factor_r := op_model.t_stream_factor.r,
        t_factor_c := op_model.t_stream_factor.c, u_rt := out0.block_shape.ublock.rt,
        u_kt := in1.block_shape.ublock.rt, fracture_factor := op_model.fracture_factor,
        layout := api.create_layout (op_model.has_sparse_buffer || force_buffer_op_layout)
          op_model.t_stream_factor.z_major op_model.fracture_factor } = false) :
    ∃ r, validate_sparse_matmul_model api force_buffer_op_layout op op_model graph
        validated_cache = some r ∧
      r.result = false ∧ r.validated_cache = validated_cache ∧ r.encoder_calls.length = 1 := by
  have hc : ¬ validated_cache.count op_model.id > 0 :=
    fun hc => hcache ((count_pos_iff_mem _ _).1 hc)
  unfold validate_sparse_matmul_model
  rw [if_neg hc]
  simp only [hsparse, Bool.not_true, Bool.false_eq_true, if_false, hout, hin, hoperand,
    Option.some_bind, hraise]
  exact ⟨_, rfl, rfl, rfl, rfl⟩

/-- Witness for C25: the same plan on 8 rows, on which the encoder throws. -/
theorem validate_sparse_matmul_model_rejects_witness :
    ∃ r, validate_sparse_matmul_model fx_sparse_api false fx_sparse (fx_sparse_plan 8)
        fx_sparse_graph [3] = some r ∧
      r.result = false ∧ r.validated_cache = [3] ∧ r.encoder_calls.length = 1 :=
  validate_sparse_matmul_model_rejects fx_sparse_api false fx_sparse (fx_sparse_plan 8)
    fx_sparse_graph [3] fx_buffer fx_buffer fx_node_a (by decide) rfl rfl rfl rfl (by decide)

/-! ## Epoch costs -/

theorem total_cost_eq_sum (epoch_costs : List EpochCost) :
    total_cost epoch_costs =
      (epoch_costs.map fun c => c.setup_cycles + c.runtime_cycles).sum := by
  unfold total_cost
  have h : ∀ (l : List EpochCost) (init : Nat),
      l.foldl (fun total epoch_cost =>
        total + (epoch_cost.setup_cycles + epoch_cost.runtime_cycles)) init =
      init + (l.map fun c => c.setup_cycles + c.runtime_cycles).sum := by
    intro l
    induction l with
    | nil => simp
    | cons c cs ih =>
      intro init
      simp only [List.foldl_cons, List.map_cons, List.sum_cons, ih]
      omega
  rw [h]
  simp

theorem epoch_costs_loop_spec (selected_op_models : List (String × OpModel))
    (arch_name : String) (entries : List (String × OpPlacement)) (epoch_costs : List EpochCost)
    (hplans : ∀ kv ∈ entries, (selected_op_models.lookup kv.1).isSome = true)
    (hepochs : ∀ kv ∈ entries, kv.2.epoch_id < epoch_costs.length) :
    ∃ out, epoch_costs_loop selected_op_models arch_name entries epoch_costs = some out ∧
      ∀ e : Nat, out[e]? = (epoch_costs[e]?).map fun cost =>
        EpochCost.mk cost.setup_cycles
          (((entries.filter fun kv => kv.2.epoch_id == e).map
            fun kv => selected_cycles selected_op_models arch_name kv.1).foldl max
            cost.runtime_cycles) := by
  induction entries generalizing epoch_costs with
  | nil =>
    refine ⟨epoch_costs, rfl, fun e => ?_⟩
    cases epoch_costs[e]? <;> rfl
  | cons kv rest ih =>
    obtain ⟨node, placement⟩ := kv
    have hp := hplans (node, placement) (List.mem_cons_self _ _)
    have he := hepochs (node, placement) (List.mem_cons_self _ _)
    cases hl : selected_op_models.lookup node with
    | none => simp [hl] at hp
    | some op_model =>
      have hget : epoch_costs[placement.epoch_id]? = some (epoch_costs[placement.epoch_id]) :=
        List.getElem?_eq_getElem he
      obtain ⟨out, hout, hspec⟩ := ih
        (epoch_costs.set placement.epoch_id
          { epoch_costs[placement.epoch_id] with
            runtime_cycles := max (epoch_costs[placement.epoch_id]).runtime_cycles
              (op_model.get_execution_cycles arch_name) })
        (fun kv hkv => hplans kv (List.mem_cons_of_mem _ hkv))
        (fun kv hkv => by
          rw [List.length_set]
          exact hepochs kv (List.mem_cons_of_mem _ hkv))
      refine ⟨out, ?_, fun e => ?_⟩
      · simp only [epoch_costs_loop, hl, hget, Option.some_bind]
        exact hout
      · rw [hspec e, List.getElem?_set]
        have hcyc : selected_cycles selected_op_models arch_name node =
            op_model.get_execution_cycles arch_name := by
          simp [selected_cycles, hl]
        by_cases hee : placement.epoch_id = e
        · subst hee
          simp [he, hget, hcyc]
        · have hne : (placement.epoch_id == e) = false := by simpa using hee
          simp [hee, hne]

/-- Claim C26, counterexample. For the op `A` placed alone in epoch 0 with the plan `fx_plan_a`,
`calculate_epoch_costs` gives the epoch the runtime cost 50, the execution cycles of the plan,
while the estimate of the cost model for the plan is 63. -/
theorem calculate_epoch_costs_not_limiter_cycles :
    calculate_epoch_costs fx_solution_a [("A", fx_plan_a)] fx_device.arch_name =
      some [{ setup_cycles := 0, runtime_cycles := 50 }] ∧
    plan_cost fx_compare_env fx_pair_graph fx_device fx_plan_a = some 63 :=
  ⟨by decide, fx_plan_a_cost⟩

/-- Claim C26, amended. When every placed op has a selected plan and every epoch id is below
`num_epochs`, `calculate_epoch_costs` returns one entry per epoch (length `num_epochs`);
entry `e` has setup cost 0 and as runtime cost the maximum, over the ops placed in epoch `e`,
of the execution cycle count of the selected plan (0 for an epoch without ops); and the
reported total is the sum of these runtime costs over the epochs. -/
theorem calculate_epoch_costs_spec (placer_solution : PlacerSolution)
    (selected_op_models : List (String × OpModel)) (arch_name : String)
    (hplans : ∀ kv ∈ placer_solution.name_to_op_placement,
      (selected_op_models.lookup kv.1).isSome = true)
    (hepochs : ∀ kv ∈ placer_solution.name_to_op_placement,
      kv.2.epoch_id < placer_solution.num_epochs) :
    ∃ epoch_costs,
      calculate_epoch_costs placer_solution selected_op_models arch_name = some epoch_costs ∧
      epoch_costs.length = placer_solution.num_epochs ∧
      (∀ e, e < placer_solution.num_epochs →
        epoch_costs[e]? = some
          { setup_cycles := 0
            runtime_cycles :=
              max_cycles_in_epoch placer_solution selected_op_models arch_name e }) ∧
      total_cost epoch_costs = ((List.range placer_solution.num_epochs).map
        (max_cycles_in_epoch placer_solution selected_op_models arch_name)).sum := by
  obtain ⟨out, hout, hspec⟩ := epoch_costs_loop_spec selected_op_models arch_name
    placer_solution.name_to_op_placement
    (List.replicate placer_solution.num_epochs { setup_cycles := 0, runtime_cycles := 0 })
    hplans (by simpa using hepochs)
  have hentry : ∀ e : Nat, out[e]? =
      ((List.range placer_solution.num_epochs).map fun e =>
        EpochCost.mk 0 (max_cycles_in_epoch placer_solution selected_op_models arch_name e))[e]? := by
    intro e
    rw [hspec e]
    by_cases he : e < placer_solution.num_epochs
    · simp [List.getElem?_replicate, he, max_cycles_in_epoch]
    · have hnone : (List.range placer_solution.num_epochs)[e]? = none := by
        rw [List.getElem?_eq_none_iff]
        simp only [List.length_range]
        omega
      simp [List.getElem?_replicate, he, hnone]
  have hout_eq : out = (List.range placer_solution.num_epochs).map fun e =>
      EpochCost.mk 0 (max_cycles_in_epoch placer_solution selected_op_models arch_name e) :=
    List.ext_getElem? hentry
  refine ⟨out, hout, ?_, ?_, ?_⟩
  · rw [hout_eq]
    simp
  · intro e he
    rw [hentry e]
    simp [he]
  · rw [total_cost_eq_sum, hout_eq, List.map_map]
    congr 1
    apply List.map_congr_left
    intro e _
    simp

/-- Witness for C26 (amended): the solution of the counterexample. -/
theorem calculate_epoch_costs_spec_witness :
    ∃ epoch_costs,
      calculate_epoch_costs fx_solution_a [("A", fx_plan_a)] "wormhole_b0" = some epoch_costs ∧
      epoch_costs.length = fx_solution_a.num_epochs ∧
      (∀ e, e < fx_solution_a.num_epochs →
        epoch_costs[e]? = some
          { setup_cycles := 0
            runtime_cycles :=
              max_cycles_in_epoch fx_solution_a [("A", fx_plan_a)] "wormhole_b0" e }) ∧
      total_cost epoch_costs = ((List.range fx_solution_a.num_epochs).map
        (max_cycles_in_epoch fx_solution_a [("A", fx_plan_a)] "wormhole_b0")).sum :=
  calculate_epoch_costs_spec fx_solution_a [("A", fx_plan_a)] "wormhole_b0"
    (by decide) (by decide)

/-! ## Monotonicity of the cost model -/

theorem trunc_mono (p q : ℚ) (hp : 0 ≤ p) (hpq : p ≤ q) : trunc p ≤ trunc q := by
  unfold trunc
  rw [if_pos hp, if_pos (le_trans hp hpq)]
  exact Int.floor_le_floor hpq

theorem static_cast_int_mono (bytes more : Nat) (bw : ℚ) (hbw : 0 < bw) (h : bytes ≤ more)
    (t : Int) (ht : static_cast_int bytes bw = some t) :
    ∃ u, static_cast_int more bw = some u ∧ t ≤ u := by
  unfold static_cast_int at ht ⊢
  rw [if_neg (ne_of_gt hbw)] at ht ⊢
  simp only [Option.some.injEq] at ht
  subst ht
  refine ⟨_, rfl, trunc_mono _ _ (div_nonneg (Nat.cast_nonneg _) (le_of_lt hbw)) ?_⟩
  exact div_le_div_of_nonneg_right (by exact_mod_cast h) (le_of_lt hbw)

theorem grow_buffer_getElem? (buffers : List BufferModel) (port extra j : Nat)
    (b : BufferModel) (h : buffers[j]? = some b) :
    ∃ g, (grow_buffer buffers port extra)[j]? = some g ∧
      b.total_size_bytes ≤ g.total_size_bytes := by
  induction buffers generalizing port j with
  | nil => simp at h
  | cons x xs ih =>
    cases port with
    | zero =>
      cases j with
      | zero =>
        simp only [List.getElem?_cons_zero, Option.some.injEq] at h
        subst h
        exact ⟨{ x with total_size_bytes := x.total_size_bytes + extra },
          by simp [grow_buffer], Nat.le_add_right _ _⟩
      | succ k => exact ⟨b, by simpa [grow_buffer] using h, le_refl _⟩
    | succ p =>
      cases j with
      | zero => exact ⟨b, by simpa [grow_buffer] using h, le_refl _⟩
      | succ k =>
        simp only [List.getElem?_cons_succ] at h
        obtain ⟨g, hg, hle⟩ := ih p k h
        exact ⟨g, by simpa [grow_buffer] using hg, hle⟩

theorem max_edge_cycles_mono (term1 term2 : Edge → Option Int)
    (hterm : ∀ edge t, term1 edge = some t → ∃ u, term2 edge = some u ∧ t ≤ u)
    (edges : List Edge) (acc1 acc2 : Int) (hacc : acc1 ≤ acc2) (r : Int)
    (h : max_edge_cycles term1 edges acc1 = some r) :
    ∃ s, max_edge_cycles term2 edges acc2 = some s ∧ r ≤ s := by
  induction edges generalizing acc1 acc2 with
  | nil =>
    simp only [max_edge_cycles, Option.some.injEq] at h
    exact ⟨acc2, rfl, h ▸ hacc⟩
  | cons edge rest ih =>
    simp only [max_edge_cycles] at h ⊢
    cases h1 : term1 edge with
    | none => simp [h1] at h
    | some t =>
      obtain ⟨u, hu, htu⟩ := hterm edge t h1
      rw [h1] at h
      rw [hu]
      exact ih (max acc1 t) (max acc2 u) (max_le_max hacc htu) h

theorem read_edge_cycles_mono (op_model : OpModel) (graph : Graph) (noc dram : ℚ)
    (hnoc : 0 < noc) (hdram : 0 < dram) (port extra : Nat) (edge : Edge) (t : Int)
    (h : read_edge_cycles op_model graph noc dram edge = some t) :
    ∃ u, read_edge_cycles
        { op_model with input_buffers := grow_buffer op_model.input_buffers port extra }
        graph noc dram edge = some u ∧ t ≤ u := by
  unfold read_edge_cycles at h ⊢
  simp only at h ⊢
  split at h
  · rename_i hq
    rw [if_pos hq]
    cases hp : op_model.parameter_buffers[edge.consumer_input_port_id]? with
    | none => simp [hp] at h
    | some p =>
      cases hb : op_model.input_buffers[edge.consumer_input_port_id]? with
      | none => simp [hp, hb] at h
      | some b =>
        obtain ⟨g, hg, hle⟩ := grow_buffer_getElem? _ port extra _ b hb
        simp only [hp, hb, hg, Option.some_bind] at h ⊢
        split at h
        · rename_i hpb
          rw [if_pos hpb]
          exact static_cast_int_mono _ _ dram hdram hle t h
        · rename_i hpb
          rw [if_neg hpb]
          exact static_cast_int_mono _ _ noc hnoc hle t h
  · rename_i hq
    rw [if_neg hq]
    cases hb : op_model.input_buffers[edge.consumer_input_port_id]? with
    | none => simp [hb] at h
    | some b =>
      obtain ⟨g, hg, hle⟩ := grow_buffer_getElem? _ port extra _ b hb
      simp only [hb, hg, Option.some_bind] at h ⊢
      exact static_cast_int_mono _ _ noc hnoc hle t h

theorem write_edge_cycles_mono (op_model : OpModel) (graph : Graph) (noc dram : ℚ)
    (hnoc : 0 < noc) (hdram : 0 < dram) (current_epoch_nodes : Option (List Node))
    (port extra : Nat) (edge : Edge) (t : Int)
    (h : write_edge_cycles op_model graph noc dram current_epoch_nodes edge = some t) :
    ∃ u, write_edge_cycles
        { op_model with output_buffers := grow_buffer op_model.output_buffers port extra }
        graph noc dram current_epoch_nodes edge = some u ∧ t ≤ u := by
  unfold write_edge_cycles at h ⊢
  cases hb : op_model.output_buffers[edge.producer_output_port_id]? with
  | none => simp [hb] at h
  | some b =>
    obtain ⟨g, hg, hle⟩ := grow_buffer_getElem? _ port extra _ b hb
    simp only [hb, hg, Option.some_bind] at h ⊢
    split at h
    · rename_i hq
      rw [if_pos hq]
      exact static_cast_int_mono _ _ dram hdram hle t h
    · rename_i hq
      rw [if_neg hq]
      exact static_cast_int_mono _ _ noc hnoc hle t h

/-- The cost when the read terms and the write terms of a second plan with the same op node
and execution cycles are at least those of the first. -/
theorem get_limiter_cycles_mono_of_terms (legacy_cycles_calc : Bool)
    (op_model grown : OpModel) (graph : Graph) (device_config : DeviceConfig)
    (dram_access_core_count : Int) (current_epoch_nodes : Option (List Node))
    (hnode : grown.buda_op_node = op_model.buda_op_node)
    (hcycles : grown.get_execution_cycles = op_model.get_execution_cycles)
    (hread : ∀ edge t,
      read_edge_cycles op_model graph (noc_bw device_config)
        (dram_bw device_config dram_access_core_count) edge = some t →
      ∃ u, read_edge_cycles grown graph (noc_bw device_config)
        (dram_bw device_config dram_access_core_count) edge = some u ∧ t ≤ u)
    (hwrite : ∀ edge t,
      write_edge_cycles op_model graph (noc_bw device_config)
        (dram_bw device_config dram_access_core_count) current_epoch_nodes edge = some t →
      ∃ u, write_edge_cycles grown graph (noc_bw device_config)
        (dram_bw device_config dram_access_core_count) current_epoch_nodes edge = some u ∧
        t ≤ u)
    (c : Int)
    (h : get_limiter_cycles legacy_cycles_calc op_model graph device_config
      dram_access_core_count current_epoch_nodes = some c) :
    ∃ d, get_limiter_cycles legacy_cycles_calc grown graph device_config
      dram_access_core_count current_epoch_nodes = some d ∧ c ≤ d := by
  unfold get_limiter_cycles at h ⊢
  simp only [hnode, hcycles] at h ⊢
  cases legacy_cycles_calc with
  | true =>
    simp only [if_true] at h ⊢
    exact ⟨_, rfl, by simp only [Option.some.injEq] at h; rw [h]⟩
  | false =>
    simp only [Bool.false_eq_true, if_false] at h ⊢
    cases hr : max_edge_cycles (read_edge_cycles op_model graph (noc_bw device_config)
        (dram_bw device_config dram_access_core_count))
        (graph.operand_data_edges op_model.buda_op_node) 0 with
    | none => simp [hr] at h
    | some r =>
      cases hw : max_edge_cycles (write_edge_cycles op_model graph (noc_bw device_config)
          (dram_bw device_config dram_access_core_count) current_epoch_nodes)
          (graph.user_data_edges op_model.buda_op_node) 0 with
      | none => simp [hr, hw] at h
      | some w =>
        obtain ⟨r2, hr2, hrle⟩ := max_edge_cycles_mono _ _ hread _ 0 0 (le_refl 0) r hr
        obtain ⟨w2, hw2, hwle⟩ := max_edge_cycles_mono _ _ hwrite _ 0 0 (le_refl 0) w hw
        simp only [hr, hw, hr2, hw2, Option.some_bind, Option.some.injEq] at h ⊢
        subst h
        exact ⟨_, rfl, max_le_max (le_refl _) (max_le_max hrle hwle)⟩

/-- Claim C27. With positive NOC and DRAM bandwidths, adding bytes to the input buffer (resp. the
output buffer) at a port, everything else fixed, does not decrease the read term (resp. the
write term) of any edge: when the term is defined before, it is defined after and at least
as large. Consequently, when `get_limiter_cycles` returns a cost for the plan, it returns a
cost at least as large for the plan with the larger input buffer and for the plan with the
larger output buffer. -/
theorem get_limiter_cycles_buffer_monotone (legacy_cycles_calc : Bool) (op_model : OpModel)
    (graph : Graph) (device_config : DeviceConfig) (dram_access_core_count : Int)
    (current_epoch_nodes : Option (List Node)) (port extra : Nat)
    (hnoc : 0 < noc_bw device_config)
    (hdram : 0 < dram_bw device_config dram_access_core_count) :
    (∀ edge t,
      read_edge_cycles op_model graph (noc_bw device_config)
        (dram_bw device_config dram_access_core_count) edge = some t →
      ∃ u, read_edge_cycles
        { op_model with input_buffers := grow_buffer op_model.input_buffers port extra }
        graph (noc_bw device_config) (dram_bw device_config dram_access_core_count) edge =
          some u ∧ t ≤ u) ∧
    (∀ edge t,
      write_edge_cycles op_model graph (noc_bw device_config)
        (dram_bw device_config dram_access_core_count) current_epoch_nodes edge = some t →
      ∃ u, write_edge_cycles
        { op_model with output_buffers := grow_buffer op_model.output_buffers port extra }
        graph (noc_bw device_config) (dram_bw device_config dram_access_core_count)
        current_epoch_nodes edge = some u ∧ t ≤ u) ∧
    (∀ c, get_limiter_cycles legacy_cycles_calc op_model graph device_config
        dram_access_core_count current_epoch_nodes = some c →
      (∃ d, get_limiter_cycles legacy_cycles_calc
          { op_model with input_buffers := grow_buffer op_model.input_buffers port extra }
          graph device_config dram_access_core_count current_epoch_nodes = some d ∧ c ≤ d) ∧
      (∃ d, get_limiter_cycles legacy_cycles_calc
          { op_model with output_buffers := grow_buffer op_model.output_buffers port extra }
          graph device_config dram_access_core_count current_epoch_nodes = some d ∧ c ≤ d)) := by
  have hread := fun edge t =>
    read_edge_cycles_mono op_model graph _ _ hnoc hdram port extra edge t
  have hwrite := fun edge t =>
    write_edge_cycles_mono op_model graph _ _ hnoc hdram current_epoch_nodes port extra edge t
  refine ⟨hread, hwrite, fun c hc => ⟨?_, ?_⟩⟩
  · exact get_limiter_cycles_mono_of_terms legacy_cycles_calc op_model
      { op_model with input_buffers := grow_buffer op_model.input_buffers port extra }
      graph device_config dram_access_core_count current_epoch_nodes rfl rfl hread
      (fun edge t ht => ⟨t, ht, le_refl t⟩) c hc
  · exact get_limiter_cycles_mono_of_terms legacy_cycles_calc op_model
      { op_model with output_buffers := grow_buffer op_model.output_buffers port extra }
      graph device_config dram_access_core_count current_epoch_nodes rfl rfl
      (fun edge t ht => ⟨t, ht, le_refl t⟩) hwrite c hc

/-- Witness for C27: the plan `fx_plan_a`, of cost 63, with 1000 more bytes in its output
buffer. -/
theorem get_limiter_cycles_buffer_monotone_witness :
    0 < noc_bw fx_device ∧ 0 < dram_bw fx_device 0 ∧
    get_limiter_cycles false fx_plan_a fx_pair_graph fx_device 0 none = some 63 ∧
    ∃ d, get_limiter_cycles false
        { fx_plan_a with output_buffers := grow_buffer fx_plan_a.output_buffers 0 1000 }
        fx_pair_graph fx_device 0 none = some d ∧ 63 ≤ d :=
  ⟨by rw [fx_noc_bw]; norm_num, by rw [fx_dram_bw]; norm_num, fx_plan_a_cost,
    ((get_limiter_cycles_buffer_monotone false fx_plan_a fx_pair_graph fx_device 0 none 0 1000
      (by rw [fx_noc_bw]; norm_num) (by rw [fx_dram_bw]; norm_num)).2.2 63
        fx_plan_a_cost).2⟩

/-! ## Validation against a duplicate-free schedule -/

theorem count_eq_zero_iff (placer_solution : PlacerSolution) (name : String) :
    placer_solution.count name = 0 ↔
      name ∉ placer_solution.name_to_op_placement.map Prod.fst := by
  unfold PlacerSolution.count
  by_cases h : placer_solution.name_to_op_placement.any (fun kv => kv.1 == name) = true
  · rw [if_pos h]
    simp only [List.any_eq_true, beq_iff_eq] at h
    obtain ⟨kv, hkv, hname⟩ := h
    simp only [one_ne_zero, false_iff, not_not, List.mem_map]
    exact ⟨kv, hkv, hname⟩
  · rw [if_neg h]
    simp only [List.any_eq_true, beq_iff_eq, not_exists, not_and] at h
    simp only [true_iff, List.mem_map, not_exists, not_and]
    exact fun kv hkv => h kv hkv

/-- Claim C29. For a duplicate-free schedule, if `validate_solution` fails then some scheduled name
is absent from the mapping of the solution; and if in addition every name of the mapping
(whose keys are pairwise distinct) occurs in the schedule, `validate_solution` fails exactly
when some scheduled name is absent. -/
theorem validate_solution_fails_iff (scheduled_ops : List String)
    (placer_solution : PlacerSolution) (hschedule : scheduled_ops.Nodup) :
    ((∃ names, validate_solution scheduled_ops placer_solution = Except.error names) →
      ∃ name ∈ scheduled_ops, placer_solution.count name = 0) ∧
    ((placer_solution.name_to_op_placement.map Prod.fst).Nodup →
      (∀ kv ∈ placer_solution.name_to_op_placement, kv.1 ∈ scheduled_ops) →
      ((∃ names, validate_solution scheduled_ops placer_solution = Except.error names) ↔
        ∃ name ∈ scheduled_ops, placer_solution.count name = 0)) := by
  have hfail : (∃ names, validate_solution scheduled_ops placer_solution =
      Except.error names) ↔
      placer_solution.name_to_op_placement.length < scheduled_ops.length := by
    unfold validate_solution
    split
    · rename_i h
      simp [h]
    · rename_i h
      simp [h]
  have hone : placer_solution.name_to_op_placement.length < scheduled_ops.length →
      ∃ name ∈ scheduled_ops, placer_solution.count name = 0 := by
    intro hlt
    by_contra hnone
    simp only [not_exists, not_and] at hnone
    have hsub : scheduled_ops ⊆ placer_solution.name_to_op_placement.map Prod.fst := by
      intro name hname
      by_contra hmem
      exact hnone name hname ((count_eq_zero_iff placer_solution name).2 hmem)
    have hle := (hschedule.subperm hsub).length_le
    rw [List.length_map] at hle
    omega
  refine ⟨fun h => hone (hfail.1 h), fun hkeys hsubset => ⟨fun h => hone (hfail.1 h), ?_⟩⟩
  rintro ⟨name, hname, hcount⟩
  rw [hfail]
  have habsent := (count_eq_zero_iff placer_solution name).1 hcount
  have hsub : placer_solution.name_to_op_placement.map Prod.fst ⊆ scheduled_ops.erase name := by
    intro key hkey
    obtain ⟨kv, hkv, hk⟩ := List.mem_map.1 hkey
    have hin : key ∈ scheduled_ops := hk ▸ hsubset kv hkv
    have hne : key ≠ name := fun heq => habsent (heq ▸ hkey)
    exact (List.mem_erase_of_ne hne).2 hin
  have hle := (hkeys.subperm hsub).length_le
  rw [List.length_map, List.length_erase_of_mem hname] at hle
  have hpos : 0 < scheduled_ops.length := List.length_pos_of_mem hname
  omega

/-- Witness for C29: the schedule `A, B` against a solution that places only `A`. -/
theorem validate_solution_fails_iff_witness :
    ["A", "B"].Nodup ∧
    (∃ names, validate_solution ["A", "B"] fx_solution_a = Except.error names) ∧
    ∃ name ∈ ["A", "B"], fx_solution_a.count name = 0 :=
  ⟨by decide, ⟨["B"], rfl⟩,
    (validate_solution_fails_iff ["A", "B"] fx_solution_a (by decide)).1 ⟨["B"], rfl⟩⟩

/-! ## Closed form of the minimizing fallback -/

theorem ribbon_search_full_spec (env : RibbonEnv) (graph : Graph) (graph_solver : GraphSolver)
    (scheduled_ops : List String) (indices : List Nat) (st : RibbonSearch)
    (hnodup : indices.Nodup)
    (hlen : ∀ i ∈ indices, i < scheduled_ops.length)
    (hpre : ∀ i ∈ indices, ∀ p ∈ window_plans graph graph_solver scheduled_ops i,
      prologue_ok p ≠ none)
    (hfresh : ∀ i ∈ indices, st.valid_map i = [])
    (hproper : ∀ k, k < indices.length → ∃ c ∈ st.candidates, ∀ i ∈ indices.take k,
      legal_row env (window_plans graph graph_solver scheduled_ops i) c) :
    ∃ st', ribbon_search env graph graph_solver scheduled_ops indices st = some st' ∧
      (∀ c, c ∈ st'.candidates ↔ (c ∈ st.candidates ∧ ∀ i ∈ indices,
        legal_row env (window_plans graph graph_solver scheduled_ops i) c)) ∧
      (∀ i ∈ indices, ∀ row, row ∈ st'.valid_map i ↔
        legal_row env (window_plans graph graph_solver scheduled_ops i) row) ∧
      (∀ j, j ∉ indices → st'.valid_map j = st.valid_map j) := by
  induction indices generalizing st with
  | nil => exact ⟨st, rfl, by simp, by simp, fun _ _ => rfl⟩
  | cons i rest ih =>
    have hi : i < scheduled_ops.length := hlen i (List.mem_cons_self _ _)
    have hname : scheduled_ops[i]? = some scheduled_ops[i] := List.getElem?_eq_getElem hi
    have hwin : window_plans graph graph_solver scheduled_ops i =
        graph_solver.op_models (graph.get_node_by_name scheduled_ops[i]) := by
      simp [window_plans, hname]
    obtain ⟨rows, hrows, hmem⟩ := op_valid_rows_spec env
      (graph_solver.op_models (graph.get_node_by_name scheduled_ops[i])) (st.valid_map i)
      (by rw [← hwin]; exact hpre i (List.mem_cons_self _ _))
    rw [hfresh i (List.mem_cons_self _ _), ← hwin] at hmem
    have hmem' : ∀ row, row ∈ rows ↔
        legal_row env (window_plans graph graph_solver scheduled_ops i) row := by
      intro row
      rw [hmem]
      simp
    have hnd := List.nodup_cons.1 hnodup
    rw [hfresh i (List.mem_cons_self _ _)] at hrows
    have hfilter : ∀ c, c ∈ st.candidates.filter (fun it => rows.contains it) ↔
        (c ∈ st.candidates ∧
          legal_row env (window_plans graph graph_solver scheduled_ops i) c) := by
      intro c
      rw [List.mem_filter, contains_iff_mem, hmem' c]
    by_cases hemp : (st.candidates.filter (fun it => rows.contains it)).isEmpty = true
    · cases rest with
      | cons j rest2 =>
        exfalso
        obtain ⟨c, hc, hlegal⟩ := hproper 1 (by simp)
        have hcm : c ∈ st.candidates.filter (fun it => rows.contains it) :=
          (hfilter c).2 ⟨hc, hlegal i (by simp)⟩
        rw [List.isEmpty_iff] at hemp
        rw [hemp] at hcm
        exact absurd hcm (List.not_mem_nil _)
      | nil =>
        refine ⟨{ candidates := st.candidates.filter (fun it => rows.contains it),
                  valid_map := fun j => if j = i then rows else st.valid_map j }, ?_, ?_, ?_, ?_⟩
        · simp only [ribbon_search, hname, Option.some_bind,
            hfresh i (List.mem_cons_self _ _), hrows, hemp, if_true]
        · intro c
          rw [hfilter c]
          simp
        · intro j hj row
          have hji : j = i := by simpa using hj
          subst hji
          simp only [if_true]
          exact hmem' row
        · intro j hj
          have hji : j ≠ i := by simpa using hj
          simp only [hji, if_false]
    · have hne : (st.candidates.filter (fun it => rows.contains it)).isEmpty = false := by
        simpa using hemp
      obtain ⟨st', hst', hcand, hvalid, hkeep⟩ := ih
        { candidates := st.candidates.filter (fun it => rows.contains it),
          valid_map := fun j => if j = i then rows else st.valid_map j }
        hnd.2
        (fun j hj => hlen j (List.mem_cons_of_mem _ hj))
        (fun j hj => hpre j (List.mem_cons_of_mem _ hj))
        (fun j hj => by
          have hji : j ≠ i := fun h => hnd.1 (h ▸ hj)
          simp only [hji, if_false]
          exact hfresh j (List.mem_cons_of_mem _ hj))
        (fun k hk => by
          obtain ⟨c, hc, hlegal⟩ := hproper (k + 1) (by simpa using hk)
          refine ⟨c, (hfilter c).2 ⟨hc, hlegal i (by simp)⟩, fun j hj => ?_⟩
          exact hlegal j (by simp [hj]))
      refine ⟨st', ?_, ?_, ?_, ?_⟩
      · simp only [ribbon_search, hname, Option.some_bind,
          hfresh i (List.mem_cons_self _ _), hrows, hne, Bool.false_eq_true, if_false]
        exact hst'
      · intro c
        rw [hcand c, hfilter c]
        simp only [List.mem_cons, forall_eq_or_imp]
        tauto
      · intro j hj row
        rcases List.mem_cons.1 hj with hji | hjr
        · subst hji
          rw [hkeep j hnd.1]
          simp only [if_true]
          exact hmem' row
        · exact hvalid j hjr row
      · intro j hj
        have hji : j ≠ i := fun h => hj (h ▸ List.mem_cons_self _ _)
        have hjr : j ∉ rest := fun h => hj (List.mem_cons_of_mem _ h)
        rw [hkeep j hjr]
        simp only [hji, if_false]

theorem ribbon_fallback_first (indices : List Nat) (valid_map : Nat → List Nat)
    (before after : List Nat) (chosen : Nat)
    (hbefore : ∀ c ∈ before, ∃ i ∈ indices,
      ∀ ribbon, 1 ≤ ribbon → ribbon ≤ c → ribbon ∉ valid_map i)
    (hone : ∃ i ∈ indices, chosen ∈ valid_map i)
    (hall : ∀ i ∈ indices, ∃ ribbon, 1 ≤ ribbon ∧ ribbon ≤ chosen ∧ ribbon ∈ valid_map i) :
    ribbon_fallback indices valid_map (before ++ chosen :: after) = chosen := by
  induction before with
  | nil =>
    obtain ⟨i, hi, hmem⟩ := hone
    have h1 : indices.any (fun i => (valid_map i).contains chosen) = true := by
      rw [List.any_eq_true]
      exact ⟨i, hi, (contains_iff_mem _ _).2 hmem⟩
    have h2 : (indices.all fun i =>
        (List.range' 1 chosen).any (fun ribbon => (valid_map i).contains ribbon)) = true := by
      rw [List.all_eq_true]
      intro j hj
      obtain ⟨ribbon, hr1, hr2, hr3⟩ := hall j hj
      rw [List.any_eq_true]
      exact ⟨ribbon, List.mem_range'_1.2 ⟨hr1, by omega⟩, (contains_iff_mem _ _).2 hr3⟩
    simp only [List.nil_append, ribbon_fallback, h1, h2, Bool.not_true, Bool.false_eq_true,
      if_false, if_true]
  | cons c rest ih =>
    have hrec := ih (fun x hx => hbefore x (List.mem_cons_of_mem _ hx))
    obtain ⟨i, hi, hnone⟩ := hbefore c (List.mem_cons_self _ _)
    have h2 : (indices.all fun i =>
        (List.range' 1 c).any (fun ribbon => (valid_map i).contains ribbon)) = false := by
      rw [← Bool.not_eq_true, List.all_eq_true]
      intro hcontra
      have := hcontra i hi
      rw [List.any_eq_true] at this
      obtain ⟨ribbon, hr, hmem⟩ := this
      have hb := List.mem_range'_1.1 hr
      exact hnone ribbon hb.1 (by omega) ((contains_iff_mem _ _).1 hmem)
    simp only [List.cons_append, ribbon_fallback, h2, Bool.false_eq_true, if_false]
    split <;> exact hrec

theorem range'_split (chosen bound : Nat) (h1 : 1 ≤ chosen) (h2 : chosen ≤ bound) :
    List.range' 1 bound =
      List.range' 1 (chosen - 1) ++ chosen :: List.range' (chosen + 1) (bound - chosen) := by
  have hcons : chosen :: List.range' (chosen + 1) (bound - chosen) =
      List.range' (1 + (chosen - 1)) (bound - chosen + 1) := by
    rw [List.range'_succ]
    have h : 1 + (chosen - 1) = chosen := by omega
    rw [h]
  rw [hcons, List.range'_append_1]
  congr 1
  omega

theorem mem_take_range' (s n k i : Nat) (h : i ∈ (List.range' s n).take k) :
    s ≤ i ∧ i < s + k ∧ i < s + n := by
  induction n generalizing s k with
  | zero => simp at h
  | succ n ih =>
    cases k with
    | zero => simp at h
    | succ k =>
      rw [List.range'_succ, List.take_succ_cons, List.mem_cons] at h
      rcases h with h | h
      · omega
      · have := ih (s + 1) k h
        omega

theorem exists_max_on_window (least : Nat → Nat) (s e : Nat) (h : s < e) :
    ∃ i, s ≤ i ∧ i < e ∧ ∀ j, s ≤ j → j < e → least j ≤ least i := by
  obtain ⟨i, hi, hmax⟩ := Finset.exists_max_image (Finset.Ico s e) least
    ⟨s, Finset.mem_Ico.2 ⟨le_refl s, h⟩⟩
  have hi2 := Finset.mem_Ico.1 hi
  exact ⟨i, hi2.1, hi2.2, fun j hs he => hmax j (Finset.mem_Ico.2 ⟨hs, he⟩)⟩

/-- Claim C30. When minimizing, with an upper bound `max_ribbon_size` other than `2^32 - 1`, for
a non-empty window within the schedule in which every proper
prefix has a row count in `[1, max_ribbon_size]` legal for all its ops, the whole window has
none, and every op has a smallest legal row count `least i` that is at most `max_ribbon_size`
(row counts being at least 1), `pick_ribbon_size` returns the maximum over the ops of the
window of `least i`: a value that is at least every `least i` and equal to one of them. -/
theorem pick_ribbon_size_fallback_closed_form (env : RibbonEnv) (start_index end_index : Nat)
    (graph : Graph) (graph_solver : GraphSolver) (scheduled_ops : List String)
    (device_rows : Nat) (least : Nat → Nat)
    (hminimize : env.ribbon_maximize = false)
    (hwindow : start_index < end_index)
    (hok : window_ok start_index end_index graph graph_solver scheduled_ops)
    (hbound : max_ribbon_size env device_rows ≠ 4294967295)
    (hleast : ∀ i, start_index ≤ i → i < end_index →
      least_legal_row env (window_plans graph graph_solver scheduled_ops i)
        (max_ribbon_size env device_rows) (least i))
    (hproper : ∀ k, start_index < k → k < end_index →
      ∃ row, common_row env start_index k graph graph_solver scheduled_ops device_rows row)
    (hlast : ∀ row,
      ¬ common_row env start_index end_index graph graph_solver scheduled_ops device_rows row) :
    ∃ r, pick_ribbon_size env start_index end_index graph graph_solver scheduled_ops
        device_rows = some r ∧
      (∀ i, start_index ≤ i → i < end_index → least i ≤ r) ∧
      ∃ i, start_index ≤ i ∧ i < end_index ∧ r = least i := by
  obtain ⟨hend, hpre⟩ := hok
  obtain ⟨top, htop1, htop2, htopmax⟩ := exists_max_on_window least start_index end_index hwindow
  obtain ⟨ht1, ht2, ht3, ht4⟩ := hleast top htop1 htop2
  obtain ⟨st', hst', hcand, hvalid, _⟩ := ribbon_search_full_spec env graph graph_solver
    scheduled_ops (List.range' start_index (end_index - start_index))
    { candidates := List.range' 1 (max_ribbon_size env device_rows), valid_map := fun _ => [] }
    (List.nodup_range' _ _)
    (fun i hi => lt_of_lt_of_le ((mem_window_indices _ _ _).1 hi).2 hend)
    (fun i hi => hpre i ((mem_window_indices _ _ _).1 hi).1 ((mem_window_indices _ _ _).1 hi).2)
    (fun _ _ => rfl)
    (fun k hk => by
      rw [List.length_range'] at hk
      cases k with
      | zero =>
        exact ⟨least top, List.mem_range'_1.2 ⟨ht1, by omega⟩, fun i hi => by simp at hi⟩
      | succ k =>
        obtain ⟨row, h1, h2, h3⟩ := hproper (start_index + (k + 1)) (by omega) (by omega)
        refine ⟨row, List.mem_range'_1.2 ⟨h1, by omega⟩, fun i hi => ?_⟩
        have hb := mem_take_range' _ _ _ _ hi
        exact h3 i hb.1 hb.2.1)
  have hnil : st'.candidates = [] := by
    cases hl : st'.candidates with
    | nil => rfl
    | cons c cs =>
      exfalso
      have hc : c ∈ st'.candidates := by rw [hl]; exact List.mem_cons_self _ _
      obtain ⟨h12, h3⟩ := (hcand c).1 hc
      have hb := List.mem_range'_1.1 h12
      exact hlast c ⟨hb.1, by omega,
        fun i hs he => h3 i ((mem_window_indices _ _ _).2 ⟨hs, he⟩)⟩
  have hvalid' : ∀ i, start_index ≤ i → i < end_index → ∀ row, row ∈ st'.valid_map i ↔
      legal_row env (window_plans graph graph_solver scheduled_ops i) row :=
    fun i hs he => hvalid i ((mem_window_indices _ _ _).2 ⟨hs, he⟩)
  refine ⟨least top, ?_, htopmax, top, htop1, htop2, rfl⟩
  simp only [pick_ribbon_size, ribbon_range_of_ne _ hbound, hst', Option.some_bind, hnil, List.isEmpty_nil, Bool.not_true,
    Bool.false_eq_true, if_false, hminimize, Bool.not_false, if_true, Option.some.injEq]
  rw [range'_split (least top) (max_ribbon_size env device_rows) ht1 ht2]
  apply ribbon_fallback_first
  · intro c hc
    have hb := List.mem_range'_1.1 hc
    refine ⟨top, (mem_window_indices _ _ _).2 ⟨htop1, htop2⟩, fun ribbon hr1 hr2 hmem => ?_⟩
    have := ht4 ribbon hr1 ((hvalid' top htop1 htop2 ribbon).1 hmem)
    omega
  · exact ⟨top, (mem_window_indices _ _ _).2 ⟨htop1, htop2⟩,
      (hvalid' top htop1 htop2 _).2 ht3⟩
  · intro i hi
    have hb := (mem_window_indices _ _ _).1 hi
    obtain ⟨h1, _, h3, _⟩ := hleast i hb.1 hb.2
    exact ⟨least i, h1, htopmax i hb.1 hb.2, (hvalid' i hb.1 hb.2 _).2 h3⟩

/-- Witness for C30: the window `a, b` with legal row counts `{1}` and `{2}` on a device of
2 rows; the result is 2. -/
theorem pick_ribbon_size_fallback_closed_form_witness :
    window_ok 0 2 fx_graph (fx_solver fx_disjoint_plans) ["a", "b"] ∧
    (∀ row, ¬ common_row (fx_ribbon_env false false) 0 2 fx_graph
      (fx_solver fx_disjoint_plans) ["a", "b"] 2 row) ∧
    ∃ r, pick_ribbon_size (fx_ribbon_env false false) 0 2 fx_graph
        (fx_solver fx_disjoint_plans) ["a", "b"] 2 = some r ∧
      (∀ i, 0 ≤ i → i < 2 → fx_least i ≤ r) ∧ ∃ i, 0 ≤ i ∧ i < 2 ∧ r = fx_least i :=
  have ha : window_plans fx_graph (fx_solver fx_disjoint_plans) ["a", "b"] 0 =
      [fx_plan "a" 1 1 1 100] := rfl
  have hb : window_plans fx_graph (fx_solver fx_disjoint_plans) ["a", "b"] 1 =
      [fx_plan "b" 2 1 1 100] := rfl
  have hlegal_a : legal_row (fx_ribbon_env false false)
      (window_plans fx_graph (fx_solver fx_disjoint_plans) ["a", "b"] 0) 1 := by
    rw [ha, legal_row_singleton]
    exact ⟨rfl, by decide, by decide, by decide, by decide⟩
  have hlegal_b : legal_row (fx_ribbon_env false false)
      (window_plans fx_graph (fx_solver fx_disjoint_plans) ["a", "b"] 1) 2 := by
    rw [hb, legal_row_singleton]
    exact ⟨rfl, by decide, by decide, by decide, by decide⟩
  have hok : window_ok 0 2 fx_graph (fx_solver fx_disjoint_plans) ["a", "b"] :=
    ⟨by decide, fun i _ hi => by
      interval_cases i <;> decide⟩
  have hleast : ∀ i, 0 ≤ i → i < 2 →
      least_legal_row (fx_ribbon_env false false)
        (window_plans fx_graph (fx_solver fx_disjoint_plans) ["a", "b"] i)
        (max_ribbon_size (fx_ribbon_env false false) 2) (fx_least i) := by
    intro i _ hi
    interval_cases i
    · exact ⟨by decide, by decide, hlegal_a, fun row h1 _ => h1⟩
    · refine ⟨by decide, by decide, hlegal_b, fun row _ h => ?_⟩
      rw [hb, legal_row_singleton] at h
      have e : (2 : Nat) = row := h.1
      have h2 : fx_least 1 = 2 := rfl
      omega
  have hproper : ∀ k, 0 < k → k < 2 →
      ∃ row, common_row (fx_ribbon_env false false) 0 k fx_graph
        (fx_solver fx_disjoint_plans) ["a", "b"] 2 row := by
    intro k h0 h2
    refine ⟨1, by decide, by decide, fun i _ hi => ?_⟩
    have hi0 : i = 0 := by omega
    subst hi0
    exact hlegal_a
  have hlast : ∀ row, ¬ common_row (fx_ribbon_env false false) 0 2 fx_graph
      (fx_solver fx_disjoint_plans) ["a", "b"] 2 row := by
    rintro row ⟨_, _, h⟩
    have h0 := h 0 (le_refl 0) (by decide)
    have h1 := h 1 (by decide) (by decide)
    rw [ha, legal_row_singleton] at h0
    rw [hb, legal_row_singleton] at h1
    have e0 : (1 : Nat) = row := h0.1
    have e1 : (2 : Nat) = row := h1.1
    omega
  ⟨hok, hlast, pick_ribbon_size_fallback_closed_form (fx_ribbon_env false false) 0 2 fx_graph
    (fx_solver fx_disjoint_plans) ["a", "b"] 2 fx_least rfl (by decide) hok (by decide) hleast
    hproper hlast⟩

/-! ## Bounds of the picked ribbon size -/

theorem ribbon_search_candidates_subset (env : RibbonEnv) (graph : Graph)
    (graph_solver : GraphSolver) (scheduled_ops : List String) (indices : List Nat)
    (st st' : RibbonSearch)
    (h : ribbon_search env graph graph_solver scheduled_ops indices st = some st') :
    ∀ c ∈ st'.candidates, c ∈ st.candidates := by
  induction indices generalizing st with
  | nil =>
    simp only [ribbon_search, Option.some.injEq] at h
    subst h
    exact fun c hc => hc
  | cons i rest ih =>
    simp only [ribbon_search] at h
    cases hname : scheduled_ops[i]? with
    | none => simp [hname] at h
    | some name =>
      cases hrows : op_valid_rows env (graph_solver.op_models (graph.get_node_by_name name))
          (st.valid_map i) with
      | none => simp [hname, hrows] at h
      | some rows =>
        simp only [hname, hrows, Option.some_bind] at h
        split at h
        · simp only [Option.some.injEq] at h
          subst h
          exact fun c hc => (List.mem_filter.1 hc).1
        · exact fun c hc => (List.mem_filter.1 (ih _ h c hc)).1

theorem ribbon_search_total (env : RibbonEnv) (graph : Graph) (graph_solver : GraphSolver)
    (scheduled_ops : List String) (indices : List Nat) (st : RibbonSearch)
    (hlen : ∀ i ∈ indices, i < scheduled_ops.length)
    (hpre : ∀ i ∈ indices, ∀ p ∈ window_plans graph graph_solver scheduled_ops i,
      prologue_ok p ≠ none) :
    ∃ st', ribbon_search env graph graph_solver scheduled_ops indices st = some st' := by
  induction indices generalizing st with
  | nil => exact ⟨st, rfl⟩
  | cons i rest ih =>
    have hi : i < scheduled_ops.length := hlen i (List.mem_cons_self _ _)
    have hname : scheduled_ops[i]? = some scheduled_ops[i] := List.getElem?_eq_getElem hi
    have hwin : window_plans graph graph_solver scheduled_ops i =
        graph_solver.op_models (graph.get_node_by_name scheduled_ops[i]) := by
      simp [window_plans, hname]
    obtain ⟨rows, hrows, _⟩ := op_valid_rows_spec env
      (graph_solver.op_models (graph.get_node_by_name scheduled_ops[i])) (st.valid_map i)
      (by rw [← hwin]; exact hpre i (List.mem_cons_self _ _))
    simp only [ribbon_search, hname, Option.some_bind, hrows]
    split
    · exact ⟨_, rfl⟩
    · exact ih _ (fun j hj => hlen j (List.mem_cons_of_mem _ hj))
        (fun j hj => hpre j (List.mem_cons_of_mem _ hj))

theorem ribbon_fallback_mem (indices : List Nat) (valid_map : Nat → List Nat)
    (candidates : List Nat) :
    ribbon_fallback indices valid_map candidates = 1 ∨
      ribbon_fallback indices valid_map candidates ∈ candidates := by
  induction candidates with
  | nil => exact Or.inl rfl
  | cons c rest ih =>
    simp only [ribbon_fallback]
    split
    · exact ih.imp id (List.mem_cons_of_mem _)
    · split
      · exact Or.inr (List.mem_cons_self _ _)
      · exact ih.imp id (List.mem_cons_of_mem _)

theorem max_ribbon_size_of_nonneg_cap (env : RibbonEnv) (device_rows : Nat)
    (hcap : ∀ cap, env.ribbon_max_height = some cap → 0 ≤ cap)
    (hrows : device_rows < 2147483648) :
    ((max_ribbon_size env device_rows : Nat) : Int) =
      min (env.ribbon_max_height.getD (device_rows : Int)) (device_rows : Int) := by
  have h32 : to_int32 device_rows = (device_rows : Int) := by
    unfold to_int32
    have hmod : device_rows % 4294967296 = device_rows := Nat.mod_eq_of_lt (by omega)
    rw [hmod, if_pos hrows]
  unfold max_ribbon_size to_uint32
  rw [h32]
  cases hc : env.ribbon_max_height with
  | none =>
    simp only [Option.getD_none, min_self]
    omega
  | some cap =>
    have h0 := hcap cap hc
    simp only [Option.getD_some]
    rcases le_total cap (device_rows : Int) with hle | hle
    · rw [min_eq_left hle]
      omega
    · rw [min_eq_right hle]
      omega

/-- The value returned by `pick_ribbon_size` is 1 or lies between 1 and `max_ribbon_size`. -/
theorem pick_ribbon_size_range (env : RibbonEnv) (start_index end_index : Nat)
    (graph : Graph) (graph_solver : GraphSolver) (scheduled_ops : List String)
    (device_rows r : Nat)
    (h : pick_ribbon_size env start_index end_index graph graph_solver scheduled_ops
      device_rows = some r) :
    1 ≤ r ∧ (r = 1 ∨ r ≤ max_ribbon_size env device_rows) := by
  unfold pick_ribbon_size at h
  simp only at h
  cases hall : ribbon_range (max_ribbon_size env device_rows) with
  | none => simp [hall] at h
  | some all_sizes =>
    have hsizes : all_sizes = List.range' 1 (max_ribbon_size env device_rows) := by
      unfold ribbon_range at hall
      split at hall
      · simp at hall
      · simp only [Option.some.injEq] at hall
        exact hall.symm
    have hmem : ∀ c ∈ all_sizes, 1 ≤ c ∧ c ≤ max_ribbon_size env device_rows := by
      intro c hc
      rw [hsizes] at hc
      have := List.mem_range'_1.1 hc
      omega
    simp only [hall, Option.some_bind] at h
    cases hs : ribbon_search env graph graph_solver scheduled_ops
        (List.range' start_index (end_index - start_index))
        { candidates := all_sizes, valid_map := fun _ => [] } with
    | none => simp [hs] at h
    | some st =>
      have hsub := ribbon_search_candidates_subset env graph graph_solver scheduled_ops _ _ st hs
      simp only [hs, Option.some_bind] at h
      split at h
      · rename_i hne
        have hne' : st.candidates ≠ [] := by
          intro h0
          simp [h0] at hne
        simp only [Option.some.injEq] at h
        have hin : r ∈ st.candidates := by
          rw [← h]
          split
          · exact (min_element_spec _ hne').1
          · exact (max_element_spec _ hne').1
        have := hmem r (hsub r hin)
        exact ⟨this.1, Or.inr this.2⟩
      · simp only [Option.some.injEq] at h
        rcases ribbon_fallback_mem (List.range' start_index (end_index - start_index))
          st.valid_map (if (!env.ribbon_maximize) = true then all_sizes
            else all_sizes.reverse) with h1 | hin
        · rw [h1] at h
          exact ⟨by omega, Or.inl h.symm⟩
        · rw [h] at hin
          have hin' : r ∈ all_sizes := by
            split at hin
            · exact hin
            · exact List.mem_reverse.1 hin
          have := hmem r hin'
          exact ⟨this.1, Or.inr this.2⟩

theorem pick_ribbon_size_returns (env : RibbonEnv) (start_index end_index : Nat)
    (graph : Graph) (graph_solver : GraphSolver) (scheduled_ops : List String)
    (device_rows : Nat)
    (hok : window_ok start_index end_index graph graph_solver scheduled_ops)
    (hbound : max_ribbon_size env device_rows ≠ 4294967295) :
    ∃ r, pick_ribbon_size env start_index end_index graph graph_solver scheduled_ops
      device_rows = some r := by
  obtain ⟨hend, hpre⟩ := hok
  obtain ⟨st, hst⟩ := ribbon_search_total env graph graph_solver scheduled_ops
    (List.range' start_index (end_index - start_index))
    { candidates := List.range' 1 (max_ribbon_size env device_rows), valid_map := fun _ => [] }
    (fun i hi => lt_of_lt_of_le ((mem_window_indices _ _ _).1 hi).2 hend)
    (fun i hi => hpre i ((mem_window_indices _ _ _).1 hi).1 ((mem_window_indices _ _ _).1 hi).2)
  simp only [pick_ribbon_size, ribbon_range_of_ne _ hbound, Option.some_bind, hst]
  split <;> exact ⟨_, rfl⟩

/-- Claim C31, counterexample. On a device of `2^31` rows with the cap 5, maximizing, the empty
window gets the ribbon size `2^31`, above `max(1, min(5, 2^31)) = 5`: the conversion
`(int)device_rows` is negative, so the minimum with the cap is the converted row count. -/
theorem pick_ribbon_size_exceeds_cap_counterexample :
    pick_ribbon_size fx_capped_env 0 0 fx_graph (fx_solver fx_full_plans) [] 2147483648 =
      some 2147483648 ∧
    max (1 : Int) (min (fx_capped_env.ribbon_max_height.getD 2147483648) 2147483648) = 5 := by
  have hN : max_ribbon_size fx_capped_env 2147483648 = 2147483648 := by decide
  have hok : window_ok 0 0 fx_graph (fx_solver fx_full_plans) [] :=
    ⟨le_refl _, fun i _ hi => absurd hi (Nat.not_lt_zero i)⟩
  have hc : common_row fx_capped_env 0 0 fx_graph (fx_solver fx_full_plans) []
      2147483648 2147483648 :=
    ⟨by decide, by rw [hN], fun i _ hi => absurd hi (Nat.not_lt_zero i)⟩
  obtain ⟨r, hr, hcr, _, hmax⟩ := pick_ribbon_size_of_common fx_capped_env 0 0 fx_graph
    (fx_solver fx_full_plans) [] 2147483648 hok (by rw [hN]; decide) 2147483648 hc
  have h1 := hmax rfl 2147483648 hc
  have h2 := hcr.2.1
  rw [hN] at h2
  have hr2 : r = 2147483648 := by omega
  refine ⟨by rw [hr, hr2], ?_⟩
  simp [fx_capped_env]

/-- Claim C31, amended. With a non-negative cap (or none) and a device row count below `2^31`,
so that `(int)device_rows` is the row count, every value `r` returned by `pick_ribbon_size`,
for every window, candidate plans and maximize flag, satisfies
`1 <= r <= max(1, min(cap, device rows))`, the cap being the device row count when none is
set; so `r` is at most the device row count unless the device has no row. The function returns
a value under its preconditions (window within the schedule, assertions of `prologue_ok`). -/
theorem pick_ribbon_size_within_bounds (env : RibbonEnv) (start_index end_index : Nat)
    (graph : Graph) (graph_solver : GraphSolver) (scheduled_ops : List String)
    (device_rows : Nat)
    (hcap : ∀ cap, env.ribbon_max_height = some cap → 0 ≤ cap)
    (hrows : device_rows < 2147483648) :
    (∀ r, pick_ribbon_size env start_index end_index graph graph_solver scheduled_ops
        device_rows = some r →
      1 ≤ r ∧
      (r : Int) ≤ max 1 (min (env.ribbon_max_height.getD (device_rows : Int)) device_rows) ∧
      (device_rows ≠ 0 → r ≤ device_rows)) ∧
    (window_ok start_index end_index graph graph_solver scheduled_ops →
      ∃ r, pick_ribbon_size env start_index end_index graph graph_solver scheduled_ops
        device_rows = some r) := by
  have hN := max_ribbon_size_of_nonneg_cap env device_rows hcap hrows
  have hle : ((max_ribbon_size env device_rows : Nat) : Int) ≤ device_rows := by
    rw [hN]
    exact min_le_right _ _
  refine ⟨fun r hr => ?_, fun hok => ?_⟩
  · obtain ⟨h1, h2⟩ := pick_ribbon_size_range env start_index end_index graph graph_solver
      scheduled_ops device_rows r hr
    rw [← hN]
    refine ⟨h1, ?_, fun h0 => ?_⟩
    · rcases h2 with h2 | h2
      · rw [h2]
        exact le_max_left _ _
      · exact le_trans (by exact_mod_cast h2) (le_max_right _ _)
    · rcases h2 with h2 | h2
      · omega
      · omega
  · exact pick_ribbon_size_returns env start_index end_index graph graph_solver scheduled_ops
      device_rows hok (by omega)

/-- Witness for C31 (amended): the window `a, b` of plans on 1 and 2 rows on a device of 8 rows
with the cap 5, maximizing; the result is 2. -/
theorem pick_ribbon_size_within_bounds_witness :
    (∀ cap, fx_capped_env.ribbon_max_height = some cap → 0 ≤ cap) ∧
    pick_ribbon_size fx_capped_env 0 2 fx_graph (fx_solver fx_full_plans) ["a", "b"] 8 =
      some 2 ∧
    (1 ≤ 2 ∧
      ((2 : Nat) : Int) ≤ max 1 (min (fx_capped_env.ribbon_max_height.getD ((8 : Nat) : Int))
        (8 : Nat)) ∧
      ((8 : Nat) ≠ 0 → 2 ≤ 8)) :=
  have hcap : ∀ cap, fx_capped_env.ribbon_max_height = some cap → 0 ≤ cap := by
    intro cap h
    have h5 : cap = 5 := by
      simp only [fx_capped_env, Option.some.injEq] at h
      exact h.symm
    omega
  have hpick : pick_ribbon_size fx_capped_env 0 2 fx_graph (fx_solver fx_full_plans)
      ["a", "b"] 8 = some 2 := by decide
  ⟨hcap, hpick, (pick_ribbon_size_within_bounds fx_capped_env 0 2 fx_graph
    (fx_solver fx_full_plans) ["a", "b"] 8 hcap (by decide)).1 2 hpick⟩

/-! ## Range of the next ribbon change -/

theorem find_sparse_index_spec (scheduled_ops : List String) (name : String) (bound j : Nat)
    (h : find_sparse_index scheduled_ops name bound = some j) :
    j < bound ∧ scheduled_ops[j]? = some name ∧
      ∀ k, j < k → k < bound → scheduled_ops[k]? ≠ some name := by
  induction bound with
  | zero => simp [find_sparse_index] at h
  | succ b ih =>
    simp only [find_sparse_index] at h
    split at h
    · rename_i hb
      simp only [Option.some.injEq] at h
      subst h
      exact ⟨Nat.lt_succ_self _, hb, fun k h1 h2 => by omega⟩
    · rename_i hb
      obtain ⟨h1, h2, h3⟩ := ih h
      refine ⟨by omega, h2, fun k hk1 hk2 => ?_⟩
      by_cases hkb : k = b
      · subst hkb
        exact hb
      · exact h3 k hk1 (by omega)

theorem scan_operands_spec (graph : Graph) (scheduled_ops : List String) (i : Nat)
    (operands : List Node) (idx : Nat)
    (h : scan_operands graph scheduled_ops i operands = some (some idx)) :
    idx = i ∨ feeding_sparse_index graph scheduled_ops operands i idx := by
  induction operands with
  | nil => simp [scan_operands] at h
  | cons operand rest ih =>
    simp only [scan_operands] at h
    cases hq : skip_buffering_queue graph operand with
    | none => simp [hq] at h
    | some source =>
      simp only [hq, Option.some_bind] at h
      split at h
      · rcases ih h with h1 | ⟨hlt, o, ho, src, hs⟩
        · exact Or.inl h1
        · exact Or.inr ⟨hlt, o, List.mem_cons_of_mem _ ho, src, hs⟩
      · rename_i htype
        split at h
        · rename_i hsparse
          cases hf : find_sparse_index scheduled_ops source.name i with
          | none =>
            simp only [hf, Option.some.injEq] at h
            exact Or.inl h.symm
          | some sparse_i =>
            simp only [hf, Option.some.injEq] at h
            subst h
            obtain ⟨hlt, hname, hmax⟩ := find_sparse_index_spec _ _ _ _ hf
            exact Or.inr ⟨hlt, operand, List.mem_cons_self _ _, source, hq,
              by simpa using htype, hsparse, hname, hmax⟩
        · simp only [Option.some.injEq] at h
          exact Or.inl h.symm

theorem ribbon_change_scan_spec (graph : Graph) (scheduled_ops : List String)
    (indices : List Nat) (tracked idx tracked_out : Nat)
    (h : ribbon_change_scan graph scheduled_ops indices tracked = some (idx, tracked_out)) :
    idx = scheduled_ops.length ∨
      ∃ i ∈ indices, change_found_at graph scheduled_ops tracked_out i idx := by
  induction indices generalizing tracked with
  | nil =>
    simp only [ribbon_change_scan, Option.some.injEq, Prod.mk.injEq] at h
    exact Or.inl h.1.symm
  | cons i rest ih =>
    have hrest : ∀ t, ribbon_change_scan graph scheduled_ops rest t = some (idx, tracked_out) →
        idx = scheduled_ops.length ∨
          ∃ j ∈ i :: rest, change_found_at graph scheduled_ops tracked_out j idx := by
      intro t ht
      rcases ih t ht with h1 | ⟨j, hj, h2⟩
      · exact Or.inl h1
      · exact Or.inr ⟨j, List.mem_cons_of_mem _ hj, h2⟩
    simp only [ribbon_change_scan] at h
    cases hname : scheduled_ops[i]? with
    | none => simp [hname] at h
    | some name =>
      simp only [hname, Option.some_bind] at h
      split at h
      · exact hrest _ h
      · rename_i htype
        split at h
        · exact hrest _ h
        · rename_i hmatmul
          split at h
          · exact hrest _ h
          · rename_i hzero
            split at h
            · exact hrest _ h
            · rename_i hdiff
              cases hs : scan_operands graph scheduled_ops i
                  (graph.data_operands (graph.get_node_by_name name)) with
              | none => simp [hs] at h
              | some found =>
                simp only [hs, Option.some_bind] at h
                cases found with
                | none => exact hrest _ h
                | some index =>
                  simp only [Option.some.injEq, Prod.mk.injEq] at h
                  obtain ⟨hidx, htracked⟩ := h
                  subst hidx
                  subst htracked
                  refine Or.inr ⟨i, List.mem_cons_self _ _, name, hname, ?_, hzero, hdiff,
                    scan_operands_spec graph scheduled_ops i _ _ hs⟩
                  rw [qualifying_matmul_iff]
                  exact ⟨by simpa using htype, by simpa using hmatmul⟩

theorem scan_operands_total (graph : Graph) (scheduled_ops : List String) (i : Nat)
    (operands : List Node)
    (hqueue : ∀ operand ∈ operands, skip_buffering_queue graph operand ≠ none) :
    ∃ found, scan_operands graph scheduled_ops i operands = some found := by
  induction operands with
  | nil => exact ⟨none, rfl⟩
  | cons operand rest ih =>
    simp only [scan_operands]
    cases hq : skip_buffering_queue graph operand with
    | none => exact absurd hq (hqueue operand (List.mem_cons_self _ _))
    | some source =>
      simp only [Option.some_bind]
      split
      · exact ih fun x hx => hqueue x (List.mem_cons_of_mem _ hx)
      · split
        · cases find_sparse_index scheduled_ops source.name i <;> exact ⟨_, rfl⟩
        · exact ⟨_, rfl⟩

theorem ribbon_change_scan_total (graph : Graph) (scheduled_ops : List String)
    (indices : List Nat) (tracked : Nat)
    (hlen : ∀ i ∈ indices, i < scheduled_ops.length)
    (hqueue : ∀ node operand, operand ∈ graph.data_operands node →
      skip_buffering_queue graph operand ≠ none) :
    ∃ result, ribbon_change_scan graph scheduled_ops indices tracked = some result := by
  induction indices generalizing tracked with
  | nil => exact ⟨_, rfl⟩
  | cons i rest ih =>
    have hrest := fun t => ih t fun j hj => hlen j (List.mem_cons_of_mem _ hj)
    have hi : i < scheduled_ops.length := hlen i (List.mem_cons_self _ _)
    have hname : scheduled_ops[i]? = some scheduled_ops[i] := List.getElem?_eq_getElem hi
    simp only [ribbon_change_scan, hname, Option.some_bind]
    split
    · exact hrest _
    · split
      · exact hrest _
      · split
        · exact hrest _
        · split
          · exact hrest _
          · obtain ⟨found, hfound⟩ := scan_operands_total graph scheduled_ops i
              (graph.data_operands (graph.get_node_by_name scheduled_ops[i]))
              (fun operand ho => hqueue _ operand ho)
            rw [hfound]
            cases found with
            | none => exact hrest _
            | some index => exact ⟨_, rfl⟩

/-- Claim C32, counterexample. In the schedule `S, D` the dense matmul `D` at index 1 has a
row-tile count other than the tracked value 2 and is fed by the sparse matmul `S` at index 0:
the scan started at index 1 returns the index 0. -/
theorem get_next_ribbon_change_op_before_start_counterexample :
    get_next_ribbon_change_op fx_sparse_fed_graph 1 ["S", "D"] 2 = some (0, 2) := by
  decide

/-- Claim C32, amended. For a start index within the schedule, an index returned by
`get_next_ribbon_change_op` is at most `scheduled_ops.size()`, and it is
`scheduled_ops.size()`, or the index `i`, at or after the start index, of a qualifying matmul
whose row-tile count differs from the returned tracked value, or the index of the sparse matmul
feeding that matmul: a data operand of the matmul at `i` (after the step through a buffering
queue) that is a sparse matmul op, at the greatest index below `i` holding its name. Only this
last index, found by a search back over the whole schedule, can lie before the start index. The
function returns when no buffering-queue assertion fails. -/
theorem get_next_ribbon_change_op_index_range (graph : Graph) (current_index : Nat)
    (scheduled_ops : List String) (current_matmul_dim_r : Nat)
    (hstart : current_index ≤ scheduled_ops.length) :
    (∀ idx tracked, get_next_ribbon_change_op graph current_index scheduled_ops
        current_matmul_dim_r = some (idx, tracked) →
      idx ≤ scheduled_ops.length ∧
      (idx = scheduled_ops.length ∨
        ∃ i, current_index ≤ i ∧ i < scheduled_ops.length ∧
          change_found_at graph scheduled_ops tracked i idx) ∧
      (idx < current_index →
        ∃ i name, current_index ≤ i ∧ i < scheduled_ops.length ∧
          scheduled_ops[i]? = some name ∧
          qualifying_matmul (graph.get_node_by_name name) ∧
          (graph.get_node_by_name name).shape_rt ≠ tracked ∧
          feeding_sparse_index graph scheduled_ops
            (graph.data_operands (graph.get_node_by_name name)) i idx)) ∧
    ((∀ node operand, operand ∈ graph.data_operands node →
        skip_buffering_queue graph operand ≠ none) →
      ∃ result, get_next_ribbon_change_op graph current_index scheduled_ops
        current_matmul_dim_r = some result) := by
  refine ⟨fun idx tracked h => ?_, fun hqueue => ?_⟩
  · unfold get_next_ribbon_change_op at h
    rcases ribbon_change_scan_spec graph scheduled_ops _ _ idx tracked h with
      h1 | ⟨i, hi, hfound⟩
    · exact ⟨by omega, Or.inl h1, fun hlt => by omega⟩
    · have hb := (mem_window_indices _ _ _).1 hi
      obtain ⟨name, hname, hq, hzero, hdiff, hidx⟩ := hfound
      refine ⟨?_, Or.inr ⟨i, hb.1, hb.2, name, hname, hq, hzero, hdiff, hidx⟩, fun hlt => ?_⟩
      · rcases hidx with h2 | h2
        · omega
        · have := h2.1
          omega
      · rcases hidx with h2 | h2
        · omega
        · exact ⟨i, name, hb.1, hb.2, hname, hq, hdiff, h2⟩
  · exact ribbon_change_scan_total graph scheduled_ops _ _
      (fun i hi => ((mem_window_indices _ _ _).1 hi).2) hqueue

/-- Witness for C32 (amended): the scan of the counterexample, whose result 0 is the index of
the sparse matmul `S`, the data operand of the dense matmul `D` scheduled at index 1. -/
theorem get_next_ribbon_change_op_index_range_witness :
    1 ≤ ["S", "D"].length ∧
    get_next_ribbon_change_op fx_sparse_fed_graph 1 ["S", "D"] 2 = some (0, 2) ∧
    ∃ i name, 1 ≤ i ∧ i < ["S", "D"].length ∧ ["S", "D"][i]? = some name ∧
      qualifying_matmul (fx_sparse_fed_graph.get_node_by_name name) ∧
      (fx_sparse_fed_graph.get_node_by_name name).shape_rt ≠ 2 ∧
      feeding_sparse_index fx_sparse_fed_graph ["S", "D"]
        (fx_sparse_fed_graph.data_operands (fx_sparse_fed_graph.get_node_by_name name)) i 0 :=
  ⟨by decide, by decide,
    ((get_next_ribbon_change_op_index_range fx_sparse_fed_graph 1 ["S", "D"] 2
      (by decide)).1 0 2 (by decide)).2.2 (by decide)⟩

/-! ## Epoch counts per epoch type -/

theorem fill_epoch_to_op_names_total (entries : List (String × OpPlacement))
    (epoch_to_op_names : List (List String))
    (hepochs : ∀ kvp ∈ entries, kvp.2.epoch_id < epoch_to_op_names.length) :
    ∃ filled, fill_epoch_to_op_names entries epoch_to_op_names = some filled := by
  induction entries generalizing epoch_to_op_names with
  | nil => exact ⟨_, rfl⟩
  | cons kvp rest ih =>
    have he := hepochs kvp (List.mem_cons_self _ _)
    simp only [fill_epoch_to_op_names, List.getElem?_eq_getElem he, Option.some_bind]
    exact ih _ fun x hx => by
      rw [List.length_set]
      exact hepochs x (List.mem_cons_of_mem _ hx)

theorem pop_back_zeros_spec (counts : List Nat) :
    (pop_back_zeros counts = none ↔ ∀ count ∈ counts, count = 0) ∧
    ∀ kept, pop_back_zeros counts = some kept →
      kept = counts.dropWhile (fun count => count == 0) ∧ kept.head? ≠ some 0 ∧ kept ≠ [] := by
  induction counts with
  | nil => simp [pop_back_zeros]
  | cons back front ih =>
    by_cases h0 : back = 0
    · subst h0
      simp only [pop_back_zeros, if_true, List.mem_cons, forall_eq_or_imp, true_and]
      refine ⟨ih.1, fun kept hk => ?_⟩
      have := ih.2 kept hk
      simpa using this
    · simp only [pop_back_zeros, if_neg h0]
      refine ⟨by simp [h0], fun kept hk => ?_⟩
      simp only [Option.some.injEq] at hk
      subst hk
      simp [h0]

/-- The result of `get_num_epochs_per_node_epoch_type` when every epoch id is below
`num_epochs`: undefined when the three counts are 0, and otherwise the counts without their
trailing zeros, a list ending in a non-zero count. -/
theorem get_num_epochs_per_node_epoch_type_spec (placer_solution : PlacerSolution)
    (hepochs : ∀ kvp ∈ placer_solution.name_to_op_placement,
      kvp.2.epoch_id < placer_solution.num_epochs) :
    (get_num_epochs_per_node_epoch_type placer_solution = none ↔
      ∀ epoch_type, placer_solution.num_temporal_epochs epoch_type = 0) ∧
    ∀ counts, get_num_epochs_per_node_epoch_type placer_solution = some counts →
      counts = strip_trailing_zeros
        [placer_solution.num_temporal_epochs NodeEpochType.Forward,
         placer_solution.num_temporal_epochs NodeEpochType.Backward,
         placer_solution.num_temporal_epochs NodeEpochType.Optimizer] ∧
      counts ≠ [] ∧ counts.getLast? ≠ some 0 := by
  obtain ⟨filled, hfilled⟩ := fill_epoch_to_op_names_total
    placer_solution.name_to_op_placement (List.replicate placer_solution.num_epochs [])
    (by simpa using hepochs)
  obtain ⟨hnone, hsome⟩ := pop_back_zeros_spec
    [placer_solution.num_temporal_epochs NodeEpochType.Forward,
     placer_solution.num_temporal_epochs NodeEpochType.Backward,
     placer_solution.num_temporal_epochs NodeEpochType.Optimizer].reverse
  unfold get_num_epochs_per_node_epoch_type
  simp only [hfilled, Option.some_bind]
  constructor
  · rw [Option.map_eq_none', hnone]
    constructor
    · intro h epoch_type
      cases epoch_type
      · exact h _ (by simp)
      · exact h _ (by simp)
      · exact h _ (by simp)
    · intro h count hc
      simp only [List.reverse_cons, List.reverse_nil, List.nil_append, List.cons_append,
        List.mem_cons, List.mem_singleton, List.not_mem_nil, or_false] at hc
      rcases hc with hc | hc | hc <;> rw [hc] <;> exact h _
  · intro counts hc
    rw [Option.map_eq_some'] at hc
    obtain ⟨kept, hk, hrev⟩ := hc
    obtain ⟨h1, h2, h3⟩ := hsome kept hk
    subst hrev
    refine ⟨by rw [h1]; rfl, by simpa using h3, ?_⟩
    rw [List.getLast?_reverse]
    exact h2

/-- Claim C33, evaluation at the failing input. For the solution without op and without epoch,
whose three counts of temporal epochs are 0 and whose placements (none) all carry an epoch id
below `num_epochs`, `get_num_epochs_per_node_epoch_type` has no defined result: after three
`pop_back` the loop condition reads `back()` of an empty vector. -/
theorem get_num_epochs_per_node_epoch_type_all_zero :
    (∀ kvp ∈ fx_empty_solution.name_to_op_placement,
      kvp.2.epoch_id < fx_empty_solution.num_epochs) ∧
    (∀ epoch_type, fx_empty_solution.num_temporal_epochs epoch_type = 0) ∧
    get_num_epochs_per_node_epoch_type fx_empty_solution = none := by
  refine ⟨by decide, fun _ => rfl, by decide⟩

end PolicyUtils
